import Mathlib

/-!
# Frame forging and command bursts of `iohcCozyDevice2W`

A shallow embedding of `src/src/iohcCozyDevice2W.cpp`.

* A packet is a record; the header fields of `payload.packet.header` are kept as
  separate fields and `body` is `payload.buffer` from offset 9 on.
* Bytes are natural numbers, reduced modulo 256 where the C++ code stores into a
  `uint8_t`.
* The controller is a record of the members that `cmd`, `forgePacket`, `isFake`,
  `initializeValid`, `load` and `save` read or write; the radio is a log of the bursts
  handed to `send`.
* LED toggling, time stamps and serial console lines of `cmd` are not modelled.
* Declarations that live in headers outside the translated sources (bit-field
  widths, the contents of a freshly allocated packet, `AceiUnion`, the standard
  library parsers) are collected in `Decls` and every theorem quantifies over them.
-/

namespace IOHC

/-! ## Bytes and bit-fields -/

/-- Read the one-bit bit-field at bit position `k` of a byte. -/
def getBit (b k : Nat) : Nat := if b.testBit k then 1 else 0

/-- Assign `v` to the one-bit bit-field at bit position `k`; as in C++ the value is
truncated to the width of the field and the other bits keep their value. -/
def setBit (b k v : Nat) : Nat :=
  if v % 2 = 1 then b ||| 2 ^ k else b ^^^ (b &&& 2 ^ k)

/-- Read the bit-field made of the low `w` bits of a byte. -/
def getLow (b w : Nat) : Nat := b % 2 ^ w

/-- Assign `v` to the bit-field made of the low `w` bits; the value is truncated to
`w` bits and the higher bits keep their value. -/
def setLow (b w v : Nat) : Nat := 2 ^ w * (b / 2 ^ w) + v % 2 ^ w

/-- A node address: `typedef uint8_t address[3]`. -/
structure address where
  b0 : Nat
  b1 : Nat
  b2 : Nat
deriving DecidableEq, Repr

/-! ## Packets -/

/-- The fields of `iohcPacket` used by the translated code. `CtrlByte1`, `CtrlByte2`,
`cmd`, `source` and `target` are the header (the first nine bytes of
`payload.buffer`); `body` is `payload.buffer` from offset 9 to its end. -/
structure iohcPacket where
  CtrlByte1 : Nat
  CtrlByte2 : Nat
  cmd : Nat
  source : address
  target : address
  body : List Nat
  buffer_length : Nat
  frequency : Nat
  repeatTime : Nat
  repeat_ : Nat
  lock : Bool
  delayed : Nat
deriving DecidableEq, Repr

/-- The byte of `payload.buffer` at offset `off`, for offsets behind the header. -/
def iohcPacket.bufferAt (p : iohcPacket) (off : Nat) : Option Nat :=
  if 9 ≤ off then p.body[off - 9]? else none

/-- Exceptions of the C++ standard library that the translated code can raise. -/
inductive Exn
  | invalid_argument
  | out_of_range
deriving DecidableEq, Repr

/-- Result of `std::stof`: a finite binary32 value `m * 2 ^ e`, or an infinity or NaN. -/
inductive FloatVal
  | finite (m : Int) (e : Int)
  | nonFinite
deriving DecidableEq, Repr

/-- Declarations used by the translated code whose text is in headers that are not
part of the translated sources.

* `msgLenBits`: width of the bit-field `CtrlByte1.asStruct.MsgLen`. The bit-fields of
  control byte 1 are taken in the order in which `forgePacket` assigns them, from the
  least significant bit: `MsgLen`, `Protocol`, `StartFrame`, `EndFrame`.
* `lpmBit`, `prioBit`: positions of `CtrlByte2.asStruct.LPM` and `.Prio`.
* `fresh`: the contents of a packet right after `new iohcPacket`.
* `aceiValid`: `ACEI.asStruct.isvalid && ACEI.asStruct.service == 0` as a function of
  `ACEI.asByte`.
* `stof`, `stoi`: `std::stof` and `std::stoi`.
* `hexStringToBytes`, `bytesToHexString`: the helpers of `iohcCryptoHelpers.h`, on
  3-byte addresses. -/
structure Decls where
  msgLenBits : Fin 6
  lpmBit : Fin 8
  prioBit : Fin 8
  fresh : iohcPacket
  aceiValid : Nat → Bool
  stof : String → Except Exn FloatVal
  stoi : String → Except Exn Int
  hexStringToBytes : String → address
  bytesToHexString : address → String

/-- Bit position of `CtrlByte1.asStruct.Protocol`. -/
def Decls.protocolBit (D : Decls) : Nat := D.msgLenBits.val

/-- Bit position of `CtrlByte1.asStruct.StartFrame`. -/
def Decls.startBit (D : Decls) : Nat := D.msgLenBits.val + 1

/-- Bit position of `CtrlByte1.asStruct.EndFrame`. -/
def Decls.endBit (D : Decls) : Nat := D.msgLenBits.val + 2

/-- Modelled from the spec: the header `_header` is missing from the sources; the spec
gives its size as 9 bytes (two control bytes, command code, two 3-byte addresses), in
line with the comment `8 if protocol version is 0` and the payload offset `buffer + 9`
of `forgePacket`. -/
def sizeof_header : Nat := 9

/-- Modelled from the spec: the declaration of the control-byte-1 union is missing
from the sources; the spec's data model gives the frame-length field 4 bits. -/
def specMsgLenBits : Fin 6 := 4

/-- Channel frequency `CHANNEL1` of `board-config.h`, in Hz. -/
def CHANNEL1 : Nat := 868250000

/-- Channel frequency `CHANNEL2` of `board-config.h`, in Hz. -/
def CHANNEL2 : Nat := 868950000

/-- Channel frequency `CHANNEL3` of `board-config.h`, in Hz. -/
def CHANNEL3 : Nat := 869850000

/-- The effect of `memcpy(buffer + 9, src, n)` on the part of the buffer behind the
header, for a source that fits: `src` replaces the first bytes of `body`. A source
longer than `body` makes the C++ copy write past the buffer, which is undefined
behaviour: `forgePacketCall` marks that case, and for it the value of this function
(the source cut at the end of the buffer) describes no execution. -/
def memcpyBody (body src : List Nat) : List Nat :=
  src.take body.length ++ body.drop src.length

/-- The C++ `iohcCozyDevice2W::forgePacket(packet, toSend)`: the packet after the call,
for a payload that fits the buffer behind the header (`forgePacketCall` below is the
call for every payload). `buffer_length` is kept as a natural number (the width of the
member is in a header outside the translated sources; the payloads of `cmd` have at
most 21 bytes). -/
def forgePacket (D : Decls) (packet : iohcPacket) (toSend : List Nat) : iohcPacket :=
  -- MsgLen = sizeof(_header) - 1; Protocol = 0; StartFrame = 1; EndFrame = 0
  let c1 := setLow packet.CtrlByte1 D.msgLenBits.val (sizeof_header - 1)
  let c1 := setBit c1 D.protocolBit 0
  let c1 := setBit c1 D.startBit 1
  let c1 := setBit c1 D.endBit 0
  -- CtrlByte1.asByte += toSend.size()
  let c1 := (c1 + toSend.length) % 256
  { packet with
    CtrlByte1 := c1
    CtrlByte2 := 0
    body := memcpyBody packet.body toSend
    buffer_length := toSend.length + 9
    frequency := CHANNEL2
    repeatTime := 25
    repeat_ := 0
    lock := false }

/-- How a call of `forgePacket` ends: it returns with the packet as written, it leaves
through a C++ exception with the packet as it was when the exception was raised, or it
runs into undefined behaviour. -/
inductive ForgeOutcome
  | returned (p : iohcPacket)
  | thrown (e : Exn) (p : iohcPacket)
  | undefined
deriving DecidableEq, Repr

/-- The call `forgePacket(packet, toSend)` for every payload. The function has no test
of the size and no `throw`; its `memcpy(buffer + 9, toSend.data(), toSend.size())`
writes past `payload.buffer` when the payload is longer than the part of the buffer
behind the header, which is undefined behaviour. -/
def forgePacketCall (D : Decls) (packet : iohcPacket) (toSend : List Nat) : ForgeOutcome :=
  if toSend.length ≤ packet.body.length then .returned (forgePacket D packet toSend)
  else .undefined

/-- The field `CtrlByte1.asStruct.MsgLen` of a packet. -/
def iohcPacket.MsgLen (D : Decls) (p : iohcPacket) : Nat := getLow p.CtrlByte1 D.msgLenBits.val

/-- The field `CtrlByte1.asStruct.Protocol` of a packet. -/
def iohcPacket.Protocol (D : Decls) (p : iohcPacket) : Nat := getBit p.CtrlByte1 D.protocolBit

/-- The field `CtrlByte1.asStruct.StartFrame` of a packet. -/
def iohcPacket.StartFrame (D : Decls) (p : iohcPacket) : Nat := getBit p.CtrlByte1 D.startBit

/-- The field `CtrlByte1.asStruct.EndFrame` of a packet. -/
def iohcPacket.EndFrame (D : Decls) (p : iohcPacket) : Nat := getBit p.CtrlByte1 D.endBit

/-- The field `CtrlByte2.asStruct.LPM` of a packet. -/
def iohcPacket.LPM (D : Decls) (p : iohcPacket) : Nat := getBit p.CtrlByte2 D.lpmBit.val

/-- The field `CtrlByte2.asStruct.Prio` of a packet. -/
def iohcPacket.Prio (D : Decls) (p : iohcPacket) : Nat := getBit p.CtrlByte2 D.prioBit.val

/-! ## Standard-library behaviour used by `cmd` -/

/-- Number of bits by which `n` exceeds 24 significant bits (`fuel` bounds the search). -/
def excessBits : Nat → Nat → Nat
  | 0, _ => 0
  | fuel + 1, n => if n < 2 ^ 24 then 0 else 1 + excessBits fuel (n / 2)

/-- The quotient `n / 2 ^ k` rounded to the nearest integer, ties to even. -/
def roundShift (n k : Nat) : Nat :=
  let q := n / 2 ^ k
  let r := n % 2 ^ k
  if 2 * r < 2 ^ k then q
  else if 2 ^ k < 2 * r then q + 1
  else if q % 2 = 0 then q else q + 1

/-- The binary32 product `10 * x` (round to nearest, ties to even; a product beyond the
largest finite binary32 value is an infinity). -/
def tenTimes : FloatVal → FloatVal
  | .nonFinite => .nonFinite
  | .finite m e =>
    let n := 10 * m.natAbs
    let k := excessBits n n
    let n1 := roundShift n k
    let e1 := e + k
    if 0 ≤ e1 ∧ 2 ^ 128 ≤ n1 * 2 ^ e1.toNat then .nonFinite
    else .finite (m.sign * n1) e1

/-- Conversion of a float to `int`: truncation toward zero. The conversion of a value
outside the range of `int` (or of an infinity or NaN) is undefined: `none`. -/
def floatToInt : FloatVal → Option Int
  | .nonFinite => none
  | .finite m e =>
    let t : Int := if 0 ≤ e then m * 2 ^ e.toNat else Int.tdiv m (2 ^ (-e).toNat)
    if -2 ^ 31 ≤ t ∧ t < 2 ^ 31 then some t else none

/-- Conversion of an `int` to `uint8_t`. -/
def toUInt8 (i : Int) : Nat := (i % 256).toNat

/-- The characters of `s.c_str()` seen by a C string function: those before the first
NUL character. -/
def c_str (s : String) : List Char := s.toList.takeWhile (fun c => c ≠ Char.ofNat 0)

/-- The test `strcasecmp(a.c_str(), b) == 0`. -/
def strcasecmpEq (a b : String) : Bool :=
  (c_str a).map Char.toLower == (c_str b).map Char.toLower

/-- Tokens of a console command line: `std::vector<std::string>`. -/
abbrev Tokens := List String

/-- The checked element access `data->at(i)`. -/
def tokenAt (data : Tokens) (i : Nat) : Except Exn String :=
  match data[i]? with
  | some t => .ok t
  | none => .error .out_of_range

/-- The checked element access `v.at(i)` with an `int` index converted to `size_t`: a
negative index becomes a huge unsigned value and is out of range. -/
def vectorAt {α : Type} (v : List α) (i : Int) : Except Exn α :=
  if i < 0 then .error .out_of_range
  else match v[i.toNat]? with
    | some a => .ok a
    | none => .error .out_of_range

/-- Apply `g` to the last element, when there is one. -/
def modifyBack {α : Type} (g : α → α) : List α → List α
  | [] => []
  | [x] => [g x]
  | x :: y :: xs => x :: modifyBack g (y :: xs)

/-- Apply `g` to the element at index `i`, when there is one. -/
def modifyAt {α : Type} (g : α → α) : Nat → List α → List α
  | _, [] => []
  | 0, x :: xs => g x :: xs
  | i + 1, x :: xs => x :: modifyAt g i xs

/-! ## The controller -/

/-- The record `Memorize` behind `memorizeSend`. -/
structure Memorize where
  memorizedCmd : Nat
  memorizedData : List Nat
deriving DecidableEq, Repr

/-- The record `device` of the device list. -/
structure device where
  _node : address
  _dst : address
  _type : String
  _description : String
deriving DecidableEq, Repr

/-- The members of `iohcCozyDevice2W` (and the globals) that the translated functions
read or write. `mapValid` is the `std::map` as its list of (code, status) pairs in
iteration order, that is by ascending code. `sent` is the radio: the bursts handed to
`_radioInstance->send`, oldest first. `lastSendCmd` is the global `IOHC::lastSendCmd`. -/
@[ext] structure iohcCozyDevice2W where
  gateway : address
  master_from : address
  master_to : address
  slave_to : address
  addresses : List address
  devices : List device
  mapValid : List (Nat × Nat)
  packets2send : List iohcPacket
  memorizeSend : Memorize
  Fake : Bool
  lastSendCmd : Nat
  sent : List (List iohcPacket)
deriving DecidableEq, Repr

/-- How a call ends: it returns (`done`), it leaves through a C++ exception with the
controller as it was when the exception was raised (`thrown`), or it runs into
undefined behaviour (`undefined`). -/
inductive Outcome
  | done (s : iohcCozyDevice2W)
  | thrown (e : Exn) (s : iohcCozyDevice2W)
  | undefined
deriving DecidableEq, Repr

/-- The enumeration `DeviceButton`; `other` stands for every enumerator that has no
case of its own in `cmd`. -/
inductive DeviceButton
  | associate | powerOn | setTemp | setMode | setPresence | setWindow | midnight
  | custom | custom60 | discover28 | discover2A | fake0 | ack | checkCmd | other
deriving DecidableEq, Repr

/-- Command code `iohcDevice::SEND_WRITE_PRIVATE_0x20`. -/
def SEND_WRITE_PRIVATE_0x20 : Nat := 0x20

/-- Command code `iohcDevice::SEND_DISCOVER_0x28`. -/
def SEND_DISCOVER_0x28 : Nat := 0x28

/-- Command code `iohcDevice::SEND_DISCOVER_REMOTE_0x2A`. -/
def SEND_DISCOVER_REMOTE_0x2A : Nat := 0x2A

/-- Command code `iohcDevice::SEND_ASK_CHALLENGE_0x31`. -/
def SEND_ASK_CHALLENGE_0x31 : Nat := 0x31

/-- Command code `iohcDevice::SEND_KEY_TRANSFERT_ACK_0x33`. -/
def SEND_KEY_TRANSFERT_ACK_0x33 : Nat := 0x33

namespace iohcPacket

/-- The assignment `header.cmd = c` (a `uint8_t`). -/
def setCmd (c : Nat) (p : iohcPacket) : iohcPacket := { p with cmd := c % 256 }

/-- The assignment `header.CtrlByte1.asStruct.StartFrame = v`. -/
def setStartFrame (D : Decls) (v : Nat) (p : iohcPacket) : iohcPacket :=
  { p with CtrlByte1 := setBit p.CtrlByte1 D.startBit v }

/-- The assignment `header.CtrlByte1.asStruct.EndFrame = v`. -/
def setEndFrame (D : Decls) (v : Nat) (p : iohcPacket) : iohcPacket :=
  { p with CtrlByte1 := setBit p.CtrlByte1 D.endBit v }

/-- The assignment `header.CtrlByte2.asStruct.LPM = v`. -/
def setLPM (D : Decls) (v : Nat) (p : iohcPacket) : iohcPacket :=
  { p with CtrlByte2 := setBit p.CtrlByte2 D.lpmBit.val v }

/-- The assignment `header.CtrlByte2.asStruct.Prio = v`. -/
def setPrio (D : Decls) (v : Nat) (p : iohcPacket) : iohcPacket :=
  { p with CtrlByte2 := setBit p.CtrlByte2 D.prioBit.val v }

/-- The copy `memcpy(header.source, a, 3)`. -/
def setSource (a : address) (p : iohcPacket) : iohcPacket := { p with source := a }

/-- The copy `memcpy(header.target, a, 3)`. -/
def setTarget (a : address) (p : iohcPacket) : iohcPacket := { p with target := a }

/-- The assignment `delayed = d`. -/
def setDelayed (d : Nat) (p : iohcPacket) : iohcPacket := { p with delayed := d }

end iohcPacket

namespace iohcCozyDevice2W

/-- The call `packets2send.clear()`. -/
def clear (s : iohcCozyDevice2W) : iohcCozyDevice2W := { s with packets2send := [] }

/-- The call `packets2send.push_back(new iohcPacket)`. -/
def pushNew (D : Decls) (s : iohcCozyDevice2W) : iohcCozyDevice2W :=
  { s with packets2send := s.packets2send ++ [D.fresh] }

/-- An update `packets2send.back()->...` of the last packet of the queue. -/
def onBack (g : iohcPacket → iohcPacket) (s : iohcCozyDevice2W) : iohcCozyDevice2W :=
  { s with packets2send := modifyBack g s.packets2send }

/-- An update `packets2send[i]->...` of the packet at index `i` (used where `i` is a
valid index). -/
def onIndex (i : Nat) (g : iohcPacket → iohcPacket) (s : iohcCozyDevice2W) : iohcCozyDevice2W :=
  { s with packets2send := modifyAt g i s.packets2send }

/-- The assignment `memorizeSend.memorizedCmd = c`. -/
def memoCmd (c : Nat) (s : iohcCozyDevice2W) : iohcCozyDevice2W :=
  { s with memorizeSend := { s.memorizeSend with memorizedCmd := c % 256 } }

/-- The assignment `memorizeSend.memorizedData = toSend`. -/
def memoData (toSend : List Nat) (s : iohcCozyDevice2W) : iohcCozyDevice2W :=
  { s with memorizeSend := { s.memorizeSend with memorizedData := toSend } }

/-- The call `_radioInstance->send(packets2send)`. -/
def send (s : iohcCozyDevice2W) : iohcCozyDevice2W := { s with sent := s.sent ++ [s.packets2send] }

/-- The statements shared by the single-frame cases of `cmd`: clear the queue,
allocate and forge one packet, set the command code, memorise code and payload (the
cases differ in the order of these two assignments) and set `StartFrame`. -/
def forgeOne (D : Decls) (toSend : List Nat) (code : Nat) (s : iohcCozyDevice2W) :
    iohcCozyDevice2W :=
  let s := clear s
  let s := pushNew D s
  let s := onBack (fun p => forgePacket D p toSend) s
  let s := onBack (iohcPacket.setCmd code) s
  let s := memoData toSend s
  let s := memoCmd code s
  onBack (iohcPacket.setStartFrame D 1) s

/-- The payload selection of the `checkCmd` loop body for the entry with code `first`,
starting from the current contents of `toSend`. -/
def selectProbePayload (first : Nat) (toSend : List Nat) : List Nat :=
  let special12 : List Nat :=
    [0x01, 0x02, 0x03, 0x04, 0x05, 0x06, 0x07, 0x08, 0x09, 0x10, 0x11, 0x12, 0x13, 0x14,
     0x15, 0x16, 0x17, 0x18, 0x19, 0x20, 0x21]
  let specacei : List Nat := [0x01, 0xe7, 0x00, 0x00, 0x00, 0x00]
  let toSend := if first = 0x00 ∨ first = 0x01 ∨ first = 0x0B ∨ first = 0x0E ∨ first = 0x23
      ∨ first = 0x2A ∨ first = 0x1E then specacei.take 6 else toSend
  let toSend := if first = 0x8B ∨ first = 0x19 then special12.take 1 else toSend
  let toSend := if first = 0x04 then special12.take 14 else toSend
  let special03 : List Nat := [0x03, 0x00, 0x00]
  let toSend := if first = 0x03 ∨ first = 0x73 then special03.take 3 else toSend
  let special0C : List Nat := [0xD8, 0x00, 0x00, 0x00]
  let toSend := if first = 0x0C then special0C.take 4 else toSend
  let special0D : List Nat := [0x05, 0xaa, 0x0d, 0x00, 0x00]
  let toSend := if first = 0x0D then special0D.take 5 else toSend
  let toSend := if first = 0x64 ∨ first = 0x14 then special12.take 2 else toSend
  let toSend := if first = 0x2A ∨ first = 0x96 then special12.take 12 else toSend
  let toSend := if first = 0x38 ∨ first = 0x3C ∨ first = 0x3D then special12.take 6 else toSend
  let toSend := if first = 0x32 ∨ first = 0x52 ∨ first = 0x92 then special12.take 16 else toSend
  let toSend := if first = 0x46 ∨ first = 0x48 ∨ first = 0x6E ∨ first = 0x6F
    then special12.take 9 else toSend
  let toSend := if first = 0x4A ∨ first = 0x8A then special12.take 18 else toSend
  let toSend := if first = 0x60 ∨ first = 0x82 then special12.take 21 else toSend
  toSend

/-- The loop `for (const auto& command : mapValid)` of `checkCmd`, over the entries
still to visit, with the loop-carried `toSend`. -/
def checkCmdLoop (D : Decls) : List (Nat × Nat) → List Nat → iohcCozyDevice2W → iohcCozyDevice2W
  | [], _, s => s
  | command :: rest, toSend, s =>
    if command.2 = 0 ∨ (command.2 = 5 ∧ command.1 ≠ 0x19) then
      let toSend := selectProbePayload command.1 toSend
      let s := pushNew D s
      let s := onBack (fun p => forgePacket D p toSend) s
      let s := onBack (iohcPacket.setCmd command.1) s
      let s := memoCmd command.1 s
      let s := onBack (iohcPacket.setStartFrame D 1) s
      let s := onBack (iohcPacket.setEndFrame D 0) s
      let s := onBack (iohcPacket.setLPM D 1) s
      let s := onBack (iohcPacket.setPrio D 1) s
      let s := onBack (iohcPacket.setSource s.gateway) s
      let s := onBack (iohcPacket.setTarget ⟨0x08, 0x42, 0xe3⟩) s
      let s := onBack (iohcPacket.setDelayed 245) s
      -- toSend.clear()
      checkCmdLoop D rest [] s
    else
      checkCmdLoop D rest [] s

/-- The loop `for (const auto& addr : addresses)` of `setMode`, over the entries still
to visit, with the counter `dest`. -/
def setModeLoop (D : Decls) (toSend : List Nat) :
    List address → Nat → iohcCozyDevice2W → Outcome
  | [], _, s => .done s
  | _ :: rest, dest, s =>
    let s := pushNew D s
    let s := onBack (fun p => forgePacket D p toSend) s
    let s := onBack (iohcPacket.setCmd SEND_WRITE_PRIVATE_0x20) s
    let s := memoData toSend s
    let s := memoCmd SEND_WRITE_PRIVATE_0x20 s
    let s := onBack (iohcPacket.setStartFrame D 1) s
    let s := onBack (iohcPacket.setSource s.gateway) s
    match vectorAt s.addresses dest with
    | .error e => .thrown e s
    | .ok a =>
      let s := onBack (iohcPacket.setTarget a) s
      setModeLoop D toSend rest (dest + 1) s

/-- The loop `for (int acei = 0; acei < 256; acei++)` of `custom`, over the values
still to visit, with the loop-carried `toSend`. -/
def customLoop (D : Decls) : List Nat → List Nat → iohcCozyDevice2W → iohcCozyDevice2W
  | [], _, s => s
  | acei :: rest, toSend, s =>
    if D.aceiValid acei then
      let toSend := toSend.set 1 (acei % 256)
      let s := clear s
      let s := pushNew D s
      let s := onBack (fun p => forgePacket D p toSend) s
      let s := onBack (iohcPacket.setCmd 0x00) s
      let s := memoData toSend s
      let s := memoCmd 0x00 s
      let s := onBack (iohcPacket.setStartFrame D 1) s
      let s := onBack (iohcPacket.setLPM D 1) s
      let s := onBack (iohcPacket.setPrio D 1) s
      let s := onBack (iohcPacket.setSource ⟨0x08, 0x42, 0xe3⟩) s
      let s := onBack (iohcPacket.setTarget ⟨0x05, 0x4e, 0x17⟩) s
      let s := onBack (iohcPacket.setDelayed 250) s
      customLoop D rest toSend s
    else
      -- continue
      customLoop D rest toSend s

/-- One iteration of the loop of `discover28`, with loop index `i`. -/
def discover28Step (D : Decls) (toSend : List Nat) (s : iohcCozyDevice2W) (i : Nat) :
    iohcCozyDevice2W :=
  let s := pushNew D s
  let s := onIndex i (fun p => forgePacket D p toSend) s
  let s := onIndex i (iohcPacket.setCmd SEND_DISCOVER_0x28) s
  let s := memoData toSend s
  let s := memoCmd SEND_DISCOVER_0x28 s
  let s := onIndex i (iohcPacket.setStartFrame D 1) s
  let s := onIndex i (iohcPacket.setEndFrame D 1) s
  let s := onBack (iohcPacket.setLPM D 1) s
  let s := onBack (iohcPacket.setPrio D 1) s
  let s := onIndex i (iohcPacket.setSource s.gateway) s
  let s := onIndex i (iohcPacket.setTarget ⟨0x00, 0xFF, 0xFB⟩) s
  onIndex i (iohcPacket.setDelayed 250) s

/-- One iteration of the loop of `discover2A`, with loop index `i`. -/
def discover2AStep (D : Decls) (toSend : List Nat) (s : iohcCozyDevice2W) (i : Nat) :
    iohcCozyDevice2W :=
  let s := pushNew D s
  let s := onBack (fun p => forgePacket D p toSend) s
  let s := onBack (iohcPacket.setCmd SEND_DISCOVER_REMOTE_0x2A) s
  let s := memoData toSend s
  let s := memoCmd SEND_DISCOVER_REMOTE_0x2A s
  let s := onBack (iohcPacket.setStartFrame D 1) s
  let s := onBack (iohcPacket.setEndFrame D 1) s
  let s := onBack (iohcPacket.setLPM D 1) s
  let s := onBack (iohcPacket.setPrio D 1) s
  let s := onBack (iohcPacket.setSource s.gateway) s
  let s := if i < 10 then onBack (iohcPacket.setTarget ⟨0x00, 0x0d, 0x3b⟩) s
    else onBack (iohcPacket.setTarget ⟨0x00, 0xFF, 0xFB⟩) s
  onBack (iohcPacket.setDelayed 250) s

/-- The table `guessed` of `fake0`. -/
def guessed : List address :=
  [⟨0x2D, 0xBE, 0x8D⟩, ⟨0xDA, 0x2E, 0xE6⟩, ⟨0x31, 0x58, 0x24⟩, ⟨0x20, 0xE5, 0x2E⟩,
   ⟨0x14, 0xe0, 0x0e⟩, ⟨0x05, 0x4E, 0x17⟩, ⟨0x1C, 0x68, 0x58⟩, ⟨0x90, 0x4c, 0x09⟩,
   ⟨0xfe, 0x90, 0xee⟩, ⟨0x41, 0x56, 0x84⟩, ⟨0x08, 0x42, 0xe3⟩, ⟨0x47, 0x77, 0x06⟩,
   ⟨0x48, 0x79, 0x02⟩, ⟨0x8C, 0xCB, 0x30⟩, ⟨0x8C, 0xCB, 0x31⟩]

/-- One iteration of the loop of `fake0`, for the entry `g` of `guessed`. -/
def fake0Step (D : Decls) (toSend : List Nat) (s : iohcCozyDevice2W) (g : address) :
    iohcCozyDevice2W :=
  let s := pushNew D s
  let s := onBack (fun p => forgePacket D p toSend) s
  let s := onBack (iohcPacket.setCmd 0x00) s
  let s := memoData toSend s
  let s := memoCmd 0x00 s
  let s := { s with lastSendCmd := 0x00 }
  let s := onBack (iohcPacket.setStartFrame D 1) s
  let s := onBack (iohcPacket.setLPM D 1) s
  let s := onBack (iohcPacket.setSource ⟨0x08, 0x42, 0xe3⟩) s
  let s := onBack (iohcPacket.setTarget g) s
  onBack (iohcPacket.setDelayed 250) s

/-- The index argument of `setTemp` and `setWindow`:
`if (data->size() == 2) addr = 0; else addr = std::stoi(data->at(2));`. -/
def indexArg (D : Decls) (data : Tokens) : Except Exn Int :=
  if data.length = 2 then .ok 0
  else match tokenAt data 2 with
    | .error e => .error e
    | .ok t => D.stoi t

/-- The case `DeviceButton::associate` of `cmd`. -/
def caseAssociate (D : Decls) (s : iohcCozyDevice2W) : Outcome :=
  let toSend : List Nat := []
  let s := forgeOne D toSend SEND_ASK_CHALLENGE_0x31 s
  let s := onBack (iohcPacket.setEndFrame D 1) s
  let s := onBack (iohcPacket.setSource s.gateway) s
  let s := onBack (iohcPacket.setTarget s.master_to) s
  .done (send s)

/-- The case `DeviceButton::powerOn` of `cmd`. -/
def casePowerOn (D : Decls) (s : iohcCozyDevice2W) : Outcome :=
  let toSend : List Nat := [0x0C, 0x60, 0x01, 0x2C]
  let s := forgeOne D toSend SEND_WRITE_PRIVATE_0x20 s
  let s := onBack (iohcPacket.setSource s.gateway) s
  let s := onBack (iohcPacket.setTarget s.master_to) s
  .done (send s)

/-- The statements of the cases `setTemp` and `setWindow` that follow the parsing of
the arguments (the same in both), for the payload `toSend` and the index `addr`. -/
def sendToIndex (D : Decls) (toSend : List Nat) (addr : Int) (s : iohcCozyDevice2W) : Outcome :=
  let s := forgeOne D toSend SEND_WRITE_PRIVATE_0x20 s
  let s := onBack (iohcPacket.setSource s.gateway) s
  match vectorAt s.addresses addr with
  | .error e => .thrown e s
  | .ok a =>
    let s := onBack (iohcPacket.setTarget a) s
    let s := onBack (iohcPacket.setDelayed 50) s
    .done (send s)

/-- The case `DeviceButton::setTemp` of `cmd`. -/
def caseSetTemp (D : Decls) (data : Tokens) (s : iohcCozyDevice2W) : Outcome :=
  let toSend : List Nat := [0x0C, 0x61, 0x01, 0x03, 0xFF, 0x00]
  match tokenAt data 1 with
  | .error e => .thrown e s
  | .ok t =>
    match D.stof t with
    | .error e => .thrown e s
    | .ok x =>
      -- int temp = 10 * std::stof(data->at(1))
      match floatToInt (tenTimes x) with
      | none => .undefined
      | some temp =>
        let toSend := toSend.set 4 (toUInt8 temp)
        match indexArg D data with
        | .error e => .thrown e s
        | .ok addr => sendToIndex D toSend addr s

/-- The payload of the case `setMode` for the keyword `dat`. -/
def setModePayload (dat : String) : List Nat :=
  let toSend : List Nat := [0x0C, 0x61, 0x01, 0x00, 0xFF]
  let toSend := if strcasecmpEq dat "auto" then toSend.set 4 0x00 else toSend
  let toSend := if strcasecmpEq dat "manual" then toSend.set 4 0x01 else toSend
  let toSend := if strcasecmpEq dat "prog" then toSend.set 4 0x02 else toSend
  let toSend := if strcasecmpEq dat "off" then toSend.set 4 0x04 else toSend
  toSend

/-- The case `DeviceButton::setMode` of `cmd`. -/
def caseSetMode (D : Decls) (data : Tokens) (s : iohcCozyDevice2W) : Outcome :=
  match tokenAt data 1 with
  | .error e => .thrown e s
  | .ok dat =>
    let toSend := setModePayload dat
    let s := clear s
    match setModeLoop D toSend s.addresses 0 s with
    | .thrown e s => .thrown e s
    | .undefined => .undefined
    | .done s =>
      -- packets2send[1]->delayed = 250: unchecked element access
      if 1 < s.packets2send.length then
        let s := onIndex 1 (iohcPacket.setDelayed 250) s
        .done (send s)
      else .undefined

/-- The payload of the case `setPresence` for the keyword `dat`. -/
def setPresencePayload (dat : String) : List Nat :=
  let toSend : List Nat := [0x0C, 0x61, 0x01, 0x10, 0xFF]
  let toSend := if strcasecmpEq dat "on" then toSend.set 4 0x01 else toSend
  let toSend := if strcasecmpEq dat "off" then toSend.set 4 0x00 else toSend
  toSend

/-- The case `DeviceButton::setPresence` of `cmd`. -/
def caseSetPresence (D : Decls) (data : Tokens) (s : iohcCozyDevice2W) : Outcome :=
  match tokenAt data 1 with
  | .error e => .thrown e s
  | .ok dat =>
    let toSend := setPresencePayload dat
    let s := forgeOne D toSend SEND_WRITE_PRIVATE_0x20 s
    let s := onBack (iohcPacket.setSource s.gateway) s
    let s := onBack (iohcPacket.setTarget s.master_to) s
    .done (send s)

/-- The payload of the case `setWindow` for the keyword `dat`. -/
def setWindowPayload (dat : String) : List Nat :=
  let toSend : List Nat := [0x0C, 0x61, 0x01, 0x0E, 0xFF]
  let toSend := if strcasecmpEq dat "open" then toSend.set 4 0x01 else toSend
  let toSend := if strcasecmpEq dat "close" then toSend.set 4 0x00 else toSend
  toSend

/-- The case `DeviceButton::setWindow` of `cmd`; the statements behind the parsing of
the arguments are those of `setTemp`. -/
def caseSetWindow (D : Decls) (data : Tokens) (s : iohcCozyDevice2W) : Outcome :=
  match tokenAt data 1 with
  | .error e => .thrown e s
  | .ok dat =>
    let toSend := setWindowPayload dat
    match indexArg D data with
    | .error e => .thrown e s
    | .ok addr => sendToIndex D toSend addr s

/-- The case `DeviceButton::midnight` of `cmd`. -/
def caseMidnight (D : Decls) (s : iohcCozyDevice2W) : Outcome :=
  let toSend : List Nat := [0x0c, 0x60, 0x01, 0x30]
  let s := forgeOne D toSend SEND_WRITE_PRIVATE_0x20 s
  let s := onBack (iohcPacket.setSource s.gateway) s
  let s := onBack (iohcPacket.setTarget s.master_to) s
  .done (send s)

/-- The case `DeviceButton::custom` of `cmd`. -/
def caseCustom (D : Decls) (s : iohcCozyDevice2W) : Outcome :=
  let toSend : List Nat := [0x01, 0x47, 0xc8, 0x00, 0x00, 0x00]
  let s := customLoop D (List.range 256) toSend s
  .done (send s)

/-- The case `DeviceButton::custom60` of `cmd`. -/
def caseCustom60 (D : Decls) (data : Tokens) (s : iohcCozyDevice2W) : Outcome :=
  let toSend : List Nat := [0x0C, 0x60, 0x01, 0xFF]
  match tokenAt data 1 with
  | .error e => .thrown e s
  | .ok t =>
    match D.stoi t with
    | .error e => .thrown e s
    | .ok custom =>
      let toSend := toSend.set 3 (toUInt8 custom)
      let s := forgeOne D toSend SEND_WRITE_PRIVATE_0x20 s
      let s := onBack (iohcPacket.setSource s.gateway) s
      let s := onBack (iohcPacket.setTarget s.slave_to) s
      let s := onBack (iohcPacket.setDelayed 250) s
      .done (send s)

/-- The case `DeviceButton::discover28` of `cmd`. -/
def caseDiscover28 (D : Decls) (s : iohcCozyDevice2W) : Outcome :=
  let toSend : List Nat := []
  let s := clear s
  let s := (List.range 10).foldl (discover28Step D toSend) s
  .done (send s)

/-- The case `DeviceButton::discover2A` of `cmd`. -/
def caseDiscover2A (D : Decls) (s : iohcCozyDevice2W) : Outcome :=
  let toSend : List Nat :=
    [0x01, 0x02, 0x03, 0x04, 0x05, 0x06, 0x07, 0x08, 0x09, 0x10, 0x11, 0x12]
  let s := clear s
  let s := (List.range 20).foldl (discover2AStep D toSend) s
  .done (send s)

/-- The case `DeviceButton::fake0` of `cmd`. -/
def caseFake0 (D : Decls) (s : iohcCozyDevice2W) : Outcome :=
  let toSend : List Nat := [0x03, 0xe7, 0x32, 0x00, 0x00, 0x00]
  let s := clear s
  let s := guessed.foldl (fake0Step D toSend) s
  .done (send s)

/-- The case `DeviceButton::ack` of `cmd`. -/
def caseAck (D : Decls) (s : iohcCozyDevice2W) : Outcome :=
  let toSend : List Nat := []
  let s := forgeOne D toSend SEND_KEY_TRANSFERT_ACK_0x33 s
  let s := onBack (iohcPacket.setSource s.gateway) s
  let s := onBack (iohcPacket.setTarget s.master_from) s
  .done (send s)

/-- The case `DeviceButton::checkCmd` of `cmd`. -/
def caseCheckCmd (D : Decls) (s : iohcCozyDevice2W) : Outcome :=
  let s := clear s
  let s := checkCmdLoop D s.mapValid [] s
  .done (send s)

/-- The C++ `iohcCozyDevice2W::cmd(cmd, data)`: the `switch` over the button. -/
def cmd (D : Decls) (button : DeviceButton) (data : Tokens) (s : iohcCozyDevice2W) : Outcome :=
  match button with
  | .associate => caseAssociate D s
  | .powerOn => casePowerOn D s
  | .setTemp => caseSetTemp D data s
  | .setMode => caseSetMode D data s
  | .setPresence => caseSetPresence D data s
  | .setWindow => caseSetWindow D data s
  | .midnight => caseMidnight D s
  | .custom => caseCustom D s
  | .custom60 => caseCustom60 D data s
  | .discover28 => caseDiscover28 D s
  | .discover2A => caseDiscover2A D s
  | .fake0 => caseFake0 D s
  | .ack => caseAck D s
  | .checkCmd => caseCheckCmd D s
  | .other => .done s

/-- The C++ `iohcCozyDevice2W::isFake(nodeSrc, nodeDst)`: the returned value and the
controller after the call. -/
def isFake (nodeSrc nodeDst : address) (s : iohcCozyDevice2W) : Bool × iohcCozyDevice2W :=
  let s := { s with Fake := false }
  let s := if s.gateway = nodeSrc ∨ s.gateway = nodeDst then { s with Fake := true } else s
  (s.Fake, s)

/-- The assignment `mapValid[key] = status` on the `std::map`, kept sorted by key. -/
def mapSet (key status : Nat) : List (Nat × Nat) → List (Nat × Nat)
  | [] => [(key, status)]
  | (k, v) :: rest =>
    if key < k then (key, status) :: (k, v) :: rest
    else if key = k then (key, status) :: rest
    else (k, v) :: mapSet key status rest

/-- The list `valid` of `initializeValid` after its second assignment. -/
def valid : List Nat :=
  [0x00, 0x01, 0x03, 0x0a, 0x0c, 0x19, 0x1e, 0x20, 0x23, 0x28, 0x2a, 0x2c, 0x2e, 0x31, 0x32,
   0x36, 0x38, 0x39, 0x3c, 0x46, 0x48, 0x4a, 0x4b,
   0x50, 0x52, 0x54, 0x56, 0x60, 0x64, 0x6e, 0x6f, 0x71, 0x73, 0x80, 0x82, 0x84, 0x86, 0x88,
   0x8a, 0x8b, 0x8e, 0x90, 0x92, 0x94, 0x96, 0x98,
   0x02, 0x0b, 0x0e, 0x14, 0x16, 0x25, 0x30, 0x34, 0x3a, 0x3d, 0x58]

/-- The C++ `iohcCozyDevice2W::initializeValid()`. -/
def initializeValid (s : iohcCozyDevice2W) : iohcCozyDevice2W :=
  valid.foldl (fun s key => { s with mapValid := mapSet key 0 s.mapValid }) s

/-- One member of the JSON object of the device store: its key and the members `dst`,
`type` and `description` of its value. -/
structure StoreEntry where
  key : String
  dst : String
  type : String
  description : String
deriving DecidableEq, Repr

/-- A JSON document of the device store: its members in document order. -/
abbrev JsonDocument := List StoreEntry

/-- The file `COZY_2W_FILE`: `none` when it does not exist, otherwise the documents
whose serialisations it holds one after the other (`[]` for an empty file). -/
abbrev Store := Option (List JsonDocument)

/-- The C++ `iohcCozyDevice2W::load()`: the returned value and the controller after
the call. `deserializeJson` reads the first document of the file; an empty file gives
an empty document. -/
def load (D : Decls) (fs : Store) (s : iohcCozyDevice2W) : Bool × iohcCozyDevice2W :=
  match fs with
  | none => (false, s)
  | some docs =>
    let doc : JsonDocument := docs.headD []
    let s := doc.foldl (fun s kv =>
      let d : device :=
        { _node := D.hexStringToBytes kv.key
          _type := kv.type
          _description := kv.description
          _dst := D.hexStringToBytes kv.dst }
      { s with devices := s.devices ++ [d] }) s
    (true, s)

/-- The effect of `doc[key].to<JsonObject>()` followed by the three member
assignments: the value of an existing key is replaced in place, a new key is added at
the end. -/
def docSet (e : StoreEntry) : JsonDocument → JsonDocument
  | [] => [e]
  | x :: rest => if x.key = e.key then e :: rest else x :: docSet e rest

/-- The C++ `iohcCozyDevice2W::save()`: the returned value and the file after the
call. The file is opened in mode `a+`: the new document is written behind what the
file already holds. -/
def save (D : Decls) (fs : Store) (s : iohcCozyDevice2W) : Bool × Store :=
  let doc : JsonDocument := s.devices.foldl (fun doc d =>
    docSet { key := D.bytesToHexString d._node
             dst := D.bytesToHexString d._dst
             type := d._type
             description := d._description } doc) []
  (true, some (fs.getD [] ++ [doc]))

/-- The conversion `%2.2x` of `printf`: the value in lower-case hexadecimal digits, at
least two of them. -/
def hex2 (n : Nat) : String :=
  let ds := Nat.toDigits 16 n
  String.mk (if ds.length < 2 then '0' :: ds else ds)

/-- The loop of `scanDump` over the entries still to visit, with the counter `count` (a
`uint8_t`): the texts of the `printf` calls in order, and the counter after the loop. -/
def scanDumpLoop : List (Nat × Nat) → Nat → List String × Nat
  | [], count => ([], count)
  | it :: rest, count =>
    if it.2 ≠ 0x08 then
      let out : List String :=
        if it.2 = 0x3C then [hex2 it.1 ++ "=AUTH "]
        else if it.2 = 0x80 then [hex2 it.1 ++ "=NRDY "]
        else [hex2 it.1 ++ "=" ++ hex2 it.2 ++ "\t"]
      -- count++
      let count := (count + 1) % 256
      let out := if count % 16 = 0 then out ++ ["\n"] else out
      (out ++ (scanDumpLoop rest count).1, (scanDumpLoop rest count).2)
    else scanDumpLoop rest count

/-- The C++ `iohcCozyDevice2W::scanDump()`: the texts of its `printf` calls in order. -/
def scanDump (s : iohcCozyDevice2W) : List String :=
  let header := "*********************** Scan result ***********************\n"
  let loop := scanDumpLoop s.mapValid 0
  let count := loop.2
  [header] ++ loop.1 ++ (if count % 16 ≠ 0 then ["\n"] else [])
    ++ [toString count ++ " toCheck \n"]

end iohcCozyDevice2W

/-! ## Sample declarations and states -/

/-- A packet with every field zero and a buffer of 32 bytes (23 behind the header). -/
def zeroPacket : iohcPacket :=
  { CtrlByte1 := 0, CtrlByte2 := 0, cmd := 0, source := ⟨0, 0, 0⟩, target := ⟨0, 0, 0⟩,
    body := List.replicate 23 0, buffer_length := 0, frequency := 0, repeatTime := 0,
    repeat_ := 0, lock := false, delayed := 0 }

/-- Sample declarations with a length field of `w` bits: zero-initialised packets of
32 bytes, a library that parses the numerals used in the examples below. -/
def sampleDecls (w : Fin 6) : Decls :=
  { msgLenBits := w
    lpmBit := 4
    prioBit := 5
    fresh := zeroPacket
    aceiValid := fun acei => acei % 2 == 1 && acei / 64 == 0
    stof := fun t =>
      if t = "21.5" then .ok (.finite 43 (-1))
      else if t = "19" then .ok (.finite 19 0)
      else .error .invalid_argument
    stoi := fun t =>
      if t = "0" then .ok 0 else if t = "1" then .ok 1 else .error .invalid_argument
    hexStringToBytes := fun t =>
      if t = "112233" then ⟨0x11, 0x22, 0x33⟩ else if t = "aabbcc" then ⟨0xaa, 0xbb, 0xcc⟩
      else ⟨0, 0, 0⟩
    bytesToHexString := fun a =>
      if a = ⟨0x11, 0x22, 0x33⟩ then "112233" else if a = ⟨0xaa, 0xbb, 0xcc⟩ then "aabbcc"
      else "000000" }

/-- A sample controller: gateway `ba 11 ad`, two entries in the address table, no
device loaded, an empty validity table, an empty queue. -/
def sampleController : iohcCozyDevice2W :=
  { gateway := ⟨0xba, 0x11, 0xad⟩
    master_from := ⟨0x47, 0x77, 0x06⟩
    master_to := ⟨0x48, 0x79, 0x02⟩
    slave_to := ⟨0x8C, 0xCB, 0x31⟩
    addresses := [⟨0x48, 0x79, 0x02⟩, ⟨0x8C, 0xCB, 0x31⟩]
    devices := []
    mapValid := []
    packets2send := []
    memorizeSend := { memorizedCmd := 0, memorizedData := [] }
    Fake := false
    lastSendCmd := 0
    sent := [] }

/-! ## Notions used in the statements -/

/-- The test of the `checkCmd` loop on a validity entry `(code, status)`. -/
def probed (command : Nat × Nat) : Bool :=
  command.2 = 0 ∨ (command.2 = 5 ∧ command.1 ≠ 0x19)

/-- The packet `f` carries the payload `toSend`: its buffer behind the header is what
`forgePacket` makes of the buffer of a new packet for `toSend`, and its declared length
`buffer_length` is 9 plus the length of `toSend`. -/
def iohcPacket.ForgedWith (D : Decls) (toSend : List Nat) (f : iohcPacket) : Prop :=
  f.body = (forgePacket D D.fresh toSend).body ∧ f.buffer_length = 9 + toSend.length

/-- The validity table is a `std::map`: its entries come by strictly ascending code. -/
def IsMap (m : List (Nat × Nat)) : Prop := (m.map Prod.fst).Pairwise (fun a b => a < b)

/-- Every packet of the queue `q` carries some payload with the matching declared
length. -/
def QueueForged (D : Decls) (q : List iohcPacket) : Prop :=
  ∀ f ∈ q, ∃ toSend, f.ForgedWith D toSend

/-- The probe frame that the `checkCmd` loop builds for the entry with code `code`,
starting from an empty `toSend`. -/
def probeFrame (D : Decls) (gateway : address) (code : Nat) : iohcPacket :=
  iohcPacket.setDelayed 245 (iohcPacket.setTarget ⟨0x08, 0x42, 0xe3⟩
    (iohcPacket.setSource gateway (iohcPacket.setPrio D 1 (iohcPacket.setLPM D 1
      (iohcPacket.setEndFrame D 0 (iohcPacket.setStartFrame D 1 (iohcPacket.setCmd code
        (forgePacket D D.fresh (iohcCozyDevice2W.selectProbePayload code [])))))))))

/-- The frame that the `setMode` loop builds for the payload `toSend` and the entry
`a` of the address table. -/
def modeFrame (D : Decls) (toSend : List Nat) (gateway a : address) : iohcPacket :=
  iohcPacket.setTarget a (iohcPacket.setSource gateway (iohcPacket.setStartFrame D 1
    (iohcPacket.setCmd SEND_WRITE_PRIVATE_0x20 (forgePacket D D.fresh toSend))))

/-- The controller after a case of `cmd` that builds the single frame `f` for the
command code `code` and the payload `toSend` and hands it to the radio. -/
def iohcCozyDevice2W.afterSingle (s : iohcCozyDevice2W) (code : Nat) (toSend : List Nat)
    (f : iohcPacket) : iohcCozyDevice2W :=
  { s with
    packets2send := [f]
    memorizeSend := { memorizedCmd := code % 256, memorizedData := toSend }
    sent := s.sent ++ [[f]] }

/-- The frame that `forgeOne` leaves in the queue for the payload `toSend` and the
command code `code`. -/
def firstFrame (D : Decls) (toSend : List Nat) (code : Nat) : iohcPacket :=
  iohcPacket.setStartFrame D 1 (iohcPacket.setCmd code (forgePacket D D.fresh toSend))

/-- A sample device store: one document with one device, node `aa bb cc`, destination
`11 22 33`. -/
def sampleStore : iohcCozyDevice2W.Store :=
  some [[{ key := "aabbcc", dst := "112233", type := "heater", description := "kitchen" }]]

/-- The sample controller after `load()` from the sample store. -/
def loadedController : iohcCozyDevice2W :=
  (iohcCozyDevice2W.load (sampleDecls 5) sampleStore sampleController).2

/-- The sample controller with a validity table of five entries, among them code 0x19
with status 5 and code 0x20 with status 0x3C. -/
def probingController : iohcCozyDevice2W :=
  { sampleController with
    mapValid := [(0x00, 0), (0x03, 5), (0x19, 5), (0x20, 0x3C), (0x2A, 0)] }

/-- A validity table with all 256 codes, each at status 0. -/
def fullTable : List (Nat × Nat) := (List.range 256).map (fun code => (code, 0))

/-- The rendering of a validity entry by `scanDump`. -/
def renderEntry (e : Nat × Nat) : String :=
  if e.2 = 0x3C then iohcCozyDevice2W.hex2 e.1 ++ "=AUTH "
  else if e.2 = 0x80 then iohcCozyDevice2W.hex2 e.1 ++ "=NRDY "
  else iohcCozyDevice2W.hex2 e.1 ++ "=" ++ iohcCozyDevice2W.hex2 e.2 ++ "\t"

/-- The frame that each iteration of the loop of `discover28` builds. -/
def discover28Frame (D : Decls) (gateway : address) : iohcPacket :=
  iohcPacket.setDelayed 250 (iohcPacket.setTarget ⟨0x00, 0xFF, 0xFB⟩
    (iohcPacket.setSource gateway (iohcPacket.setPrio D 1 (iohcPacket.setLPM D 1
      (iohcPacket.setEndFrame D 1 (iohcPacket.setStartFrame D 1
        (iohcPacket.setCmd SEND_DISCOVER_0x28 (forgePacket D D.fresh []))))))))

/-- The frame that the iteration with index `i` of the loop of `discover2A` builds. -/
def discover2AFrame (D : Decls) (gateway : address) (i : Nat) : iohcPacket :=
  iohcPacket.setDelayed 250
    (iohcPacket.setTarget (if i < 10 then ⟨0x00, 0x0d, 0x3b⟩ else ⟨0x00, 0xFF, 0xFB⟩)
      (iohcPacket.setSource gateway (iohcPacket.setPrio D 1 (iohcPacket.setLPM D 1
        (iohcPacket.setEndFrame D 1 (iohcPacket.setStartFrame D 1
          (iohcPacket.setCmd SEND_DISCOVER_REMOTE_0x2A (forgePacket D D.fresh
            [0x01, 0x02, 0x03, 0x04, 0x05, 0x06, 0x07, 0x08, 0x09, 0x10, 0x11, 0x12]))))))))

/-- The device record that `load` builds from the member `kv` of the document. -/
def deviceOfEntry (D : Decls) (kv : iohcCozyDevice2W.StoreEntry) : device :=
  { _node := D.hexStringToBytes kv.key
    _type := kv.type
    _description := kv.description
    _dst := D.hexStringToBytes kv.dst }

/-- The member that `save` writes into the document for the device record `d`. -/
def entryOfDevice (D : Decls) (d : device) : iohcCozyDevice2W.StoreEntry :=
  { key := D.bytesToHexString d._node
    dst := D.bytesToHexString d._dst
    type := d._type
    description := d._description }

/-- The codes named by the payload rules of the `checkCmd` loop, in the order of the
rules. -/
def probeRuleCodes : List Nat :=
  [0x00, 0x01, 0x0B, 0x0E, 0x23, 0x2A, 0x1E, 0x8B, 0x19, 0x04, 0x03, 0x73, 0x0C, 0x0D, 0x64,
   0x14, 0x96, 0x38, 0x3C, 0x3D, 0x32, 0x52, 0x92, 0x46, 0x48, 0x6E, 0x6F, 0x4A, 0x8A, 0x60,
   0x82]

/-- Modelled from the spec: `forgePacket` with the update of the length that the spec's
words describe as the isolated one, the payload length added to the length bit-field
`MsgLen` alone (`CtrlByte1.asStruct.MsgLen += toSend.size()`) instead of to the whole
byte. The other statements are those of `forgePacket`. -/
def forgePacketLengthField (D : Decls) (packet : iohcPacket) (toSend : List Nat) : iohcPacket :=
  let c1 := setLow packet.CtrlByte1 D.msgLenBits.val (sizeof_header - 1)
  let c1 := setBit c1 D.protocolBit 0
  let c1 := setBit c1 D.startBit 1
  let c1 := setBit c1 D.endBit 0
  let c1 := setLow c1 D.msgLenBits.val (getLow c1 D.msgLenBits.val + toSend.length)
  { packet with
    CtrlByte1 := c1
    CtrlByte2 := 0
    body := memcpyBody packet.body toSend
    buffer_length := toSend.length + 9
    frequency := CHANNEL2
    repeatTime := 25
    repeat_ := 0
    lock := false }

/-- The fields of control byte 1 of the frame `f` are as assigned, `e` being the value
assigned to `EndFrame`: the payload has at most 21 bytes and, when the length 8 + L of
header and payload (`buffer_length - 1`) fits the length field, that field holds it, the
protocol flag is 0, `StartFrame` is 1 and `EndFrame` is `e`. -/
def iohcPacket.FlagsAsSet (D : Decls) (e : Nat) (f : iohcPacket) : Prop :=
  f.buffer_length ≤ 9 + 21
  ∧ (f.buffer_length - 1 < 2 ^ D.msgLenBits.val →
      f.MsgLen D + 1 = f.buffer_length ∧ f.Protocol D = 0 ∧ f.StartFrame D = 1
      ∧ f.EndFrame D = e)

/-- The payload `toSend` is the one that the case of `button` in `cmd`, called with the
arguments `data` on the controller `s`, hands to `forgePacket` for the frame `f`: the
vector `toSend` of that case as it is at the call of `forgePacket`. For `custom` it
is the template with the byte at index 1 set to a value of the loop that passes the
test; for `checkCmd` it is the selection of the rules for the code of the frame, taken
from a probed entry of the validity table. A button without a case forges nothing. -/
def iohcCozyDevice2W.ForgedPayload (D : Decls) (button : DeviceButton) (data : Tokens)
    (s : iohcCozyDevice2W) (f : iohcPacket) (toSend : List Nat) : Prop :=
  match button with
  | .associate => toSend = []
  | .powerOn => toSend = [0x0C, 0x60, 0x01, 0x2C]
  | .setTemp => ∃ t x temp, tokenAt data 1 = .ok t ∧ D.stof t = .ok x
      ∧ floatToInt (tenTimes x) = some temp
      ∧ toSend = [0x0C, 0x61, 0x01, 0x03, toUInt8 temp, 0x00]
  | .setMode => ∃ dat, tokenAt data 1 = .ok dat
      ∧ toSend = iohcCozyDevice2W.setModePayload dat
  | .setPresence => ∃ dat, tokenAt data 1 = .ok dat
      ∧ toSend = iohcCozyDevice2W.setPresencePayload dat
  | .setWindow => ∃ dat, tokenAt data 1 = .ok dat
      ∧ toSend = iohcCozyDevice2W.setWindowPayload dat
  | .midnight => toSend = [0x0c, 0x60, 0x01, 0x30]
  | .custom => ∃ acei, acei < 256 ∧ D.aceiValid acei = true
      ∧ toSend = [0x01, acei, 0xc8, 0x00, 0x00, 0x00]
  | .custom60 => ∃ t custom, tokenAt data 1 = .ok t ∧ D.stoi t = .ok custom
      ∧ toSend = [0x0C, 0x60, 0x01, toUInt8 custom]
  | .discover28 => toSend = []
  | .discover2A =>
      toSend = [0x01, 0x02, 0x03, 0x04, 0x05, 0x06, 0x07, 0x08, 0x09, 0x10, 0x11, 0x12]
  | .fake0 => toSend = [0x03, 0xe7, 0x32, 0x00, 0x00, 0x00]
  | .ack => toSend = []
  | .checkCmd => ∃ e ∈ s.mapValid, (e.2 = 0 ∨ (e.2 = 5 ∧ e.1 ≠ 0x19)) ∧ f.cmd = e.1 % 256
      ∧ toSend = iohcCozyDevice2W.selectProbePayload e.1 []
  | .other => False

/-- The cells that `scanDump` renders: the renderings of the entries of the validity
table whose status is not 0x08, in table order. -/
def iohcCozyDevice2W.renderedCells (s : iohcCozyDevice2W) : List String :=
  (s.mapValid.filter (fun e => decide (e.2 ≠ 0x08))).map renderEntry

/-- The cells of line `i` (from 0) when `cells` are laid out 16 to a line: the cells
with the indexes `16 * i` to `16 * i + 15`, as far as there are any. -/
def line16 (cells : List String) (i : Nat) : List String := (cells.drop (16 * i)).take 16

/-- The cells `cells`, of which `k` cells came before, each followed by a line break
when its running number is a multiple of 16. -/
def breakEvery16 : Nat → List String → List String
  | _, [] => []
  | k, c :: rest => (if (k + 1) % 16 = 0 then [c, "\n"] else [c]) ++ breakEvery16 (k + 1) rest

/-! ## Bit-field lemmas -/

theorem getLow_setLow (b w v : Nat) : getLow (setLow b w v) w = v % 2 ^ w := by
  unfold getLow setLow
  rw [Nat.mul_add_mod, Nat.mod_mod]

theorem setBit_mod_two_pow (b k v w : Nat) (h : w ≤ k) :
    setBit b k v % 2 ^ w = b % 2 ^ w := by
  apply Nat.eq_of_testBit_eq
  intro i
  simp only [Nat.testBit_mod_two_pow]
  by_cases hi : i < w
  · have hk : k ≠ i := by omega
    unfold setBit
    split <;> simp [hi, Nat.testBit_two_pow, hk]
  · simp [hi]

theorem getBit_setBit_self (b k v : Nat) : getBit (setBit b k v) k = v % 2 := by
  unfold getBit setBit
  have hv : v % 2 = 0 ∨ v % 2 = 1 := by omega
  rcases hv with hv | hv <;> simp [hv, Nat.testBit_two_pow]

theorem getBit_setBit_of_ne (b k v j : Nat) (h : k ≠ j) :
    getBit (setBit b k v) j = getBit b j := by
  unfold getBit setBit
  split <;> simp [Nat.testBit_two_pow, h]

/-! ## `forgePacket` -/

theorem msgLen_forgePacket (D : Decls) (packet : iohcPacket) (toSend : List Nat) :
    (forgePacket D packet toSend).MsgLen D = (8 + toSend.length) % 2 ^ D.msgLenBits.val := by
  have hw : D.msgLenBits.val ≤ 5 := by omega
  have hdvd : 2 ^ D.msgLenBits.val ∣ 256 := by
    have : (256 : Nat) = 2 ^ 8 := by norm_num
    rw [this]
    exact Nat.pow_dvd_pow 2 (by omega)
  simp only [iohcPacket.MsgLen, forgePacket, getLow, Decls.protocolBit, Decls.startBit,
    Decls.endBit, sizeof_header]
  rw [Nat.mod_mod_of_dvd _ hdvd, Nat.add_mod,
    setBit_mod_two_pow _ _ _ _ (by omega), setBit_mod_two_pow _ _ _ _ (by omega),
    setBit_mod_two_pow _ _ _ _ (by omega)]
  have := getLow_setLow packet.CtrlByte1 D.msgLenBits.val (9 - 1)
  unfold getLow at this
  rw [this, ← Nat.add_mod]

theorem body_forgePacket (D : Decls) (packet : iohcPacket) (toSend : List Nat) :
    (forgePacket D packet toSend).body = memcpyBody packet.body toSend := rfl

theorem memcpyBody_getElem? (body src : List Nat) (h : src.length ≤ body.length) (i : Nat)
    (hi : i < src.length) : (memcpyBody body src)[i]? = src[i]? := by
  unfold memcpyBody
  rw [List.take_of_length_le h, List.getElem?_append_left hi]

theorem memcpyBody_length (body src : List Nat) : (memcpyBody body src).length = body.length := by
  unfold memcpyBody
  simp only [List.length_append, List.length_take, List.length_drop]
  omega

/-- C1 (as amended): for every payload of length L that fits the frame buffer,
`forgePacket` leaves `(8 + L) mod 2^w` in the length field of control byte 1, where `w`
is the width of that field; this is `8 + L` whenever `8 + L < 2^w`. The buffer bytes at
offsets 9 .. 9+L-1 are the payload bytes in order. -/
theorem forgePacket_length_field_and_payload (D : Decls) (packet : iohcPacket)
    (toSend : List Nat) (hfit : toSend.length ≤ packet.body.length) :
    (forgePacket D packet toSend).MsgLen D = (8 + toSend.length) % 2 ^ D.msgLenBits.val
    ∧ (8 + toSend.length < 2 ^ D.msgLenBits.val →
        (forgePacket D packet toSend).MsgLen D = 8 + toSend.length)
    ∧ ∀ i, i < toSend.length →
        (forgePacket D packet toSend).bufferAt (9 + i) = toSend[i]? := by
  refine ⟨msgLen_forgePacket D packet toSend, ?_, ?_⟩
  · intro h
    rw [msgLen_forgePacket, Nat.mod_eq_of_lt h]
  · intro i hi
    unfold iohcPacket.bufferAt
    rw [if_pos (by omega), body_forgePacket]
    have : 9 + i - 9 = i := by omega
    rw [this]
    exact memcpyBody_getElem? _ _ hfit i hi

/-- Witness of C1 (as amended): a 12-byte payload forged into a 32-byte packet with a
5-bit length field. -/
theorem forgePacket_length_field_and_payload_witness :
    (forgePacket (sampleDecls 5) zeroPacket
        [1, 2, 3, 4, 5, 6, 7, 8, 9, 16, 17, 18]).MsgLen (sampleDecls 5) = 20
    ∧ (forgePacket (sampleDecls 5) zeroPacket
        [1, 2, 3, 4, 5, 6, 7, 8, 9, 16, 17, 18]).bufferAt (9 + 11) = some 18 :=
  have h := forgePacket_length_field_and_payload (sampleDecls 5) zeroPacket
    [1, 2, 3, 4, 5, 6, 7, 8, 9, 16, 17, 18] (by decide)
  ⟨h.2.1 (by decide), h.2.2 11 (by decide)⟩

/-- C1 (counterexample): with the 4-bit length field of the spec's data model, an
8-byte payload fits a 32-byte frame buffer, yet the length field after `forgePacket`
is 0, not 8 + 8, and the addition has carried into the protocol-version flag. -/
theorem forgePacket_length_field_wraps :
    (List.replicate 8 0xAA).length + 9 ≤ 9 + zeroPacket.body.length
    ∧ (forgePacket (sampleDecls specMsgLenBits) zeroPacket (List.replicate 8 0xAA)).MsgLen
        (sampleDecls specMsgLenBits) = 0
    ∧ (forgePacket (sampleDecls specMsgLenBits) zeroPacket (List.replicate 8 0xAA)).MsgLen
        (sampleDecls specMsgLenBits) ≠ 8 + (List.replicate 8 0xAA).length
    ∧ (forgePacket (sampleDecls specMsgLenBits) zeroPacket (List.replicate 8 0xAA)).Protocol
        (sampleDecls specMsgLenBits) = 1 := by
  decide

/-! ## The packet queue -/

theorem modifyAt_length_append {α : Type} (g : α → α) (l : List α) (x : α) (r : List α) :
    modifyAt g l.length (l ++ x :: r) = l ++ g x :: r := by
  induction l with
  | nil => rfl
  | cons a l ih => simp [modifyAt, ih]

theorem modifyBack_append_singleton {α : Type} (g : α → α) (l : List α) (x : α) :
    modifyBack g (l ++ [x]) = l ++ [g x] := by
  induction l with
  | nil => rfl
  | cons a l ih =>
    cases l with
    | nil => rfl
    | cons b l => simpa [modifyBack] using ih

theorem modifyAt_length {α : Type} (g : α → α) (i : Nat) (l : List α) :
    (modifyAt g i l).length = l.length := by
  induction l generalizing i with
  | nil => simp [modifyAt]
  | cons a l ih => cases i <;> simp [modifyAt, ih]

theorem mem_modifyAt {α : Type} (g : α → α) (i : Nat) (l : List α) (y : α)
    (h : y ∈ modifyAt g i l) : y ∈ l ∨ ∃ x ∈ l, y = g x := by
  induction l generalizing i with
  | nil => simp [modifyAt] at h
  | cons a l ih =>
    cases i with
    | zero =>
      simp only [modifyAt, List.mem_cons] at h
      rcases h with h | h
      · exact Or.inr ⟨a, by simp, h⟩
      · exact Or.inl (by simp [h])
    | succ i =>
      simp only [modifyAt, List.mem_cons] at h
      rcases h with h | h
      · exact Or.inl (by simp [h])
      · rcases ih i h with h | ⟨x, hx, hy⟩
        · exact Or.inl (by simp [h])
        · exact Or.inr ⟨x, by simp [hx], hy⟩

/-! ## Projections of the queue operations -/

namespace iohcCozyDevice2W

@[simp] theorem gateway_clear (s : iohcCozyDevice2W) :
    (clear s).gateway = s.gateway := rfl

@[simp] theorem master_from_clear (s : iohcCozyDevice2W) :
    (clear s).master_from = s.master_from := rfl

@[simp] theorem master_to_clear (s : iohcCozyDevice2W) :
    (clear s).master_to = s.master_to := rfl

@[simp] theorem slave_to_clear (s : iohcCozyDevice2W) :
    (clear s).slave_to = s.slave_to := rfl

@[simp] theorem addresses_clear (s : iohcCozyDevice2W) :
    (clear s).addresses = s.addresses := rfl

@[simp] theorem devices_clear (s : iohcCozyDevice2W) :
    (clear s).devices = s.devices := rfl

@[simp] theorem mapValid_clear (s : iohcCozyDevice2W) :
    (clear s).mapValid = s.mapValid := rfl

@[simp] theorem packets2send_clear (s : iohcCozyDevice2W) :
    (clear s).packets2send = [] := rfl

@[simp] theorem memorizeSend_clear (s : iohcCozyDevice2W) :
    (clear s).memorizeSend = s.memorizeSend := rfl

@[simp] theorem Fake_clear (s : iohcCozyDevice2W) :
    (clear s).Fake = s.Fake := rfl

@[simp] theorem lastSendCmd_clear (s : iohcCozyDevice2W) :
    (clear s).lastSendCmd = s.lastSendCmd := rfl

@[simp] theorem sent_clear (s : iohcCozyDevice2W) :
    (clear s).sent = s.sent := rfl

@[simp] theorem gateway_pushNew (D : Decls) (s : iohcCozyDevice2W) :
    (pushNew D s).gateway = s.gateway := rfl

@[simp] theorem master_from_pushNew (D : Decls) (s : iohcCozyDevice2W) :
    (pushNew D s).master_from = s.master_from := rfl

@[simp] theorem master_to_pushNew (D : Decls) (s : iohcCozyDevice2W) :
    (pushNew D s).master_to = s.master_to := rfl

@[simp] theorem slave_to_pushNew (D : Decls) (s : iohcCozyDevice2W) :
    (pushNew D s).slave_to = s.slave_to := rfl

@[simp] theorem addresses_pushNew (D : Decls) (s : iohcCozyDevice2W) :
    (pushNew D s).addresses = s.addresses := rfl

@[simp] theorem devices_pushNew (D : Decls) (s : iohcCozyDevice2W) :
    (pushNew D s).devices = s.devices := rfl

@[simp] theorem mapValid_pushNew (D : Decls) (s : iohcCozyDevice2W) :
    (pushNew D s).mapValid = s.mapValid := rfl

@[simp] theorem packets2send_pushNew (D : Decls) (s : iohcCozyDevice2W) :
    (pushNew D s).packets2send = s.packets2send ++ [D.fresh] := rfl

@[simp] theorem memorizeSend_pushNew (D : Decls) (s : iohcCozyDevice2W) :
    (pushNew D s).memorizeSend = s.memorizeSend := rfl

@[simp] theorem Fake_pushNew (D : Decls) (s : iohcCozyDevice2W) :
    (pushNew D s).Fake = s.Fake := rfl

@[simp] theorem lastSendCmd_pushNew (D : Decls) (s : iohcCozyDevice2W) :
    (pushNew D s).lastSendCmd = s.lastSendCmd := rfl

@[simp] theorem sent_pushNew (D : Decls) (s : iohcCozyDevice2W) :
    (pushNew D s).sent = s.sent := rfl

@[simp] theorem gateway_onBack (g : iohcPacket → iohcPacket) (s : iohcCozyDevice2W) :
    (onBack g s).gateway = s.gateway := rfl

@[simp] theorem master_from_onBack (g : iohcPacket → iohcPacket) (s : iohcCozyDevice2W) :
    (onBack g s).master_from = s.master_from := rfl

@[simp] theorem master_to_onBack (g : iohcPacket → iohcPacket) (s : iohcCozyDevice2W) :
    (onBack g s).master_to = s.master_to := rfl

@[simp] theorem slave_to_onBack (g : iohcPacket → iohcPacket) (s : iohcCozyDevice2W) :
    (onBack g s).slave_to = s.slave_to := rfl

@[simp] theorem addresses_onBack (g : iohcPacket → iohcPacket) (s : iohcCozyDevice2W) :
    (onBack g s).addresses = s.addresses := rfl

@[simp] theorem devices_onBack (g : iohcPacket → iohcPacket) (s : iohcCozyDevice2W) :
    (onBack g s).devices = s.devices := rfl

@[simp] theorem mapValid_onBack (g : iohcPacket → iohcPacket) (s : iohcCozyDevice2W) :
    (onBack g s).mapValid = s.mapValid := rfl

@[simp] theorem packets2send_onBack (g : iohcPacket → iohcPacket) (s : iohcCozyDevice2W) :
    (onBack g s).packets2send = modifyBack g s.packets2send := rfl

@[simp] theorem memorizeSend_onBack (g : iohcPacket → iohcPacket) (s : iohcCozyDevice2W) :
    (onBack g s).memorizeSend = s.memorizeSend := rfl

@[simp] theorem Fake_onBack (g : iohcPacket → iohcPacket) (s : iohcCozyDevice2W) :
    (onBack g s).Fake = s.Fake := rfl

@[simp] theorem lastSendCmd_onBack (g : iohcPacket → iohcPacket) (s : iohcCozyDevice2W) :
    (onBack g s).lastSendCmd = s.lastSendCmd := rfl

@[simp] theorem sent_onBack (g : iohcPacket → iohcPacket) (s : iohcCozyDevice2W) :
    (onBack g s).sent = s.sent := rfl

@[simp] theorem gateway_onIndex (i : Nat) (g : iohcPacket → iohcPacket) (s : iohcCozyDevice2W) :
    (onIndex i g s).gateway = s.gateway := rfl

@[simp] theorem master_from_onIndex (i : Nat) (g : iohcPacket → iohcPacket) (s : iohcCozyDevice2W) :
    (onIndex i g s).master_from = s.master_from := rfl

@[simp] theorem master_to_onIndex (i : Nat) (g : iohcPacket → iohcPacket) (s : iohcCozyDevice2W) :
    (onIndex i g s).master_to = s.master_to := rfl

@[simp] theorem slave_to_onIndex (i : Nat) (g : iohcPacket → iohcPacket) (s : iohcCozyDevice2W) :
    (onIndex i g s).slave_to = s.slave_to := rfl

@[simp] theorem addresses_onIndex (i : Nat) (g : iohcPacket → iohcPacket) (s : iohcCozyDevice2W) :
    (onIndex i g s).addresses = s.addresses := rfl

@[simp] theorem devices_onIndex (i : Nat) (g : iohcPacket → iohcPacket) (s : iohcCozyDevice2W) :
    (onIndex i g s).devices = s.devices := rfl

@[simp] theorem mapValid_onIndex (i : Nat) (g : iohcPacket → iohcPacket) (s : iohcCozyDevice2W) :
    (onIndex i g s).mapValid = s.mapValid := rfl

@[simp] theorem packets2send_onIndex (i : Nat) (g : iohcPacket → iohcPacket) (s : iohcCozyDevice2W) :
    (onIndex i g s).packets2send = modifyAt g i s.packets2send := rfl

@[simp] theorem memorizeSend_onIndex (i : Nat) (g : iohcPacket → iohcPacket) (s : iohcCozyDevice2W) :
    (onIndex i g s).memorizeSend = s.memorizeSend := rfl

@[simp] theorem Fake_onIndex (i : Nat) (g : iohcPacket → iohcPacket) (s : iohcCozyDevice2W) :
    (onIndex i g s).Fake = s.Fake := rfl

@[simp] theorem lastSendCmd_onIndex (i : Nat) (g : iohcPacket → iohcPacket) (s : iohcCozyDevice2W) :
    (onIndex i g s).lastSendCmd = s.lastSendCmd := rfl

@[simp] theorem sent_onIndex (i : Nat) (g : iohcPacket → iohcPacket) (s : iohcCozyDevice2W) :
    (onIndex i g s).sent = s.sent := rfl

@[simp] theorem gateway_memoCmd (c : Nat) (s : iohcCozyDevice2W) :
    (memoCmd c s).gateway = s.gateway := rfl

@[simp] theorem master_from_memoCmd (c : Nat) (s : iohcCozyDevice2W) :
    (memoCmd c s).master_from = s.master_from := rfl

@[simp] theorem master_to_memoCmd (c : Nat) (s : iohcCozyDevice2W) :
    (memoCmd c s).master_to = s.master_to := rfl

@[simp] theorem slave_to_memoCmd (c : Nat) (s : iohcCozyDevice2W) :
    (memoCmd c s).slave_to = s.slave_to := rfl

@[simp] theorem addresses_memoCmd (c : Nat) (s : iohcCozyDevice2W) :
    (memoCmd c s).addresses = s.addresses := rfl

@[simp] theorem devices_memoCmd (c : Nat) (s : iohcCozyDevice2W) :
    (memoCmd c s).devices = s.devices := rfl

@[simp] theorem mapValid_memoCmd (c : Nat) (s : iohcCozyDevice2W) :
    (memoCmd c s).mapValid = s.mapValid := rfl

@[simp] theorem packets2send_memoCmd (c : Nat) (s : iohcCozyDevice2W) :
    (memoCmd c s).packets2send = s.packets2send := rfl

@[simp] theorem memorizeSend_memoCmd (c : Nat) (s : iohcCozyDevice2W) :
    (memoCmd c s).memorizeSend = { s.memorizeSend with memorizedCmd := c % 256 } := rfl

@[simp] theorem Fake_memoCmd (c : Nat) (s : iohcCozyDevice2W) :
    (memoCmd c s).Fake = s.Fake := rfl

@[simp] theorem lastSendCmd_memoCmd (c : Nat) (s : iohcCozyDevice2W) :
    (memoCmd c s).lastSendCmd = s.lastSendCmd := rfl

@[simp] theorem sent_memoCmd (c : Nat) (s : iohcCozyDevice2W) :
    (memoCmd c s).sent = s.sent := rfl

@[simp] theorem gateway_memoData (p : List Nat) (s : iohcCozyDevice2W) :
    (memoData p s).gateway = s.gateway := rfl

@[simp] theorem master_from_memoData (p : List Nat) (s : iohcCozyDevice2W) :
    (memoData p s).master_from = s.master_from := rfl

@[simp] theorem master_to_memoData (p : List Nat) (s : iohcCozyDevice2W) :
    (memoData p s).master_to = s.master_to := rfl

@[simp] theorem slave_to_memoData (p : List Nat) (s : iohcCozyDevice2W) :
    (memoData p s).slave_to = s.slave_to := rfl

@[simp] theorem addresses_memoData (p : List Nat) (s : iohcCozyDevice2W) :
    (memoData p s).addresses = s.addresses := rfl

@[simp] theorem devices_memoData (p : List Nat) (s : iohcCozyDevice2W) :
    (memoData p s).devices = s.devices := rfl

@[simp] theorem mapValid_memoData (p : List Nat) (s : iohcCozyDevice2W) :
    (memoData p s).mapValid = s.mapValid := rfl

@[simp] theorem packets2send_memoData (p : List Nat) (s : iohcCozyDevice2W) :
    (memoData p s).packets2send = s.packets2send := rfl

@[simp] theorem memorizeSend_memoData (p : List Nat) (s : iohcCozyDevice2W) :
    (memoData p s).memorizeSend = { s.memorizeSend with memorizedData := p } := rfl

@[simp] theorem Fake_memoData (p : List Nat) (s : iohcCozyDevice2W) :
    (memoData p s).Fake = s.Fake := rfl

@[simp] theorem lastSendCmd_memoData (p : List Nat) (s : iohcCozyDevice2W) :
    (memoData p s).lastSendCmd = s.lastSendCmd := rfl

@[simp] theorem sent_memoData (p : List Nat) (s : iohcCozyDevice2W) :
    (memoData p s).sent = s.sent := rfl

@[simp] theorem gateway_send (s : iohcCozyDevice2W) :
    (send s).gateway = s.gateway := rfl

@[simp] theorem master_from_send (s : iohcCozyDevice2W) :
    (send s).master_from = s.master_from := rfl

@[simp] theorem master_to_send (s : iohcCozyDevice2W) :
    (send s).master_to = s.master_to := rfl

@[simp] theorem slave_to_send (s : iohcCozyDevice2W) :
    (send s).slave_to = s.slave_to := rfl

@[simp] theorem addresses_send (s : iohcCozyDevice2W) :
    (send s).addresses = s.addresses := rfl

@[simp] theorem devices_send (s : iohcCozyDevice2W) :
    (send s).devices = s.devices := rfl

@[simp] theorem mapValid_send (s : iohcCozyDevice2W) :
    (send s).mapValid = s.mapValid := rfl

@[simp] theorem packets2send_send (s : iohcCozyDevice2W) :
    (send s).packets2send = s.packets2send := rfl

@[simp] theorem memorizeSend_send (s : iohcCozyDevice2W) :
    (send s).memorizeSend = s.memorizeSend := rfl

@[simp] theorem Fake_send (s : iohcCozyDevice2W) :
    (send s).Fake = s.Fake := rfl

@[simp] theorem lastSendCmd_send (s : iohcCozyDevice2W) :
    (send s).lastSendCmd = s.lastSendCmd := rfl

@[simp] theorem sent_send (s : iohcCozyDevice2W) :
    (send s).sent = s.sent ++ [s.packets2send] := rfl

end iohcCozyDevice2W

/-! ## Frames of the cases of `cmd` -/

theorem forgedWith_forgePacket (D : Decls) (toSend : List Nat) :
    (forgePacket D D.fresh toSend).ForgedWith D toSend :=
  ⟨rfl, by simp [forgePacket, Nat.add_comm]⟩

theorem queueForged_nil (D : Decls) : QueueForged D [] := by
  intro f hf
  simp at hf

theorem queueForged_append {D : Decls} {q r : List iohcPacket} (hq : QueueForged D q)
    (hr : QueueForged D r) : QueueForged D (q ++ r) := by
  intro f hf
  rcases List.mem_append.1 hf with hf | hf
  · exact hq f hf
  · exact hr f hf

theorem queueForged_singleton {D : Decls} {f : iohcPacket} {toSend : List Nat}
    (h : f.ForgedWith D toSend) : QueueForged D [f] := by
  intro g hg
  rw [List.mem_singleton] at hg
  exact ⟨toSend, hg ▸ h⟩

theorem queueForged_map {α : Type} {D : Decls} (l : List α) (frame : α → iohcPacket)
    (h : ∀ a, ∃ toSend, (frame a).ForgedWith D toSend) : QueueForged D (l.map frame) := by
  intro f hf
  obtain ⟨a, _, rfl⟩ := List.mem_map.1 hf
  exact h a

theorem forgedWith_probeFrame (D : Decls) (gateway : address) (code : Nat) :
    (probeFrame D gateway code).ForgedWith D (iohcCozyDevice2W.selectProbePayload code []) :=
  forgedWith_forgePacket D _

theorem forgedWith_modeFrame (D : Decls) (toSend : List Nat) (gateway a : address) :
    (modeFrame D toSend gateway a).ForgedWith D toSend :=
  forgedWith_forgePacket D _

namespace iohcCozyDevice2W

theorem forgeOne_eq (D : Decls) (toSend : List Nat) (code : Nat) (s : iohcCozyDevice2W) :
    forgeOne D toSend code s =
      { s with
        packets2send :=
          [iohcPacket.setStartFrame D 1 (iohcPacket.setCmd code (forgePacket D D.fresh toSend))]
        memorizeSend := { memorizedCmd := code % 256, memorizedData := toSend } } := by
  simp [forgeOne, clear, pushNew, onBack, memoData, memoCmd, modifyBack]

theorem onBack_singleton (g : iohcPacket → iohcPacket) (s : iohcCozyDevice2W) (x : iohcPacket)
    (h : s.packets2send = [x]) : onBack g s = { s with packets2send := [g x] } := by
  simp [onBack, h, modifyBack]

end iohcCozyDevice2W

namespace iohcCozyDevice2W

theorem checkCmdLoop_gateway (D : Decls) (entries : List (Nat × Nat)) (toSend : List Nat)
    (s : iohcCozyDevice2W) : (checkCmdLoop D entries toSend s).gateway = s.gateway := by
  induction entries generalizing toSend s with
  | nil => rfl
  | cons c rest ih =>
    unfold checkCmdLoop
    split
    · rw [ih]; simp only [gateway_onBack, gateway_memoCmd, gateway_pushNew]
    · rw [ih]

theorem packets2send_checkCmdLoop (D : Decls) (entries : List (Nat × Nat))
    (s : iohcCozyDevice2W) :
    (checkCmdLoop D entries [] s).packets2send
      = s.packets2send ++ (entries.filter probed).map (fun c => probeFrame D s.gateway c.1) := by
  induction entries generalizing s with
  | nil => simp [checkCmdLoop]
  | cons c rest ih =>
    unfold checkCmdLoop
    split
    · rename_i hc
      have hp : probed c = true := by simpa [probed] using hc
      rw [ih]
      simp only [packets2send_onBack, packets2send_memoCmd, packets2send_pushNew,
        gateway_onBack, gateway_memoCmd, gateway_pushNew, modifyBack_append_singleton,
        List.filter_cons, hp, if_true, List.map_cons, List.append_assoc, List.singleton_append,
        probeFrame]
    · rename_i hc
      have hp : probed c = false := by simpa [probed] using hc
      rw [ih]
      simp only [List.filter_cons, hp]
      simp

end iohcCozyDevice2W

namespace iohcCozyDevice2W

theorem checkCmdLoop_sent (D : Decls) (entries : List (Nat × Nat)) (toSend : List Nat)
    (s : iohcCozyDevice2W) : (checkCmdLoop D entries toSend s).sent = s.sent := by
  induction entries generalizing toSend s with
  | nil => rfl
  | cons c rest ih =>
    unfold checkCmdLoop
    split
    · rw [ih]; simp only [sent_onBack, sent_memoCmd, sent_pushNew]
    · rw [ih]

theorem vectorAt_natCast {α : Type} (v : List α) (i : Nat) (a : α) (h : v[i]? = some a) :
    vectorAt v (i : Int) = .ok a := by
  unfold vectorAt
  have : ¬ ((i : Int) < 0) := by omega
  simp [this, h]

theorem setModeLoop_done (D : Decls) (toSend : List Nat) (rest : List address) :
    ∀ (dest : Nat) (s : iohcCozyDevice2W), s.addresses.drop dest = rest →
      ∃ s', setModeLoop D toSend rest dest s = .done s'
        ∧ s'.packets2send = s.packets2send ++ rest.map (modeFrame D toSend s.gateway)
        ∧ s'.gateway = s.gateway ∧ s'.addresses = s.addresses ∧ s'.sent = s.sent := by
  induction rest with
  | nil =>
    intro dest s _
    exact ⟨s, rfl, by simp, rfl, rfl, rfl⟩
  | cons a rest ih =>
    intro dest s h
    have ha : s.addresses[dest]? = some a := by
      have := congrArg List.head? h
      simpa [List.head?_drop] using this
    have hrest : s.addresses.drop (dest + 1) = rest := by
      have := congrArg List.tail h
      simpa [List.tail_drop] using this
    unfold setModeLoop
    simp only [addresses_onBack, addresses_memoCmd, addresses_memoData, addresses_pushNew,
      vectorAt_natCast _ _ _ ha]
    obtain ⟨s', h1, h2, h3, h4, h5⟩ := ih (dest + 1)
      (onBack (iohcPacket.setTarget a) (onBack (iohcPacket.setSource
        (onBack (iohcPacket.setStartFrame D 1) (memoCmd SEND_WRITE_PRIVATE_0x20
          (memoData toSend (onBack (iohcPacket.setCmd SEND_WRITE_PRIVATE_0x20)
            (onBack (fun p => forgePacket D p toSend) (pushNew D s)))))).gateway)
        (onBack (iohcPacket.setStartFrame D 1) (memoCmd SEND_WRITE_PRIVATE_0x20
          (memoData toSend (onBack (iohcPacket.setCmd SEND_WRITE_PRIVATE_0x20)
            (onBack (fun p => forgePacket D p toSend) (pushNew D s))))))))
      (by simpa using hrest)
    refine ⟨s', h1, ?_, ?_, ?_, ?_⟩
    · rw [h2]
      simp only [packets2send_onBack, packets2send_memoCmd, packets2send_memoData,
        packets2send_pushNew, gateway_onBack, gateway_memoCmd, gateway_memoData,
        gateway_pushNew, modifyBack_append_singleton, List.map_cons, List.append_assoc,
        List.singleton_append, modeFrame]
    · rw [h3]; simp
    · rw [h4]; simp
    · rw [h5]; simp

end iohcCozyDevice2W

theorem modifyBack_singleton {α : Type} (g : α → α) (x : α) :
    modifyBack g [x] = [g x] := rfl

namespace iohcCozyDevice2W

theorem queueForged_foldl {α : Type} (D : Decls) (step : iohcCozyDevice2W → α → iohcCozyDevice2W)
    (hstep : ∀ s a, QueueForged D s.packets2send → QueueForged D (step s a).packets2send)
    (l : List α) (s : iohcCozyDevice2W) (h : QueueForged D s.packets2send) :
    QueueForged D (l.foldl step s).packets2send := by
  induction l generalizing s with
  | nil => exact h
  | cons a l ih => exact ih _ (hstep s a h)

theorem queueForged_discover2AStep (D : Decls) (toSend : List Nat) (s : iohcCozyDevice2W)
    (i : Nat) (h : QueueForged D s.packets2send) :
    QueueForged D (discover2AStep D toSend s i).packets2send := by
  unfold discover2AStep
  split <;>
  · simp only [packets2send_onBack, packets2send_memoCmd, packets2send_memoData,
      packets2send_pushNew, modifyBack_append_singleton]
    exact queueForged_append h (queueForged_singleton (forgedWith_forgePacket D toSend))

theorem queueForged_fake0Step (D : Decls) (toSend : List Nat) (s : iohcCozyDevice2W)
    (g : address) (h : QueueForged D s.packets2send) :
    QueueForged D (fake0Step D toSend s g).packets2send := by
  unfold fake0Step
  simp only [packets2send_onBack, packets2send_memoCmd, packets2send_memoData,
    packets2send_pushNew, modifyBack_append_singleton]
  exact queueForged_append h (queueForged_singleton (forgedWith_forgePacket D toSend))

theorem packets2send_discover28Step (D : Decls) (toSend : List Nat) (s : iohcCozyDevice2W) :
    (discover28Step D toSend s s.packets2send.length).packets2send
      = s.packets2send ++
        [iohcPacket.setDelayed 250 (iohcPacket.setTarget ⟨0x00, 0xFF, 0xFB⟩
          (iohcPacket.setSource s.gateway (iohcPacket.setPrio D 1 (iohcPacket.setLPM D 1
            (iohcPacket.setEndFrame D 1 (iohcPacket.setStartFrame D 1
              (iohcPacket.setCmd SEND_DISCOVER_0x28 (forgePacket D D.fresh toSend))))))))] := by
  unfold discover28Step
  simp only [packets2send_onBack, packets2send_onIndex, packets2send_memoCmd,
    packets2send_memoData, packets2send_pushNew, modifyBack_append_singleton,
    modifyAt_length_append, gateway_onBack, gateway_onIndex, gateway_memoCmd,
    gateway_memoData, gateway_pushNew]

theorem discover28_foldl (D : Decls) (toSend : List Nat) (n : Nat) :
    ∀ (k : Nat) (s : iohcCozyDevice2W), s.packets2send.length = k →
      QueueForged D s.packets2send →
      QueueForged D ((List.range' k n).foldl (discover28Step D toSend) s).packets2send := by
  induction n with
  | zero => intro k s _ h; exact h
  | succ n ih =>
    intro k s hk h
    rw [List.range'_succ, List.foldl_cons]
    subst hk
    apply ih
    · rw [packets2send_discover28Step]; simp
    · rw [packets2send_discover28Step]
      exact queueForged_append h (queueForged_singleton (forgedWith_forgePacket D toSend))

theorem queueForged_customLoop (D : Decls) (l : List Nat) (toSend : List Nat)
    (s : iohcCozyDevice2W) (h : QueueForged D s.packets2send) :
    QueueForged D (customLoop D l toSend s).packets2send := by
  induction l generalizing toSend s with
  | nil => exact h
  | cons acei rest ih =>
    unfold customLoop
    split
    · apply ih
      simp only [packets2send_onBack, packets2send_memoCmd, packets2send_memoData,
        packets2send_pushNew, packets2send_clear, List.nil_append, modifyBack_singleton]
      exact queueForged_singleton (forgedWith_forgePacket D _)
    · exact ih _ _ h

end iohcCozyDevice2W

theorem forgedWith_firstFrame (D : Decls) (toSend : List Nat) (code : Nat) :
    (firstFrame D toSend code).ForgedWith D toSend :=
  forgedWith_forgePacket D _

namespace iohcCozyDevice2W

theorem caseAssociate_eq (D : Decls) (s : iohcCozyDevice2W) :
    caseAssociate D s = .done (s.afterSingle SEND_ASK_CHALLENGE_0x31 []
      (iohcPacket.setTarget s.master_to (iohcPacket.setSource s.gateway
        (iohcPacket.setEndFrame D 1 (firstFrame D [] SEND_ASK_CHALLENGE_0x31))))) := by
  unfold caseAssociate
  refine congrArg Outcome.done ?_
  apply iohcCozyDevice2W.ext <;>
    simp [forgeOne_eq, modifyBack_singleton, afterSingle, firstFrame]

theorem casePowerOn_eq (D : Decls) (s : iohcCozyDevice2W) :
    casePowerOn D s = .done (s.afterSingle SEND_WRITE_PRIVATE_0x20 [0x0C, 0x60, 0x01, 0x2C]
      (iohcPacket.setTarget s.master_to (iohcPacket.setSource s.gateway
        (firstFrame D [0x0C, 0x60, 0x01, 0x2C] SEND_WRITE_PRIVATE_0x20)))) := by
  unfold casePowerOn
  refine congrArg Outcome.done ?_
  apply iohcCozyDevice2W.ext <;>
    simp [forgeOne_eq, modifyBack_singleton, afterSingle, firstFrame]

theorem caseMidnight_eq (D : Decls) (s : iohcCozyDevice2W) :
    caseMidnight D s = .done (s.afterSingle SEND_WRITE_PRIVATE_0x20 [0x0c, 0x60, 0x01, 0x30]
      (iohcPacket.setTarget s.master_to (iohcPacket.setSource s.gateway
        (firstFrame D [0x0c, 0x60, 0x01, 0x30] SEND_WRITE_PRIVATE_0x20)))) := by
  unfold caseMidnight
  refine congrArg Outcome.done ?_
  apply iohcCozyDevice2W.ext <;>
    simp [forgeOne_eq, modifyBack_singleton, afterSingle, firstFrame]

theorem caseAck_eq (D : Decls) (s : iohcCozyDevice2W) :
    caseAck D s = .done (s.afterSingle SEND_KEY_TRANSFERT_ACK_0x33 []
      (iohcPacket.setTarget s.master_from (iohcPacket.setSource s.gateway
        (firstFrame D [] SEND_KEY_TRANSFERT_ACK_0x33)))) := by
  unfold caseAck
  refine congrArg Outcome.done ?_
  apply iohcCozyDevice2W.ext <;>
    simp [forgeOne_eq, modifyBack_singleton, afterSingle, firstFrame]

theorem sendToIndex_eq (D : Decls) (toSend : List Nat) (addr : Int) (s : iohcCozyDevice2W)
    (a : address) (h : vectorAt s.addresses addr = .ok a) :
    sendToIndex D toSend addr s = .done (s.afterSingle SEND_WRITE_PRIVATE_0x20 toSend
      (iohcPacket.setDelayed 50 (iohcPacket.setTarget a (iohcPacket.setSource s.gateway
        (firstFrame D toSend SEND_WRITE_PRIVATE_0x20))))) := by
  unfold sendToIndex
  simp only [addresses_onBack, forgeOne_eq, h]
  refine congrArg Outcome.done ?_
  apply iohcCozyDevice2W.ext <;>
    simp [modifyBack_singleton, afterSingle, firstFrame]

theorem sendToIndex_thrown (D : Decls) (toSend : List Nat) (addr : Int) (s : iohcCozyDevice2W)
    (e : Exn) (h : vectorAt s.addresses addr = .error e) :
    sendToIndex D toSend addr s = .thrown e
      { s with
        packets2send := [iohcPacket.setSource s.gateway
          (firstFrame D toSend SEND_WRITE_PRIVATE_0x20)]
        memorizeSend :=
          { memorizedCmd := SEND_WRITE_PRIVATE_0x20 % 256, memorizedData := toSend } } := by
  unfold sendToIndex
  simp only [addresses_onBack, forgeOne_eq, h]
  refine congrArg (Outcome.thrown e) ?_
  apply iohcCozyDevice2W.ext <;>
    simp [modifyBack_singleton, firstFrame]

theorem caseSetPresence_eq (D : Decls) (data : Tokens) (s : iohcCozyDevice2W) (dat : String)
    (h : tokenAt data 1 = .ok dat) :
    caseSetPresence D data s = .done (s.afterSingle SEND_WRITE_PRIVATE_0x20
      (setPresencePayload dat)
      (iohcPacket.setTarget s.master_to (iohcPacket.setSource s.gateway
        (firstFrame D (setPresencePayload dat) SEND_WRITE_PRIVATE_0x20)))) := by
  unfold caseSetPresence
  simp only [h]
  refine congrArg Outcome.done ?_
  apply iohcCozyDevice2W.ext <;>
    simp [forgeOne_eq, modifyBack_singleton, afterSingle, firstFrame]

theorem caseCustom60_eq (D : Decls) (data : Tokens) (s : iohcCozyDevice2W) (t : String)
    (custom : Int) (h : tokenAt data 1 = .ok t) (hc : D.stoi t = .ok custom) :
    caseCustom60 D data s = .done (s.afterSingle SEND_WRITE_PRIVATE_0x20
      ([0x0C, 0x60, 0x01, 0xFF].set 3 (toUInt8 custom))
      (iohcPacket.setDelayed 250 (iohcPacket.setTarget s.slave_to
        (iohcPacket.setSource s.gateway
          (firstFrame D ([0x0C, 0x60, 0x01, 0xFF].set 3 (toUInt8 custom))
            SEND_WRITE_PRIVATE_0x20))))) := by
  unfold caseCustom60
  simp only [h, hc]
  refine congrArg Outcome.done ?_
  apply iohcCozyDevice2W.ext <;>
    simp [forgeOne_eq, modifyBack_singleton, afterSingle, firstFrame]

end iohcCozyDevice2W

theorem tokenAt_cases (data : Tokens) (i : Nat) :
    (∃ t, tokenAt data i = .ok t) ∨ tokenAt data i = .error .out_of_range := by
  unfold tokenAt
  cases data[i]? with
  | none => exact Or.inr rfl
  | some t => exact Or.inl ⟨t, rfl⟩

namespace iohcCozyDevice2W

theorem queueForged_afterSingle (D : Decls) (s : iohcCozyDevice2W) (code : Nat)
    (toSend : List Nat) (f : iohcPacket) (h : f.ForgedWith D toSend) :
    QueueForged D (s.afterSingle code toSend f).packets2send :=
  queueForged_singleton h

theorem queueForged_sendToIndex (D : Decls) (toSend : List Nat) (addr : Int)
    (s s' : iohcCozyDevice2W) (h : sendToIndex D toSend addr s = .done s') :
    QueueForged D s'.packets2send := by
  cases hv : vectorAt s.addresses addr with
  | error e => rw [sendToIndex_thrown D toSend addr s e hv] at h; cases h
  | ok a =>
    rw [sendToIndex_eq D toSend addr s a hv] at h
    cases h
    exact queueForged_afterSingle D s _ _ _ (forgedWith_forgePacket D toSend)

theorem queueForged_caseSetTemp (D : Decls) (data : Tokens) (s s' : iohcCozyDevice2W)
    (h : caseSetTemp D data s = .done s') : QueueForged D s'.packets2send := by
  unfold caseSetTemp at h
  split at h
  · cases h
  · split at h
    · cases h
    · split at h
      · cases h
      · split at h
        · cases h
        · exact queueForged_sendToIndex D _ _ s s' h

theorem queueForged_caseSetWindow (D : Decls) (data : Tokens) (s s' : iohcCozyDevice2W)
    (h : caseSetWindow D data s = .done s') : QueueForged D s'.packets2send := by
  unfold caseSetWindow at h
  split at h
  · cases h
  · split at h
    · cases h
    · exact queueForged_sendToIndex D _ _ s s' h

theorem queueForged_caseSetMode (D : Decls) (data : Tokens) (s s' : iohcCozyDevice2W)
    (h : caseSetMode D data s = .done s') : QueueForged D s'.packets2send := by
  unfold caseSetMode at h
  split at h
  · cases h
  · rename_i dat _
    obtain ⟨s1, h1, h2, -, -, -⟩ :=
      setModeLoop_done D (setModePayload dat) (clear s).addresses 0 (clear s) rfl
    simp only [h1] at h
    split at h
    · cases h
      simp only [packets2send_send, packets2send_onIndex, h2, packets2send_clear,
        List.nil_append]
      intro f hf
      rcases mem_modifyAt _ _ _ _ hf with hf | ⟨x, hx, rfl⟩
      · exact queueForged_map _ _ (fun a => ⟨_, forgedWith_modeFrame D _ _ a⟩) f hf
      · obtain ⟨p, hp⟩ := queueForged_map _ _
          (fun a => ⟨_, forgedWith_modeFrame D (setModePayload dat) (clear s).gateway a⟩) x hx
        exact ⟨p, hp⟩
    · cases h

theorem queueForged_caseSetPresence (D : Decls) (data : Tokens) (s s' : iohcCozyDevice2W)
    (h : caseSetPresence D data s = .done s') : QueueForged D s'.packets2send := by
  rcases tokenAt_cases data 1 with ⟨dat, hd⟩ | hd
  · rw [caseSetPresence_eq D data s dat hd] at h
    cases h
    exact queueForged_afterSingle D s _ _ _ (forgedWith_forgePacket D _)
  · unfold caseSetPresence at h
    rw [hd] at h
    cases h

theorem queueForged_caseCustom60 (D : Decls) (data : Tokens) (s s' : iohcCozyDevice2W)
    (h : caseCustom60 D data s = .done s') : QueueForged D s'.packets2send := by
  rcases tokenAt_cases data 1 with ⟨t, hd⟩ | hd
  · cases hc : D.stoi t with
    | error e =>
      unfold caseCustom60 at h
      simp only [hd, hc] at h
      cases h
    | ok custom =>
      rw [caseCustom60_eq D data s t custom hd hc] at h
      cases h
      exact queueForged_afterSingle D s _ _ _ (forgedWith_forgePacket D _)
  · unfold caseCustom60 at h
    rw [hd] at h
    cases h

theorem caseCustom_eq (D : Decls) (s : iohcCozyDevice2W) :
    caseCustom D s = .done (send (customLoop D (List.range 256)
      [0x01, 0x47, 0xc8, 0x00, 0x00, 0x00] s)) := rfl

theorem caseDiscover28_eq (D : Decls) (s : iohcCozyDevice2W) :
    caseDiscover28 D s = .done (send ((List.range 10).foldl (discover28Step D []) (clear s))) :=
  rfl

theorem caseDiscover2A_eq (D : Decls) (s : iohcCozyDevice2W) :
    caseDiscover2A D s = .done (send ((List.range 20).foldl (discover2AStep D
      [0x01, 0x02, 0x03, 0x04, 0x05, 0x06, 0x07, 0x08, 0x09, 0x10, 0x11, 0x12]) (clear s))) :=
  rfl

theorem caseFake0_eq (D : Decls) (s : iohcCozyDevice2W) :
    caseFake0 D s = .done (send (guessed.foldl (fake0Step D
      [0x03, 0xe7, 0x32, 0x00, 0x00, 0x00]) (clear s))) := rfl

theorem caseCheckCmd_eq (D : Decls) (s : iohcCozyDevice2W) :
    caseCheckCmd D s = .done (send (checkCmdLoop D s.mapValid [] (clear s))) := rfl

end iohcCozyDevice2W

/-- C3 (as amended): `forgePacket` has no size check and no failure result. For a
payload that fits the frame buffer behind the 9-byte header the call returns with the
packet written: control byte 2 cleared, the length field `(8 + L) mod 2^w`,
`buffer_length = L + 9`, the payload bytes behind the header and the default scheduling
fields. For a payload that does not fit, the call does not fail with a size error: its
`memcpy` writes past the buffer, which is undefined behaviour. No call leaves through
an exception. -/
theorem forgePacket_no_size_check (D : Decls) (packet : iohcPacket) (toSend : List Nat) :
    (toSend.length + 9 ≤ 9 + packet.body.length →
      forgePacketCall D packet toSend = .returned (forgePacket D packet toSend)
      ∧ (forgePacket D packet toSend).buffer_length = toSend.length + 9
      ∧ (forgePacket D packet toSend).CtrlByte2 = 0
      ∧ (forgePacket D packet toSend).MsgLen D = (8 + toSend.length) % 2 ^ D.msgLenBits.val
      ∧ (∀ i, i < toSend.length →
          (forgePacket D packet toSend).bufferAt (9 + i) = toSend[i]?)
      ∧ (forgePacket D packet toSend).frequency = CHANNEL2
      ∧ (forgePacket D packet toSend).repeatTime = 25
      ∧ (forgePacket D packet toSend).repeat_ = 0
      ∧ (forgePacket D packet toSend).lock = false)
    ∧ (9 + packet.body.length < toSend.length + 9 →
        forgePacketCall D packet toSend = .undefined)
    ∧ ∀ e p, forgePacketCall D packet toSend ≠ .thrown e p := by
  refine ⟨?_, ?_, ?_⟩
  · intro hfit
    have hle : toSend.length ≤ packet.body.length := by omega
    refine ⟨?_, rfl, rfl, msgLen_forgePacket D packet toSend, ?_, rfl, rfl, rfl, rfl⟩
    · unfold forgePacketCall
      rw [if_pos hle]
    · intro i hi
      show (if 9 ≤ 9 + i then (memcpyBody packet.body toSend)[9 + i - 9]? else none) = _
      rw [if_pos (Nat.le_add_right 9 i), Nat.add_sub_cancel_left]
      exact memcpyBody_getElem? packet.body toSend hle i hi
  · intro hover
    have hlt : ¬ toSend.length ≤ packet.body.length := by omega
    unfold forgePacketCall
    rw [if_neg hlt]
  · intro e p h
    unfold forgePacketCall at h
    split at h <;> cases h

/-- Witness of C3 (as amended): a 4-byte payload fits the 32-byte buffer of the sample
packet and the call returns with the declared length 13. -/
theorem forgePacket_no_size_check_witness :
    [0x0C, 0x60, 0x01, 0x2C].length + 9 ≤ 9 + zeroPacket.body.length
    ∧ forgePacketCall (sampleDecls 5) zeroPacket [0x0C, 0x60, 0x01, 0x2C]
      = .returned (forgePacket (sampleDecls 5) zeroPacket [0x0C, 0x60, 0x01, 0x2C])
    ∧ (forgePacket (sampleDecls 5) zeroPacket [0x0C, 0x60, 0x01, 0x2C]).buffer_length = 13 :=
  have h := (forgePacket_no_size_check (sampleDecls 5) zeroPacket [0x0C, 0x60, 0x01, 0x2C]).1
    (by decide)
  ⟨by decide, h.1, h.2.1⟩

/-- C3 (counterexample): a 24-byte payload does not fit a 32-byte frame buffer behind
the 9-byte header; the call of `forgePacket` does not end in a size error with the
frame unwritten, it runs into the undefined behaviour of the copy past the buffer. -/
theorem forgePacket_oversize_undefined :
    9 + zeroPacket.body.length < (List.replicate 24 0xAA).length + 9
    ∧ forgePacketCall (sampleDecls 5) zeroPacket (List.replicate 24 0xAA) = .undefined
    ∧ ∀ e, forgePacketCall (sampleDecls 5) zeroPacket (List.replicate 24 0xAA)
        ≠ .thrown e zeroPacket := by
  refine ⟨by decide, by decide, ?_⟩
  intro e
  cases e <;> decide

theorem floatToInt_tenTimes_21_5 (j : Nat) (hj : j ≤ 18) :
    floatToInt (tenTimes (.finite (43 * 2 ^ j) (-(1 + (j : Int))))) = some 215 := by
  interval_cases j <;> decide

theorem excessBits_of_lt (fuel n : Nat) (h : n < 2 ^ 24) : excessBits fuel n = 0 := by
  cases fuel with
  | zero => rfl
  | succ fuel => unfold excessBits; rw [if_pos h]

theorem roundShift_zero (n : Nat) : roundShift n 0 = n := by
  simp [roundShift, Nat.mod_one]

theorem natAbs_lt_of_tdiv (a b : Int) (n : Nat) (h : a.natAbs < n) :
    -(n : Int) ≤ a.tdiv b ∧ a.tdiv b < n := by
  have h1 : (a.tdiv b).natAbs ≤ a.natAbs := by
    rw [Int.natAbs_tdiv]
    exact Nat.div_le_self _ _
  omega

/-- When the product `10 * x` needs no rounding (ten times the mantissa has at most 24
bits) and `x` has no positive exponent, `(int)(10 * x)` is ten times the value of `x`
truncated toward zero. -/
theorem floatToInt_tenTimes_exact (m e : Int) (hm : 10 * m.natAbs < 2 ^ 24) (he : e ≤ 0) :
    floatToInt (tenTimes (.finite m e)) = some (Int.tdiv (10 * m) (2 ^ (-e).toNat)) := by
  have hsign : m.sign * ((10 * m.natAbs : Nat) : Int) = 10 * m := by
    rw [Nat.cast_mul, Nat.cast_ofNat, mul_left_comm, Int.sign_mul_natAbs]
  have habs : (10 * m).natAbs < 2 ^ 24 := by
    rw [Int.natAbs_mul]
    simpa using hm
  have hover : ¬ (0 ≤ e ∧ 2 ^ 128 ≤ 10 * m.natAbs * 2 ^ e.toNat) := by
    rintro ⟨h0, h1⟩
    have he0 : e = 0 := by omega
    subst he0
    simp at h1
    omega
  have hbound := natAbs_lt_of_tdiv (10 * m) (2 ^ (-e).toNat) (2 ^ 24) habs
  have ht : (if 0 ≤ e then 10 * m * 2 ^ e.toNat else (10 * m).tdiv (2 ^ (-e).toNat))
      = (10 * m).tdiv (2 ^ (-e).toNat) := by
    by_cases h0 : 0 ≤ e
    · have he0 : e = 0 := by omega
      subst he0
      simp
    · rw [if_neg h0]
  have hr : -2 ^ 31 ≤ (10 * m).tdiv (2 ^ (-e).toNat)
      ∧ (10 * m).tdiv (2 ^ (-e).toNat) < 2 ^ 31 := by
    constructor
    · have := hbound.1
      push_cast at this
      omega
    · have := hbound.2
      push_cast at this
      omega
  simp only [tenTimes, excessBits_of_lt _ _ hm, roundShift_zero, Nat.cast_zero, add_zero,
    hover, if_false, hsign, floatToInt, ht]
  rw [if_pos hr]

theorem memcpyBody_take (body src : List Nat) (h : src.length ≤ body.length) :
    (memcpyBody body src).take src.length = src := by
  unfold memcpyBody
  rw [List.take_of_length_le h, List.take_left']
  rfl

namespace iohcCozyDevice2W

theorem caseSetTemp_eq_sendToIndex (D : Decls) (data : Tokens) (s : iohcCozyDevice2W)
    (t : String) (x : FloatVal) (temp addr : Int) (h1 : tokenAt data 1 = .ok t)
    (hx : D.stof t = .ok x) (ht : floatToInt (tenTimes x) = some temp)
    (ha : indexArg D data = .ok addr) :
    caseSetTemp D data s
      = sendToIndex D [0x0C, 0x61, 0x01, 0x03, toUInt8 temp, 0x00] addr s := by
  unfold caseSetTemp
  simp only [h1, hx, ht, ha]
  rfl

end iohcCozyDevice2W

/-- C4: `cmd(setTemp, ["settemp", t])` with a non-empty address table and no index
argument completes with exactly one frame, handed to the radio as one burst, with
command code 0x20 and the 6-byte payload `0C 61 01 03 b 00`, where `b` is `(int)(10 *
stof(t))` reduced modulo 256: the binary32 product of 10 and the parsed temperature,
truncated toward zero (when that product needs no rounding, ten times the parsed value
truncated toward zero). For `t = "21.5"`, parsed as any binary32 representation
`43 * 2^j * 2^-(1+j)` of 21.5, `b = 215`. -/
theorem cmd_setTemp_frame (D : Decls) (s : iohcCozyDevice2W) (t : String) (x : FloatVal)
    (temp : Int) (haddr : s.addresses ≠ []) (hx : D.stof t = .ok x)
    (ht : floatToInt (tenTimes x) = some temp) :
    ∃ s' f, iohcCozyDevice2W.cmd D .setTemp ["settemp", t] s = .done s'
      ∧ s'.packets2send = [f] ∧ s'.sent = s.sent ++ [[f]]
      ∧ f.cmd = 0x20
      ∧ f.ForgedWith D [0x0C, 0x61, 0x01, 0x03, (temp % 256).toNat, 0x00]
      ∧ f.buffer_length = 9 + 6
      ∧ (6 ≤ D.fresh.body.length →
          f.body.take 6 = [0x0C, 0x61, 0x01, 0x03, (temp % 256).toNat, 0x00])
      ∧ (∀ m e, x = .finite m e → 10 * m.natAbs < 2 ^ 24 → e ≤ 0 →
          temp = Int.tdiv (10 * m) (2 ^ (-e).toNat))
      ∧ (∀ j : Nat, j ≤ 18 → x = .finite (43 * 2 ^ j) (-(1 + (j : Int))) →
          (temp % 256).toNat = 215) := by
  obtain ⟨a, rest, hcons⟩ : ∃ a rest, s.addresses = a :: rest := by
    cases hs : s.addresses with
    | nil => exact absurd hs haddr
    | cons a rest => exact ⟨a, rest, rfl⟩
  have hv : vectorAt s.addresses 0 = .ok a := by simp [vectorAt, hcons]
  have hcmd : iohcCozyDevice2W.cmd D .setTemp ["settemp", t] s
      = iohcCozyDevice2W.sendToIndex D [0x0C, 0x61, 0x01, 0x03, toUInt8 temp, 0x00] 0 s :=
    iohcCozyDevice2W.caseSetTemp_eq_sendToIndex D ["settemp", t] s t x temp 0 rfl hx ht rfl
  rw [iohcCozyDevice2W.sendToIndex_eq D _ 0 s a hv] at hcmd
  refine ⟨_, _, hcmd, rfl, rfl, rfl, forgedWith_forgePacket D _, rfl, ?_, ?_, ?_⟩
  · intro hfit
    exact memcpyBody_take D.fresh.body [0x0C, 0x61, 0x01, 0x03, toUInt8 temp, 0x00] hfit
  · intro m e hxe hm he
    subst hxe
    rw [floatToInt_tenTimes_exact m e hm he] at ht
    exact (Option.some.inj ht).symm
  · intro j hj hxe
    subst hxe
    rw [floatToInt_tenTimes_21_5 j hj] at ht
    rw [← Option.some.inj ht]
    rfl

/-- Witness of C4: `settemp 21.5` on the sample controller. -/
theorem cmd_setTemp_frame_witness :
    sampleController.addresses ≠ []
    ∧ (sampleDecls 5).stof "21.5" = .ok (.finite 43 (-1))
    ∧ floatToInt (tenTimes (.finite 43 (-1))) = some 215
    ∧ ∃ s' f, iohcCozyDevice2W.cmd (sampleDecls 5) .setTemp ["settemp", "21.5"] sampleController
        = .done s'
      ∧ s'.packets2send = [f] ∧ f.cmd = 0x20
      ∧ f.body.take 6 = [0x0C, 0x61, 0x01, 0x03, 215, 0x00] :=
  have h := cmd_setTemp_frame (sampleDecls 5) sampleController "21.5" (.finite 43 (-1)) 215
    (by decide) rfl (by decide)
  ⟨by decide, rfl, by decide,
    h.elim fun s' h => h.elim fun f h =>
      ⟨s', f, h.1, h.2.1, h.2.2.2.1, h.2.2.2.2.2.2.1 (by decide)⟩⟩

namespace iohcCozyDevice2W

theorem vectorAt_ok {α : Type} (v : List α) (i : Int) (a : α) (h : vectorAt v i = .ok a) :
    0 ≤ i ∧ v[i.toNat]? = some a := by
  unfold vectorAt at h
  split at h
  · cases h
  · rename_i hi
    split at h
    · rename_i b hb
      cases h
      exact ⟨by omega, hb⟩
    · cases h

theorem sendToIndex_done (D : Decls) (toSend : List Nat) (addr : Int)
    (s s' : iohcCozyDevice2W) (h : sendToIndex D toSend addr s = .done s') :
    ∃ a, vectorAt s.addresses addr = .ok a
      ∧ s' = s.afterSingle SEND_WRITE_PRIVATE_0x20 toSend
        (iohcPacket.setDelayed 50 (iohcPacket.setTarget a (iohcPacket.setSource s.gateway
          (firstFrame D toSend SEND_WRITE_PRIVATE_0x20)))) := by
  cases hv : vectorAt s.addresses addr with
  | error e => rw [sendToIndex_thrown D toSend addr s e hv] at h; cases h
  | ok a =>
    rw [sendToIndex_eq D toSend addr s a hv] at h
    exact ⟨a, rfl, (Outcome.done.inj h).symm⟩

theorem caseSetTemp_done (D : Decls) (data : Tokens) (s s' : iohcCozyDevice2W)
    (h : caseSetTemp D data s = .done s') :
    ∃ toSend addr, indexArg D data = .ok addr ∧ sendToIndex D toSend addr s = .done s' := by
  unfold caseSetTemp at h
  split at h
  · cases h
  · split at h
    · cases h
    · split at h
      · cases h
      · split at h
        · cases h
        · rename_i addr ha
          exact ⟨_, addr, ha, h⟩

theorem caseSetWindow_done (D : Decls) (data : Tokens) (s s' : iohcCozyDevice2W)
    (h : caseSetWindow D data s = .done s') :
    ∃ toSend addr, indexArg D data = .ok addr ∧ sendToIndex D toSend addr s = .done s' := by
  unfold caseSetWindow at h
  split at h
  · cases h
  · split at h
    · cases h
    · rename_i addr ha
      exact ⟨_, addr, ha, h⟩

theorem indexArg_default (D : Decls) (data : Tokens) (i : Int) (h : indexArg D data = .ok i)
    (h2 : data.length = 2) : i = 0 := by
  unfold indexArg at h
  rw [if_pos h2] at h
  cases h
  rfl

theorem load_addresses (D : Decls) (fs : Store) (s : iohcCozyDevice2W) :
    (load D fs s).2.addresses = s.addresses ∧ (load D fs s).2.gateway = s.gateway := by
  unfold load
  cases fs with
  | none => exact ⟨rfl, rfl⟩
  | some docs =>
    simp only
    generalize docs.headD [] = doc
    induction doc generalizing s with
    | nil => exact ⟨rfl, rfl⟩
    | cons kv doc ih =>
      rw [List.foldl_cons]
      exact ih _

end iohcCozyDevice2W

/-- C5 (as amended): for `setTemp` and `setWindow` with index `i` (`i = 0` when no index
argument is given), the single frame's target address is the `i`-th entry of the
controller's address table `addresses`, a table that `load()` leaves as it was (it
fills the separate device list); its source is the gateway address and its pre-send
delay is 50 ms. -/
theorem cmd_index_target (D : Decls) (fs : iohcCozyDevice2W.Store) (s0 s' : iohcCozyDevice2W)
    (button : DeviceButton) (data : Tokens)
    (hb : button = .setTemp ∨ button = .setWindow)
    (h : iohcCozyDevice2W.cmd D button data (iohcCozyDevice2W.load D fs s0).2 = .done s') :
    (iohcCozyDevice2W.load D fs s0).2.addresses = s0.addresses
    ∧ ∃ (i : Int) (a : address) (f : iohcPacket),
        iohcCozyDevice2W.indexArg D data = .ok i ∧ (data.length = 2 → i = 0)
        ∧ 0 ≤ i ∧ s0.addresses[i.toNat]? = some a
        ∧ s'.packets2send = [f] ∧ f.target = a ∧ f.source = s0.gateway ∧ f.delayed = 50 := by
  obtain ⟨hl1, hl2⟩ := iohcCozyDevice2W.load_addresses D fs s0
  refine ⟨hl1, ?_⟩
  have hdone : ∃ toSend addr, iohcCozyDevice2W.indexArg D data = .ok addr
      ∧ iohcCozyDevice2W.sendToIndex D toSend addr (iohcCozyDevice2W.load D fs s0).2
          = .done s' := by
    rcases hb with rfl | rfl
    · exact iohcCozyDevice2W.caseSetTemp_done D data _ s' h
    · exact iohcCozyDevice2W.caseSetWindow_done D data _ s' h
  obtain ⟨toSend, addr, ha, hs⟩ := hdone
  obtain ⟨a, hv, rfl⟩ := iohcCozyDevice2W.sendToIndex_done D toSend addr _ _ hs
  obtain ⟨h0, hget⟩ := iohcCozyDevice2W.vectorAt_ok _ _ _ hv
  rw [hl1] at hget
  exact ⟨addr, a, _, ha, iohcCozyDevice2W.indexArg_default D data addr ha, h0, hget, rfl, rfl,
    hl2, rfl⟩

theorem sample_setTemp_run :
    iohcCozyDevice2W.cmd (sampleDecls 5) .setTemp ["settemp", "21.5"] loadedController
      = .done (loadedController.afterSingle SEND_WRITE_PRIVATE_0x20
          [0x0C, 0x61, 0x01, 0x03, 215, 0x00]
          (iohcPacket.setDelayed 50 (iohcPacket.setTarget ⟨0x48, 0x79, 0x02⟩
            (iohcPacket.setSource loadedController.gateway
              (firstFrame (sampleDecls 5) [0x0C, 0x61, 0x01, 0x03, 215, 0x00]
                SEND_WRITE_PRIVATE_0x20))))) := by
  have h1 := iohcCozyDevice2W.caseSetTemp_eq_sendToIndex (sampleDecls 5) ["settemp", "21.5"]
    loadedController "21.5" (.finite 43 (-1)) 215 0 rfl rfl (by decide) rfl
  have h2 := iohcCozyDevice2W.sendToIndex_eq (sampleDecls 5)
    [0x0C, 0x61, 0x01, 0x03, toUInt8 215, 0x00] 0 loadedController ⟨0x48, 0x79, 0x02⟩ rfl
  exact h1.trans h2

/-- Witness of C5 (as amended): `settemp 21.5` on the sample controller after `load()`
of a store whose only device has the destination `11 22 33`: the frame goes to the
first entry `48 79 02` of the address table. -/
theorem cmd_index_target_witness :
    ∃ s' f, iohcCozyDevice2W.cmd (sampleDecls 5) .setTemp ["settemp", "21.5"]
        (iohcCozyDevice2W.load (sampleDecls 5) sampleStore sampleController).2 = .done s'
      ∧ s'.packets2send = [f] ∧ sampleController.addresses[0]? = some f.target
      ∧ f.source = sampleController.gateway ∧ f.delayed = 50 := by
  obtain ⟨_, i, a, f, _, hi, _, hget, hq, ht, hs, hd⟩ :=
    cmd_index_target (sampleDecls 5) sampleStore sampleController _ .setTemp
      ["settemp", "21.5"] (Or.inl rfl) sample_setTemp_run
  have hi0 : i = 0 := hi rfl
  subst hi0
  exact ⟨_, f, sample_setTemp_run, hq, by rw [ht]; exact hget, hs, hd⟩

/-- C5 (counterexample): after `load()` of a store whose only device record has the
destination address `11 22 33`, `cmd(setTemp, ["settemp", "21.5"])` sends its single
frame to `48 79 02`, the first entry of the address table, not to the destination of
device record 0. -/
theorem cmd_setTemp_target_is_not_device_dst :
    (iohcCozyDevice2W.load (sampleDecls 5) sampleStore sampleController).1 = true
    ∧ loadedController.devices.map (fun d => d._dst) = [⟨0x11, 0x22, 0x33⟩]
    ∧ ∃ s' f, iohcCozyDevice2W.cmd (sampleDecls 5) .setTemp ["settemp", "21.5"]
          loadedController = .done s'
        ∧ s'.packets2send = [f] ∧ f.target = ⟨0x48, 0x79, 0x02⟩
        ∧ loadedController.devices.map (fun d => d._dst) ≠ [f.target] :=
  ⟨rfl, by decide, _, _, sample_setTemp_run, rfl, rfl, by decide⟩

theorem strcasecmpEq_iff (a b : String) :
    strcasecmpEq a b = true ↔ (c_str a).map Char.toLower = (c_str b).map Char.toLower := by
  unfold strcasecmpEq
  exact beq_iff_eq

namespace iohcCozyDevice2W

theorem setModePayload_eq (k : String) :
    setModePayload k = [0x0C, 0x61, 0x01, 0x00,
      if (c_str k).map Char.toLower = "auto".toList then 0x00
      else if (c_str k).map Char.toLower = "manual".toList then 0x01
      else if (c_str k).map Char.toLower = "prog".toList then 0x02
      else if (c_str k).map Char.toLower = "off".toList then 0x04
      else 0xFF] := by
  have ha : (c_str "auto").map Char.toLower = "auto".toList := by decide
  have hm : (c_str "manual").map Char.toLower = "manual".toList := by decide
  have hp : (c_str "prog").map Char.toLower = "prog".toList := by decide
  have ho : (c_str "off").map Char.toLower = "off".toList := by decide
  have e1 : "auto".toList ≠ "manual".toList := by decide
  have e2 : "auto".toList ≠ "prog".toList := by decide
  have e3 : "auto".toList ≠ "off".toList := by decide
  have e4 : "manual".toList ≠ "prog".toList := by decide
  have e5 : "manual".toList ≠ "off".toList := by decide
  have e6 : "prog".toList ≠ "off".toList := by decide
  unfold setModePayload
  simp only [strcasecmpEq_iff, ha, hm, hp, ho]
  generalize (c_str k).map Char.toLower = key
  generalize "auto".toList = A at *
  generalize "manual".toList = M at *
  generalize "prog".toList = P at *
  generalize "off".toList = O at *
  by_cases h1 : key = A
  · subst h1
    simp [e1, e2, e3]
  · by_cases h2 : key = M
    · subst h2
      simp [e4, e5, h1]
    · by_cases h3 : key = P
      · subst h3
        simp [e6, h1, h2]
      · by_cases h4 : key = O
        · subst h4
          simp [h1, h2, h3]
        · simp [h1, h2, h3, h4]

theorem caseSetMode_done (D : Decls) (data : Tokens) (s s' : iohcCozyDevice2W)
    (h : caseSetMode D data s = .done s') :
    ∃ dat, tokenAt data 1 = .ok dat ∧ 1 < s.addresses.length
      ∧ s'.packets2send = modifyAt (iohcPacket.setDelayed 250) 1
          (s.addresses.map (modeFrame D (setModePayload dat) s.gateway))
      ∧ s'.sent = s.sent ++ [s'.packets2send] := by
  unfold caseSetMode at h
  split at h
  · cases h
  · rename_i dat hd
    obtain ⟨s1, h1, h2, -, -, h5⟩ :=
      setModeLoop_done D (setModePayload dat) (clear s).addresses 0 (clear s) rfl
    simp only [h1] at h
    split at h
    · rename_i hlen
      cases h
      refine ⟨dat, hd, ?_, ?_, ?_⟩
      · rw [h2] at hlen
        simpa using hlen
      · simp only [packets2send_send, packets2send_onIndex, h2, packets2send_clear,
          List.nil_append, addresses_clear, gateway_clear]
      · simp only [sent_send, sent_onIndex, packets2send_send, h5, sent_clear]
    · cases h

theorem caseSetMode_undefined (D : Decls) (data : Tokens) (s : iohcCozyDevice2W) (dat : String)
    (hd : tokenAt data 1 = .ok dat) (hlen : s.addresses.length < 2) :
    caseSetMode D data s = .undefined := by
  unfold caseSetMode
  simp only [hd]
  obtain ⟨s1, h1, h2, -, -, -⟩ :=
    setModeLoop_done D (setModePayload dat) (clear s).addresses 0 (clear s) rfl
  simp only [h1]
  have : ¬ (1 < s1.packets2send.length) := by
    rw [h2]
    simp only [packets2send_clear, List.nil_append, List.length_map, addresses_clear]
    omega
  rw [if_neg this]

end iohcCozyDevice2W

/-- C6: for every mode keyword `k`, every frame built by a completed
`cmd(setMode, ["setmode", k])` carries the 5-byte payload `0C 61 01 00 b`, where `b` is
0x00 if `k` is "auto", 0x01 if "manual", 0x02 if "prog", 0x04 if "off" (the C string
of `k` compared ignoring letter case), and `b` is 0xFF for every other keyword. -/
theorem cmd_setMode_payload (D : Decls) (s s' : iohcCozyDevice2W) (k : String)
    (h : iohcCozyDevice2W.cmd D .setMode ["setmode", k] s = .done s') :
    ∀ f ∈ s'.packets2send,
      f.ForgedWith D [0x0C, 0x61, 0x01, 0x00,
        if (c_str k).map Char.toLower = "auto".toList then 0x00
        else if (c_str k).map Char.toLower = "manual".toList then 0x01
        else if (c_str k).map Char.toLower = "prog".toList then 0x02
        else if (c_str k).map Char.toLower = "off".toList then 0x04
        else 0xFF] := by
  obtain ⟨dat, hd, -, hq, -⟩ := iohcCozyDevice2W.caseSetMode_done D ["setmode", k] s s' h
  have hk : dat = k := by
    have : tokenAt ["setmode", k] 1 = .ok k := rfl
    rw [this] at hd
    cases hd
    rfl
  subst hk
  rw [← iohcCozyDevice2W.setModePayload_eq]
  intro f hf
  rw [hq] at hf
  rcases mem_modifyAt _ _ _ _ hf with hf | ⟨x, hx, rfl⟩
  · obtain ⟨a, _, rfl⟩ := List.mem_map.1 hf
    exact forgedWith_modeFrame D _ _ a
  · obtain ⟨a, _, rfl⟩ := List.mem_map.1 hx
    exact forgedWith_modeFrame D _ s.gateway a

theorem caseSetMode_completes (D : Decls) (data : Tokens) (s : iohcCozyDevice2W) (dat : String)
    (hd : tokenAt data 1 = .ok dat) (hlen : 2 ≤ s.addresses.length) :
    ∃ s', iohcCozyDevice2W.caseSetMode D data s = .done s' := by
  unfold iohcCozyDevice2W.caseSetMode
  simp only [hd]
  obtain ⟨s1, h1, h2, -, -, -⟩ := iohcCozyDevice2W.setModeLoop_done D
    (iohcCozyDevice2W.setModePayload dat) (iohcCozyDevice2W.clear s).addresses 0
    (iohcCozyDevice2W.clear s) rfl
  simp only [h1]
  have : 1 < s1.packets2send.length := by
    rw [h2]
    simp only [iohcCozyDevice2W.packets2send_clear, List.nil_append, List.length_map,
      iohcCozyDevice2W.addresses_clear]
    omega
  rw [if_pos this]
  exact ⟨_, rfl⟩

/-- Witness of C6: the keyword "Auto" on the sample controller, whose address table has
two entries. -/
theorem cmd_setMode_payload_witness :
    ∃ s', iohcCozyDevice2W.cmd (sampleDecls 5) .setMode ["setmode", "Auto"] sampleController
        = .done s'
      ∧ ∀ f ∈ s'.packets2send, f.ForgedWith (sampleDecls 5) [0x0C, 0x61, 0x01, 0x00, 0x00] := by
  obtain ⟨s', hs⟩ := caseSetMode_completes (sampleDecls 5) ["setmode", "Auto"] sampleController
    "Auto" rfl (by decide)
  refine ⟨s', hs, ?_⟩
  have h := cmd_setMode_payload (sampleDecls 5) sampleController s' "Auto" hs
  have hb : (if (c_str "Auto").map Char.toLower = "auto".toList then 0x00
      else if (c_str "Auto").map Char.toLower = "manual".toList then 0x01
      else if (c_str "Auto").map Char.toLower = "prog".toList then 0x02
      else if (c_str "Auto").map Char.toLower = "off".toList then 0x04
      else 0xFF) = 0x00 := by decide
  rw [hb] at h
  exact h

/-- C7 (the code at the failing inputs): with one entry in the address table, and with
none, `cmd(setMode, ["setmode", "manual"])` does not complete: after the loop it
indexes `packets2send[1]`, which does not exist. -/
theorem cmd_setMode_fewer_than_two_undefined :
    iohcCozyDevice2W.cmd (sampleDecls 5) .setMode ["setmode", "manual"]
        { sampleController with addresses := [⟨0x48, 0x79, 0x02⟩] } = .undefined
    ∧ iohcCozyDevice2W.cmd (sampleDecls 5) .setMode ["setmode", "manual"]
        { sampleController with addresses := [] } = .undefined :=
  ⟨iohcCozyDevice2W.caseSetMode_undefined (sampleDecls 5) ["setmode", "manual"]
      { sampleController with addresses := [⟨0x48, 0x79, 0x02⟩] } "manual" rfl (by decide),
    iohcCozyDevice2W.caseSetMode_undefined (sampleDecls 5) ["setmode", "manual"]
      { sampleController with addresses := [] } "manual" rfl (by decide)⟩

/-! ## The probing pass (`checkCmd`) -/

theorem cmd_probeFrame (D : Decls) (gateway : address) (code : Nat) :
    (probeFrame D gateway code).cmd = code % 256 := rfl

theorem caseCheckCmd_done (D : Decls) (s : iohcCozyDevice2W) :
    ∃ s', iohcCozyDevice2W.caseCheckCmd D s = .done s'
      ∧ s'.packets2send = (s.mapValid.filter probed).map (fun c => probeFrame D s.gateway c.1)
      ∧ s'.sent = s.sent ++ [s'.packets2send] := by
  refine ⟨_, iohcCozyDevice2W.caseCheckCmd_eq D s, ?_, ?_⟩
  · rw [iohcCozyDevice2W.packets2send_send, iohcCozyDevice2W.packets2send_checkCmdLoop]
    rfl
  · rw [iohcCozyDevice2W.sent_send, iohcCozyDevice2W.checkCmdLoop_sent]
    rfl

theorem probe_codes (D : Decls) (gateway : address) (m : List (Nat × Nat))
    (hbyte : ∀ e ∈ m, e.1 < 256) :
    ((m.filter probed).map (fun c => probeFrame D gateway c.1)).map (fun f => f.cmd)
      = (m.filter probed).map Prod.fst := by
  rw [List.map_map]
  apply List.map_congr_left
  intro e he
  have := hbyte e (List.mem_of_mem_filter he)
  simp only [Function.comp, cmd_probeFrame]
  exact Nat.mod_eq_of_lt this

theorem isMap_filter (m : List (Nat × Nat)) (h : IsMap m) (p : Nat × Nat → Bool) :
    IsMap (m.filter p) := by
  unfold IsMap at *
  exact h.sublist ((List.filter_sublist m).map Prod.fst)

theorem isMap_unique (m : List (Nat × Nat)) (h : IsMap m) (e e' : Nat × Nat) (he : e ∈ m)
    (he' : e' ∈ m) (hk : e.1 = e'.1) : e = e' := by
  unfold IsMap at h
  induction m with
  | nil => simp at he
  | cons x m ih =>
    rw [List.map_cons, List.pairwise_cons] at h
    rcases List.mem_cons.1 he with h1 | h1
    · rcases List.mem_cons.1 he' with h2 | h2
      · rw [h1, h2]
      · have := h.1 e'.1 (List.mem_map_of_mem Prod.fst h2)
        rw [h1] at hk
        omega
    · rcases List.mem_cons.1 he' with h2 | h2
      · have := h.1 e.1 (List.mem_map_of_mem Prod.fst h1)
        rw [h2] at hk
        omega
      · exact ih h.2 h1 h2

/-- C8: for every validity table (a map from 8-bit codes to statuses), `probeAll` (`cmd`
with `checkCmd`) completes with a burst that holds exactly one probe frame, carrying
the entry's code as command code, for each entry whose status is 0 or whose status is
5 with code other than 0x19, and no frame for an entry with any other nonzero status;
the frames come by ascending code. -/
theorem cmd_checkCmd_burst (D : Decls) (data : Tokens) (s : iohcCozyDevice2W)
    (hmap : IsMap s.mapValid) (hbyte : ∀ e ∈ s.mapValid, e.1 < 256) :
    ∃ s', iohcCozyDevice2W.cmd D .checkCmd data s = .done s'
      ∧ s'.packets2send
          = (s.mapValid.filter (fun e => decide (e.2 = 0 ∨ (e.2 = 5 ∧ e.1 ≠ 0x19)))).map
              (fun e => probeFrame D s.gateway e.1)
      ∧ s'.packets2send.map (fun f => f.cmd)
          = (s.mapValid.filter (fun e => decide (e.2 = 0 ∨ (e.2 = 5 ∧ e.1 ≠ 0x19)))).map
              Prod.fst
      ∧ (s'.packets2send.map (fun f => f.cmd)).Pairwise (fun a b => a < b)
      ∧ (∀ e ∈ s.mapValid, (e.2 = 0 ∨ (e.2 = 5 ∧ e.1 ≠ 0x19)) →
          (s'.packets2send.map (fun f => f.cmd)).count e.1 = 1)
      ∧ (∀ e ∈ s.mapValid, e.2 ≠ 0 → e.2 ≠ 5 → ∀ f ∈ s'.packets2send, f.cmd ≠ e.1) := by
  obtain ⟨s', h1, h2, -⟩ := caseCheckCmd_done D s
  have hcodes : s'.packets2send.map (fun f => f.cmd) = (s.mapValid.filter probed).map Prod.fst := by
    rw [h2]
    exact probe_codes D s.gateway s.mapValid hbyte
  have hsorted : ((s.mapValid.filter probed).map Prod.fst).Pairwise (fun a b => a < b) :=
    isMap_filter s.mapValid hmap probed
  refine ⟨s', h1, h2, hcodes, ?_, ?_, ?_⟩
  · rw [hcodes]
    exact hsorted
  · intro e he hp
    rw [hcodes]
    have hnodup : ((s.mapValid.filter probed).map Prod.fst).Nodup :=
      hsorted.imp (fun h => Nat.ne_of_lt h)
    apply List.count_eq_one_of_mem hnodup
    apply List.mem_map_of_mem
    rw [List.mem_filter]
    exact ⟨he, by simpa [probed] using hp⟩
  · intro e he h0 h5 f hf hfe
    have hmem : f.cmd ∈ s'.packets2send.map (fun f => f.cmd) := List.mem_map_of_mem _ hf
    rw [hcodes] at hmem
    obtain ⟨e', he', hk⟩ := List.mem_map.1 hmem
    rw [List.mem_filter] at he'
    have heq : e' = e := isMap_unique s.mapValid hmap e' e he'.1 he (hk.trans hfe)
    subst heq
    have := he'.2
    simp only [probed, decide_eq_true_eq] at this
    rcases this with h | ⟨h, -⟩
    · exact h0 h
    · exact h5 h

theorem isMap_probingController : IsMap probingController.mapValid := by
  unfold IsMap
  decide

/-- Witness of C8: the sample table of five entries; codes 0x00, 0x03 and 0x2A are
probed, in this order. -/
theorem cmd_checkCmd_burst_witness :
    IsMap probingController.mapValid
    ∧ (∀ e ∈ probingController.mapValid, e.1 < 256)
    ∧ ∃ s', iohcCozyDevice2W.cmd (sampleDecls 5) .checkCmd [] probingController = .done s'
      ∧ s'.packets2send.map (fun f => f.cmd) = [0x00, 0x03, 0x2A] := by
  refine ⟨isMap_probingController, by decide, ?_⟩
  obtain ⟨s', h1, -, h3, -⟩ := cmd_checkCmd_burst (sampleDecls 5) [] probingController
    isMap_probingController (by decide)
  exact ⟨s', h1, h3.trans (by decide)⟩

/-- C9 (as amended): in `probeAll`, an entry with code 0x19 and status 5 is not probed:
the burst contains no probe frame with command code 0x19. Code 0x19 is probed while
its status is 0. -/
theorem cmd_checkCmd_code_0x19 (D : Decls) (data : Tokens) (s : iohcCozyDevice2W)
    (hmap : IsMap s.mapValid) (hbyte : ∀ e ∈ s.mapValid, e.1 < 256) :
    ∃ s', iohcCozyDevice2W.cmd D .checkCmd data s = .done s'
      ∧ ((0x19, 5) ∈ s.mapValid → ∀ f ∈ s'.packets2send, f.cmd ≠ 0x19)
      ∧ ((0x19, 0) ∈ s.mapValid → ∃ f ∈ s'.packets2send, f.cmd = 0x19) := by
  obtain ⟨s', h1, h2, -⟩ := caseCheckCmd_done D s
  have hcodes : s'.packets2send.map (fun f => f.cmd) = (s.mapValid.filter probed).map Prod.fst := by
    rw [h2]
    exact probe_codes D s.gateway s.mapValid hbyte
  refine ⟨s', h1, ?_, ?_⟩
  · intro h5 f hf hfc
    have hmem : f.cmd ∈ s'.packets2send.map (fun f => f.cmd) := List.mem_map_of_mem _ hf
    rw [hcodes] at hmem
    obtain ⟨e', he', hk⟩ := List.mem_map.1 hmem
    rw [List.mem_filter] at he'
    have heq : e' = (0x19, 5) :=
      isMap_unique s.mapValid hmap e' (0x19, 5) he'.1 h5 (hk.trans hfc)
    subst heq
    exact absurd he'.2 (by decide)
  · intro h0
    have hmem : (0x19 : Nat) ∈ s'.packets2send.map (fun f => f.cmd) := by
      rw [hcodes]
      exact List.mem_map.2 ⟨(0x19, 0), List.mem_filter.2 ⟨h0, by decide⟩, rfl⟩
    obtain ⟨f, hf, hfc⟩ := List.mem_map.1 hmem
    exact ⟨f, hf, hfc⟩

/-- Witness of C9 (as amended): the sample table holds code 0x19 with status 5. -/
theorem cmd_checkCmd_code_0x19_witness :
    (0x19, 5) ∈ probingController.mapValid
    ∧ ∃ s', iohcCozyDevice2W.cmd (sampleDecls 5) .checkCmd [] probingController = .done s'
      ∧ ∀ f ∈ s'.packets2send, f.cmd ≠ 0x19 := by
  refine ⟨by decide, ?_⟩
  obtain ⟨s', h1, h2, -⟩ := cmd_checkCmd_code_0x19 (sampleDecls 5) [] probingController
    isMap_probingController (by decide)
  exact ⟨s', h1, h2 (by decide)⟩

/-- C9 (counterexample): a validity table whose only entry is code 0x19 with status
5; `probeAll` completes with an empty burst, so no probe frame carries the command
code 0x19. -/
theorem cmd_checkCmd_skips_0x19_at_status_5 :
    iohcCozyDevice2W.cmd (sampleDecls 5) .checkCmd []
        { sampleController with mapValid := [(0x19, 5)] }
      = .done { sampleController with mapValid := [(0x19, 5)], sent := [[]] }
    ∧ ¬ ∃ f ∈ ({ sampleController with mapValid := [(0x19, 5)], sent := [[]] } :
          iohcCozyDevice2W).packets2send, f.cmd = 0x19 := by
  constructor
  · rfl
  · simp [sampleController]

/-- C10: every probe frame built by `probeAll` has the gateway address as source, the
fixed probe target `08 42 E3`, low-power-mode flag 1, priority flag 1, start-of-frame
1, end-of-frame 0 and a pre-send delay of 245 ms; the pass hands all its probe frames
to the radio in one `send`, as a single burst. -/
theorem cmd_checkCmd_frames (D : Decls) (data : Tokens) (s : iohcCozyDevice2W) :
    ∃ s', iohcCozyDevice2W.cmd D .checkCmd data s = .done s'
      ∧ s'.sent = s.sent ++ [s'.packets2send]
      ∧ s'.packets2send.length
          = (s.mapValid.filter (fun e => decide (e.2 = 0 ∨ (e.2 = 5 ∧ e.1 ≠ 0x19)))).length
      ∧ ∀ f ∈ s'.packets2send,
          f.source = s.gateway ∧ f.target = ⟨0x08, 0x42, 0xE3⟩
          ∧ f.LPM D = 1 ∧ f.Prio D = 1 ∧ f.StartFrame D = 1 ∧ f.EndFrame D = 0
          ∧ f.delayed = 245 := by
  obtain ⟨s', h1, h2, h3⟩ := caseCheckCmd_done D s
  refine ⟨s', h1, h3, ?_, ?_⟩
  · rw [h2, List.length_map]
    rfl
  · intro f hf
    rw [h2] at hf
    obtain ⟨e, -, rfl⟩ := List.mem_map.1 hf
    refine ⟨rfl, rfl, ?_, ?_, ?_, ?_, rfl⟩
    · show getBit (setBit (setBit _ D.lpmBit.val 1) D.prioBit.val 1) D.lpmBit.val = 1
      by_cases hb : D.prioBit.val = D.lpmBit.val
      · rw [hb, getBit_setBit_self]
      · rw [getBit_setBit_of_ne _ _ _ _ hb, getBit_setBit_self]
    · show getBit (setBit (setBit _ D.lpmBit.val 1) D.prioBit.val 1) D.prioBit.val = 1
      rw [getBit_setBit_self]
    · show getBit (setBit (setBit _ D.startBit 1) D.endBit 0) D.startBit = 1
      rw [getBit_setBit_of_ne _ _ _ _ (by unfold Decls.endBit Decls.startBit; omega),
        getBit_setBit_self]
    · show getBit (setBit (setBit _ D.startBit 1) D.endBit 0) D.endBit = 0
      rw [getBit_setBit_self]

/-! ## The validity table and `isFake` -/

theorem mapValid_foldl_mapSet (keys : List Nat) (s : iohcCozyDevice2W) :
    (keys.foldl (fun s key =>
        { s with mapValid := iohcCozyDevice2W.mapSet key 0 s.mapValid }) s).mapValid
      = keys.foldl (fun m key => iohcCozyDevice2W.mapSet key 0 m) s.mapValid := by
  induction keys generalizing s with
  | nil => rfl
  | cons k keys ih => rw [List.foldl_cons, ih, List.foldl_cons]

theorem mapValid_initializeValid (s : iohcCozyDevice2W) :
    (iohcCozyDevice2W.initializeValid s).mapValid
      = iohcCozyDevice2W.valid.foldl (fun m key => iohcCozyDevice2W.mapSet key 0 m)
          s.mapValid := by
  unfold iohcCozyDevice2W.initializeValid
  exact mapValid_foldl_mapSet _ s

/-- C11: after `initializeValid` on a fresh controller (empty validity table), the table
holds exactly the 57 distinct enumerated candidate codes, fewer than the 256 byte
values, each once and by ascending code, and every entry has status 0. -/
theorem initializeValid_table (s : iohcCozyDevice2W) (h : s.mapValid = []) :
    (iohcCozyDevice2W.initializeValid s).mapValid.length = 57
    ∧ iohcCozyDevice2W.valid.length = 57 ∧ iohcCozyDevice2W.valid.Nodup
    ∧ ((iohcCozyDevice2W.initializeValid s).mapValid.map Prod.fst).Perm iohcCozyDevice2W.valid
    ∧ IsMap (iohcCozyDevice2W.initializeValid s).mapValid
    ∧ (∀ e ∈ (iohcCozyDevice2W.initializeValid s).mapValid, e.1 < 256 ∧ e.2 = 0)
    ∧ (iohcCozyDevice2W.initializeValid s).mapValid.length < 256 := by
  rw [mapValid_initializeValid, h]
  unfold IsMap
  decide

/-- Witness of C11: the sample controller, whose validity table is empty. -/
theorem initializeValid_table_witness :
    sampleController.mapValid = []
    ∧ (iohcCozyDevice2W.initializeValid sampleController).mapValid.length = 57
    ∧ ∀ e ∈ (iohcCozyDevice2W.initializeValid sampleController).mapValid, e.1 < 256 ∧ e.2 = 0 :=
  have h := initializeValid_table sampleController rfl
  ⟨rfl, h.1, h.2.2.2.2.2.1⟩

/-- C14: for all addresses `src` and `dst`, `isFake(src, dst)` returns true if and only
if the three bytes of the gateway address equal the three bytes of `src` or the three
bytes of `dst`, and the stored `Fake` flag equals the returned value. -/
theorem isFake_iff (nodeSrc nodeDst : address) (s : iohcCozyDevice2W) :
    ((iohcCozyDevice2W.isFake nodeSrc nodeDst s).1 = true ↔
      ((s.gateway.b0 = nodeSrc.b0 ∧ s.gateway.b1 = nodeSrc.b1 ∧ s.gateway.b2 = nodeSrc.b2)
        ∨ (s.gateway.b0 = nodeDst.b0 ∧ s.gateway.b1 = nodeDst.b1 ∧ s.gateway.b2 = nodeDst.b2)))
    ∧ (iohcCozyDevice2W.isFake nodeSrc nodeDst s).2.Fake
        = (iohcCozyDevice2W.isFake nodeSrc nodeDst s).1 := by
  have hsrc : s.gateway = nodeSrc ↔
      (s.gateway.b0 = nodeSrc.b0 ∧ s.gateway.b1 = nodeSrc.b1 ∧ s.gateway.b2 = nodeSrc.b2) := by
    cases s.gateway; cases nodeSrc; simp
  have hdst : s.gateway = nodeDst ↔
      (s.gateway.b0 = nodeDst.b0 ∧ s.gateway.b1 = nodeDst.b1 ∧ s.gateway.b2 = nodeDst.b2) := by
    cases s.gateway; cases nodeDst; simp
  rw [← hsrc, ← hdst]
  unfold iohcCozyDevice2W.isFake
  by_cases hg : s.gateway = nodeSrc ∨ s.gateway = nodeDst
  · simp [hg]
  · simp [hg]

/-! ## `scanDump` -/

theorem renderEntry_ne_newline (e : Nat × Nat) : renderEntry e ≠ "\n" := by
  intro h
  have hl := congrArg String.length h
  unfold renderEntry at hl
  split at hl
  · simp only [String.length_append] at hl
    have : "=AUTH ".length = 6 := by decide
    have : "\n".length = 1 := by decide
    omega
  · split at hl
    · simp only [String.length_append] at hl
      have : "=NRDY ".length = 6 := by decide
      have : "\n".length = 1 := by decide
      omega
    · simp only [String.length_append] at hl
      have : "=".length = 1 := by decide
      have : "\t".length = 1 := by decide
      have : "\n".length = 1 := by decide
      omega

theorem scanDumpLoop_cells (m : List (Nat × Nat)) (count : Nat) :
    (iohcCozyDevice2W.scanDumpLoop m count).1.filter (fun t => decide (t ≠ "\n"))
      = (m.filter (fun e => decide (e.2 ≠ 0x08))).map renderEntry := by
  induction m generalizing count with
  | nil => rfl
  | cons it rest ih =>
    unfold iohcCozyDevice2W.scanDumpLoop
    by_cases h8 : it.2 ≠ 0x08
    · have hcell : (if it.2 = 0x3C then [iohcCozyDevice2W.hex2 it.1 ++ "=AUTH "]
          else if it.2 = 0x80 then [iohcCozyDevice2W.hex2 it.1 ++ "=NRDY "]
          else [iohcCozyDevice2W.hex2 it.1 ++ "=" ++ iohcCozyDevice2W.hex2 it.2 ++ "\t"])
          = [renderEntry it] := by
        unfold renderEntry
        split
        · rfl
        · split <;> rfl
      rw [if_pos h8, hcell]
      simp only []
      rw [List.filter_cons_of_pos (by simpa using h8), List.map_cons, List.filter_append, ih]
      have hne := renderEntry_ne_newline it
      split <;> simp [hne]
    · rw [if_neg h8]
      rw [List.filter_cons_of_neg (by simpa using h8)]
      exact ih count

theorem hex2_byte (n : Nat) (h : n < 256) :
    iohcCozyDevice2W.hex2 n = String.mk [Nat.digitChar (n / 16), Nat.digitChar (n % 16)] := by
  interval_cases n <;> rfl

/-- C12: for every validity table, `scanDump` renders exactly the entries whose status
is not 0x08, once each and by ascending code (its output without the line breaks,
between the header line and the trailing count line, is the list of the renderings of
these entries in table order). An entry with status 0x3C is rendered with the label
"AUTH", one with status 0x80 with "NRDY", every other entry with its status as
two-digit hex, each behind the code as two-digit hex. -/
theorem scanDump_renders (s : iohcCozyDevice2W) (hmap : IsMap s.mapValid) :
    (∃ body trailer,
      iohcCozyDevice2W.scanDump s
        = "*********************** Scan result ***********************\n" :: body ++ [trailer]
      ∧ body.filter (fun t => decide (t ≠ "\n"))
        = (s.mapValid.filter (fun e => decide (e.2 ≠ 0x08))).map renderEntry)
    ∧ ((s.mapValid.filter (fun e => decide (e.2 ≠ 0x08))).map Prod.fst).Pairwise
        (fun a b => a < b)
    ∧ (∀ code status, code < 256 → status < 256 →
        renderEntry (code, status)
          = if status = 0x3C then
              String.mk [Nat.digitChar (code / 16), Nat.digitChar (code % 16)] ++ "=AUTH "
            else if status = 0x80 then
              String.mk [Nat.digitChar (code / 16), Nat.digitChar (code % 16)] ++ "=NRDY "
            else
              String.mk [Nat.digitChar (code / 16), Nat.digitChar (code % 16)] ++ "="
                ++ String.mk [Nat.digitChar (status / 16), Nat.digitChar (status % 16)]
                ++ "\t") := by
  refine ⟨⟨(iohcCozyDevice2W.scanDumpLoop s.mapValid 0).1
      ++ (if (iohcCozyDevice2W.scanDumpLoop s.mapValid 0).2 % 16 ≠ 0 then ["\n"] else []),
      toString (iohcCozyDevice2W.scanDumpLoop s.mapValid 0).2 ++ " toCheck \n", ?_, ?_⟩,
    isMap_filter s.mapValid hmap _, ?_⟩
  · unfold iohcCozyDevice2W.scanDump
    simp only [List.singleton_append, List.cons_append, List.append_assoc, List.nil_append]
  · rw [List.filter_append, scanDumpLoop_cells]
    split <;> simp
  · intro code status hc hs
    unfold renderEntry
    simp only [hex2_byte code hc, hex2_byte status hs]

/-- Witness of C12: the sample table of five entries, none of them with status 0x08. -/
theorem scanDump_renders_witness :
    IsMap probingController.mapValid
    ∧ ∃ body trailer,
      iohcCozyDevice2W.scanDump probingController
        = "*********************** Scan result ***********************\n" :: body ++ [trailer]
      ∧ body.filter (fun t => decide (t ≠ "\n"))
        = ["00=00\t", "03=05\t", "19=05\t", "20=AUTH ", "2a=00\t"] := by
  refine ⟨isMap_probingController, ?_⟩
  obtain ⟨body, trailer, h1, h2⟩ := (scanDump_renders probingController
    isMap_probingController).1
  exact ⟨body, trailer, h1, h2.trans (by decide)⟩

/-- The bound of 256 rendered entries on the lines and the count line of `scanDump` is
needed: for the validity table with all 256 codes at status 0, `scanDump` renders 256
entries, its 8-bit counter has wrapped and the count line reports 0. -/
theorem scanDump_count_wraps :
    (fullTable.filter (fun e => decide (e.2 ≠ 0x08))).length = 256
    ∧ (iohcCozyDevice2W.scanDump { sampleController with mapValid := fullTable }).getLast?
        = some "0 toCheck \n" := by
  set_option maxRecDepth 100000 in decide

/-! ## The discovery bursts -/

namespace iohcCozyDevice2W

theorem discover28Step_spec (D : Decls) (s : iohcCozyDevice2W) :
    (discover28Step D [] s s.packets2send.length).packets2send
        = s.packets2send ++ [discover28Frame D s.gateway]
    ∧ (discover28Step D [] s s.packets2send.length).gateway = s.gateway
    ∧ (discover28Step D [] s s.packets2send.length).sent = s.sent := by
  refine ⟨packets2send_discover28Step D [] s, ?_, ?_⟩
  · unfold discover28Step
    simp only [gateway_onBack, gateway_onIndex, gateway_memoCmd, gateway_memoData,
      gateway_pushNew]
  · unfold discover28Step
    simp only [sent_onBack, sent_onIndex, sent_memoCmd, sent_memoData, sent_pushNew]

theorem discover28_foldl_spec (D : Decls) (n : Nat) :
    ∀ (k : Nat) (s : iohcCozyDevice2W), s.packets2send.length = k →
      ((List.range' k n).foldl (discover28Step D []) s).packets2send
          = s.packets2send ++ List.replicate n (discover28Frame D s.gateway)
      ∧ ((List.range' k n).foldl (discover28Step D []) s).sent = s.sent := by
  induction n with
  | zero => intro k s _; simp
  | succ n ih =>
    intro k s hk
    rw [List.range'_succ, List.foldl_cons]
    subst hk
    obtain ⟨h1, h2, h3⟩ := discover28Step_spec D s
    obtain ⟨i1, i2⟩ := ih (s.packets2send.length + 1)
      (discover28Step D [] s s.packets2send.length) (by rw [h1]; simp)
    rw [i1, i2, h1, h2, h3]
    simp [List.replicate_succ]

theorem packets2send_discover2AStep (D : Decls) (toSend : List Nat) (s : iohcCozyDevice2W)
    (i : Nat) :
    (discover2AStep D toSend s i).packets2send
      = s.packets2send ++ [iohcPacket.setDelayed 250
        (iohcPacket.setTarget (if i < 10 then ⟨0x00, 0x0d, 0x3b⟩ else ⟨0x00, 0xFF, 0xFB⟩)
          (iohcPacket.setSource s.gateway (iohcPacket.setPrio D 1 (iohcPacket.setLPM D 1
            (iohcPacket.setEndFrame D 1 (iohcPacket.setStartFrame D 1
              (iohcPacket.setCmd SEND_DISCOVER_REMOTE_0x2A
                (forgePacket D D.fresh toSend))))))))] := by
  unfold discover2AStep
  split <;>
  · simp only [packets2send_onBack, packets2send_memoCmd, packets2send_memoData,
      packets2send_pushNew, modifyBack_append_singleton, gateway_onBack, gateway_memoCmd,
      gateway_memoData, gateway_pushNew]

theorem gateway_discover2AStep (D : Decls) (toSend : List Nat) (s : iohcCozyDevice2W)
    (i : Nat) : (discover2AStep D toSend s i).gateway = s.gateway := by
  unfold discover2AStep
  split <;>
  · simp only [gateway_onBack, gateway_memoCmd, gateway_memoData, gateway_pushNew]

theorem sent_discover2AStep (D : Decls) (toSend : List Nat) (s : iohcCozyDevice2W)
    (i : Nat) : (discover2AStep D toSend s i).sent = s.sent := by
  unfold discover2AStep
  split <;>
  · simp only [sent_onBack, sent_memoCmd, sent_memoData, sent_pushNew]

theorem discover2AStep_spec (D : Decls) (s : iohcCozyDevice2W) (i : Nat) :
    (discover2AStep D [0x01, 0x02, 0x03, 0x04, 0x05, 0x06, 0x07, 0x08, 0x09, 0x10, 0x11, 0x12]
        s i).packets2send = s.packets2send ++ [discover2AFrame D s.gateway i]
    ∧ (discover2AStep D [0x01, 0x02, 0x03, 0x04, 0x05, 0x06, 0x07, 0x08, 0x09, 0x10, 0x11, 0x12]
        s i).gateway = s.gateway
    ∧ (discover2AStep D [0x01, 0x02, 0x03, 0x04, 0x05, 0x06, 0x07, 0x08, 0x09, 0x10, 0x11, 0x12]
        s i).sent = s.sent :=
  ⟨packets2send_discover2AStep D _ s i, gateway_discover2AStep D _ s i,
    sent_discover2AStep D _ s i⟩

theorem discover2A_foldl_spec (D : Decls) (l : List Nat) :
    ∀ (s : iohcCozyDevice2W),
      (l.foldl (discover2AStep D
          [0x01, 0x02, 0x03, 0x04, 0x05, 0x06, 0x07, 0x08, 0x09, 0x10, 0x11, 0x12]) s).packets2send
          = s.packets2send ++ l.map (discover2AFrame D s.gateway)
      ∧ (l.foldl (discover2AStep D
          [0x01, 0x02, 0x03, 0x04, 0x05, 0x06, 0x07, 0x08, 0x09, 0x10, 0x11, 0x12]) s).sent
          = s.sent := by
  induction l with
  | nil => intro s; simp
  | cons i l ih =>
    intro s
    rw [List.foldl_cons]
    obtain ⟨h1, h2, h3⟩ := discover2AStep_spec D s i
    obtain ⟨i1, i2⟩ := ih (discover2AStep D
      [0x01, 0x02, 0x03, 0x04, 0x05, 0x06, 0x07, 0x08, 0x09, 0x10, 0x11, 0x12] s i)
    rw [i1, i2, h1, h2, h3]
    simp

end iohcCozyDevice2W

theorem flags_setStart_setEnd (D : Decls) (c vs ve : Nat) :
    getBit (setBit (setBit c D.startBit vs) D.endBit ve) D.startBit = vs % 2
    ∧ getBit (setBit (setBit c D.startBit vs) D.endBit ve) D.endBit = ve % 2 := by
  constructor
  · rw [getBit_setBit_of_ne _ _ _ _ (by unfold Decls.endBit Decls.startBit; omega),
      getBit_setBit_self]
  · rw [getBit_setBit_self]

/-- C15: `cmd(discover28, [])` completes with exactly 10 frames, handed to the radio as
one burst, each with an empty payload, command code 0x28, the gateway as source, the
fixed broadcast address `00 FF FB` as target, a pre-send delay of 250 ms and
start-of-frame = end-of-frame = 1. -/
theorem cmd_discover28_burst (D : Decls) (data : Tokens) (s : iohcCozyDevice2W) :
    ∃ s', iohcCozyDevice2W.cmd D .discover28 data s = .done s'
      ∧ s'.packets2send.length = 10
      ∧ s'.sent = s.sent ++ [s'.packets2send]
      ∧ ∀ f ∈ s'.packets2send,
          f.ForgedWith D [] ∧ f.buffer_length = 9 ∧ f.cmd = 0x28
          ∧ f.source = s.gateway ∧ f.target = ⟨0x00, 0xFF, 0xFB⟩ ∧ f.delayed = 250
          ∧ f.StartFrame D = 1 ∧ f.EndFrame D = 1 := by
  obtain ⟨h1, h2⟩ := iohcCozyDevice2W.discover28_foldl_spec D 10 0
    (iohcCozyDevice2W.clear s) rfl
  rw [← List.range_eq_range'] at h1 h2
  refine ⟨_, iohcCozyDevice2W.caseDiscover28_eq D s, ?_, ?_, ?_⟩
  · rw [iohcCozyDevice2W.packets2send_send, h1]
    simp
  · rw [iohcCozyDevice2W.sent_send, iohcCozyDevice2W.packets2send_send, h2]
    rfl
  · intro f hf
    rw [iohcCozyDevice2W.packets2send_send, h1] at hf
    simp only [iohcCozyDevice2W.packets2send_clear, List.nil_append] at hf
    have hf' := List.eq_of_mem_replicate hf
    subst hf'
    have hfl := flags_setStart_setEnd D
      (iohcPacket.setCmd SEND_DISCOVER_0x28 (forgePacket D D.fresh [])).CtrlByte1 1 1
    exact ⟨forgedWith_forgePacket D [], rfl, rfl, rfl, rfl, rfl, hfl.1, hfl.2⟩

/-- C16: `cmd(discover2A)` completes with exactly 20 frames, handed to the radio as one
burst, each carrying the fixed 12-byte template `01 02 03 04 05 06 07 08 09 10 11 12`
with a pre-send delay of 250 ms; frames 0..9 are all targeted at the broadcast address
`00 0D 3B` and frames 10..19 are all targeted at the different broadcast address
`00 FF FB`. -/
theorem cmd_discover2A_burst (D : Decls) (data : Tokens) (s : iohcCozyDevice2W) :
    ∃ s', iohcCozyDevice2W.cmd D .discover2A data s = .done s'
      ∧ s'.packets2send.length = 20
      ∧ s'.sent = s.sent ++ [s'.packets2send]
      ∧ (∀ f ∈ s'.packets2send,
          f.ForgedWith D [0x01, 0x02, 0x03, 0x04, 0x05, 0x06, 0x07, 0x08, 0x09, 0x10, 0x11, 0x12]
          ∧ f.buffer_length = 9 + 12 ∧ f.cmd = 0x2A ∧ f.source = s.gateway ∧ f.delayed = 250)
      ∧ (∀ i, i < 10 →
          (s'.packets2send[i]?).map (fun f => f.target) = some ⟨0x00, 0x0d, 0x3b⟩)
      ∧ (∀ i, 10 ≤ i → i < 20 →
          (s'.packets2send[i]?).map (fun f => f.target) = some ⟨0x00, 0xFF, 0xFB⟩)
      ∧ (⟨0x00, 0x0d, 0x3b⟩ : address) ≠ ⟨0x00, 0xFF, 0xFB⟩ := by
  obtain ⟨h1, h2⟩ := iohcCozyDevice2W.discover2A_foldl_spec D (List.range 20)
    (iohcCozyDevice2W.clear s)
  simp only [iohcCozyDevice2W.packets2send_clear, List.nil_append,
    iohcCozyDevice2W.gateway_clear, iohcCozyDevice2W.sent_clear] at h1 h2
  have hget : ∀ i, i < 20 →
      ((List.range 20).map (discover2AFrame D s.gateway))[i]?
        = some (discover2AFrame D s.gateway i) := by
    intro i hi
    rw [List.getElem?_map, List.getElem?_range hi]
    rfl
  refine ⟨_, iohcCozyDevice2W.caseDiscover2A_eq D s, ?_, ?_, ?_, ?_, ?_, by decide⟩
  · rw [iohcCozyDevice2W.packets2send_send, h1]
    simp
  · rw [iohcCozyDevice2W.sent_send, iohcCozyDevice2W.packets2send_send, h2]
  · intro f hf
    rw [iohcCozyDevice2W.packets2send_send, h1] at hf
    obtain ⟨i, -, rfl⟩ := List.mem_map.1 hf
    exact ⟨forgedWith_forgePacket D _, rfl, rfl, rfl, rfl⟩
  · intro i hi
    rw [iohcCozyDevice2W.packets2send_send, h1, hget i (by omega)]
    simp [discover2AFrame, iohcPacket.setDelayed, iohcPacket.setTarget, hi]
  · intro i hi hi2
    rw [iohcCozyDevice2W.packets2send_send, h1, hget i hi2]
    have : ¬ i < 10 := by omega
    simp [discover2AFrame, iohcPacket.setDelayed, iohcPacket.setTarget, this]

/-! ## Flags of control byte 1 behind `forgePacket` -/

theorem testBit_add_of_low (b L w k : Nat) (h : b % 2 ^ w + L < 2 ^ w) (hk : w ≤ k) :
    (b + L).testBit k = b.testBit k := by
  have h1 : b + L = 2 ^ w * (b / 2 ^ w) + (b % 2 ^ w + L) := by
    have := Nat.div_add_mod b (2 ^ w)
    omega
  have h2 : b = 2 ^ w * (b / 2 ^ w) + b % 2 ^ w := (Nat.div_add_mod b (2 ^ w)).symm
  have hlt : b % 2 ^ w < 2 ^ w := Nat.mod_lt _ (Nat.two_pow_pos w)
  have hnk : ¬ k < w := by omega
  rw [h1, Nat.testBit_mul_pow_two_add _ h, if_neg hnk]
  conv_rhs => rw [h2, Nat.testBit_mul_pow_two_add _ hlt, if_neg hnk]

theorem getBit_add_mod_256 (c L w k : Nat) (h : c % 2 ^ w + L < 2 ^ w) (hk : w ≤ k)
    (hk8 : k < 8) : getBit ((c + L) % 256) k = getBit c k := by
  unfold getBit
  have : (256 : Nat) = 2 ^ 8 := by norm_num
  rw [this, Nat.testBit_mod_two_pow, testBit_add_of_low c L w k h hk]
  simp [hk8]

/-- Without a carry out of the length field (`8 + L < 2^w`), `forgePacket` leaves the
flags of control byte 1 as it assigned them: protocol 0, start-of-frame 1,
end-of-frame 0. -/
theorem flags_forgePacket (D : Decls) (packet : iohcPacket) (toSend : List Nat)
    (h : 8 + toSend.length < 2 ^ D.msgLenBits.val) :
    (forgePacket D packet toSend).Protocol D = 0
    ∧ (forgePacket D packet toSend).StartFrame D = 1
    ∧ (forgePacket D packet toSend).EndFrame D = 0 := by
  have hw : D.msgLenBits.val ≤ 5 := by omega
  have hlow : (setBit (setBit (setBit (setLow packet.CtrlByte1 D.msgLenBits.val
      (sizeof_header - 1)) D.protocolBit 0) D.startBit 1) D.endBit 0) % 2 ^ D.msgLenBits.val
      + toSend.length < 2 ^ D.msgLenBits.val := by
    rw [setBit_mod_two_pow _ _ _ _ (by unfold Decls.endBit; omega),
      setBit_mod_two_pow _ _ _ _ (by unfold Decls.startBit; omega),
      setBit_mod_two_pow _ _ _ _ (by unfold Decls.protocolBit; omega)]
    have := getLow_setLow packet.CtrlByte1 D.msgLenBits.val (sizeof_header - 1)
    unfold getLow at this
    rw [this]
    have h8 : (sizeof_header - 1) % 2 ^ D.msgLenBits.val = 8 :=
      Nat.mod_eq_of_lt (by unfold sizeof_header; omega)
    rw [h8]
    exact h
  refine ⟨?_, ?_, ?_⟩
  · show getBit ((_ + toSend.length) % 256) D.protocolBit = 0
    rw [getBit_add_mod_256 _ _ _ _ hlow (by unfold Decls.protocolBit; omega)
        (by unfold Decls.protocolBit; omega),
      getBit_setBit_of_ne _ _ _ _ (by unfold Decls.protocolBit Decls.endBit; omega),
      getBit_setBit_of_ne _ _ _ _ (by unfold Decls.protocolBit Decls.startBit; omega),
      getBit_setBit_self]
  · show getBit ((_ + toSend.length) % 256) D.startBit = 1
    rw [getBit_add_mod_256 _ _ _ _ hlow (by unfold Decls.startBit; omega)
        (by unfold Decls.startBit; omega),
      getBit_setBit_of_ne _ _ _ _ (by unfold Decls.startBit Decls.endBit; omega),
      getBit_setBit_self]
  · show getBit ((_ + toSend.length) % 256) D.endBit = 0
    rw [getBit_add_mod_256 _ _ _ _ hlow (by unfold Decls.endBit; omega)
        (by unfold Decls.endBit; omega),
      getBit_setBit_self]

theorem flags_firstFrame (D : Decls) (toSend : List Nat) (code : Nat)
    (h : 8 + toSend.length < 2 ^ D.msgLenBits.val) :
    (firstFrame D toSend code).StartFrame D = 1 ∧ (firstFrame D toSend code).EndFrame D = 0 := by
  constructor
  · show getBit (setBit _ D.startBit 1) D.startBit = 1
    rw [getBit_setBit_self]
  · show getBit (setBit (forgePacket D D.fresh toSend).CtrlByte1 D.startBit 1) D.endBit = 0
    rw [getBit_setBit_of_ne _ _ _ _ (by unfold Decls.startBit Decls.endBit; omega)]
    exact (flags_forgePacket D D.fresh toSend h).2.2

/-- C17: for every prior state, `cmd` with `associate`, `powerOn` or `midnight` completes
with exactly one frame, handed to the radio as one burst, with the gateway address as
source and the fixed master address as target. `associate` has an empty payload,
command code 0x31 and start-of-frame = end-of-frame = 1. `powerOn` has the payload
`0C 60 01 2C` and `midnight` the payload `0C 60 01 30`, both with command code 0x20,
start-of-frame = 1 and end-of-frame = 0 (the length field being at least 4 bits wide,
so that it holds 8 + 4). -/
theorem cmd_master_frames (D : Decls) (data : Tokens) (s : iohcCozyDevice2W)
    (hw : 4 ≤ D.msgLenBits.val) :
    (∃ s' f, iohcCozyDevice2W.cmd D .associate data s = .done s'
      ∧ s'.packets2send = [f] ∧ s'.sent = s.sent ++ [[f]]
      ∧ f.source = s.gateway ∧ f.target = s.master_to
      ∧ f.ForgedWith D [] ∧ f.cmd = 0x31 ∧ f.StartFrame D = 1 ∧ f.EndFrame D = 1)
    ∧ (∃ s' f, iohcCozyDevice2W.cmd D .powerOn data s = .done s'
      ∧ s'.packets2send = [f] ∧ s'.sent = s.sent ++ [[f]]
      ∧ f.source = s.gateway ∧ f.target = s.master_to
      ∧ f.ForgedWith D [0x0C, 0x60, 0x01, 0x2C] ∧ f.cmd = 0x20
      ∧ f.StartFrame D = 1 ∧ f.EndFrame D = 0)
    ∧ (∃ s' f, iohcCozyDevice2W.cmd D .midnight data s = .done s'
      ∧ s'.packets2send = [f] ∧ s'.sent = s.sent ++ [[f]]
      ∧ f.source = s.gateway ∧ f.target = s.master_to
      ∧ f.ForgedWith D [0x0C, 0x60, 0x01, 0x30] ∧ f.cmd = 0x20
      ∧ f.StartFrame D = 1 ∧ f.EndFrame D = 0) := by
  have h16 : 2 ^ 4 ≤ 2 ^ D.msgLenBits.val := Nat.pow_le_pow_right (by norm_num) hw
  refine ⟨⟨_, _, iohcCozyDevice2W.caseAssociate_eq D s, rfl, rfl, rfl, rfl,
      forgedWith_forgePacket D _, rfl, ?_, ?_⟩,
    ⟨_, _, iohcCozyDevice2W.casePowerOn_eq D s, rfl, rfl, rfl, rfl,
      forgedWith_forgePacket D _, rfl, ?_, ?_⟩,
    ⟨_, _, iohcCozyDevice2W.caseMidnight_eq D s, rfl, rfl, rfl, rfl,
      forgedWith_forgePacket D _, rfl, ?_, ?_⟩⟩
  · exact (flags_setStart_setEnd D _ 1 1).1
  · exact (flags_setStart_setEnd D _ 1 1).2
  · exact (flags_firstFrame D [0x0C, 0x60, 0x01, 0x2C] SEND_WRITE_PRIVATE_0x20
      (by simp only [List.length_cons, List.length_nil]; omega)).1
  · exact (flags_firstFrame D [0x0C, 0x60, 0x01, 0x2C] SEND_WRITE_PRIVATE_0x20
      (by simp only [List.length_cons, List.length_nil]; omega)).2
  · exact (flags_firstFrame D [0x0c, 0x60, 0x01, 0x30] SEND_WRITE_PRIVATE_0x20
      (by simp only [List.length_cons, List.length_nil]; omega)).1
  · exact (flags_firstFrame D [0x0c, 0x60, 0x01, 0x30] SEND_WRITE_PRIVATE_0x20
      (by simp only [List.length_cons, List.length_nil]; omega)).2

/-- Witness of C17: `powerOn` on the sample controller, with the 4-bit length field of
the spec's data model. -/
theorem cmd_master_frames_witness :
    4 ≤ (sampleDecls specMsgLenBits).msgLenBits.val
    ∧ ∃ s' f, iohcCozyDevice2W.cmd (sampleDecls specMsgLenBits) .powerOn [] sampleController
        = .done s'
      ∧ s'.packets2send = [f] ∧ f.target = sampleController.master_to
      ∧ f.StartFrame (sampleDecls specMsgLenBits) = 1
      ∧ f.EndFrame (sampleDecls specMsgLenBits) = 0 := by
  refine ⟨by decide, ?_⟩
  obtain ⟨s', f, h1, h2, -, -, h5, -, -, h8, h9⟩ :=
    (cmd_master_frames (sampleDecls specMsgLenBits) [] sampleController (by decide)).2.1
  exact ⟨s', f, h1, h2, h5, h8, h9⟩

/-! ## Keyword payloads of `setPresence` and `setWindow` -/

namespace iohcCozyDevice2W

theorem setPresencePayload_eq (k : String) :
    setPresencePayload k = [0x0C, 0x61, 0x01, 0x10,
      if (c_str k).map Char.toLower = "on".toList then 0x01
      else if (c_str k).map Char.toLower = "off".toList then 0x00
      else 0xFF] := by
  have ha : (c_str "on").map Char.toLower = "on".toList := by decide
  have hm : (c_str "off").map Char.toLower = "off".toList := by decide
  have e1 : "on".toList ≠ "off".toList := by decide
  unfold setPresencePayload
  simp only [strcasecmpEq_iff, ha, hm]
  generalize (c_str k).map Char.toLower = key
  generalize "on".toList = A at *
  generalize "off".toList = M at *
  by_cases h1 : key = A
  · subst h1
    simp [e1]
  · by_cases h2 : key = M
    · subst h2
      simp [h1]
    · simp [h1, h2]

theorem setWindowPayload_eq (k : String) :
    setWindowPayload k = [0x0C, 0x61, 0x01, 0x0E,
      if (c_str k).map Char.toLower = "open".toList then 0x01
      else if (c_str k).map Char.toLower = "close".toList then 0x00
      else 0xFF] := by
  have ha : (c_str "open").map Char.toLower = "open".toList := by decide
  have hm : (c_str "close").map Char.toLower = "close".toList := by decide
  have e1 : "open".toList ≠ "close".toList := by decide
  unfold setWindowPayload
  simp only [strcasecmpEq_iff, ha, hm]
  generalize (c_str k).map Char.toLower = key
  generalize "open".toList = A at *
  generalize "close".toList = M at *
  by_cases h1 : key = A
  · subst h1
    simp [e1]
  · by_cases h2 : key = M
    · subst h2
      simp [h1]
    · simp [h1, h2]

theorem vectorAt_error {α : Type} (v : List α) (i : Int) (e : Exn)
    (h : vectorAt v i = .error e) : e = .out_of_range := by
  unfold vectorAt at h
  split at h
  · cases h; rfl
  · split at h
    · cases h
    · cases h; rfl

theorem caseSetWindow_eq_sendToIndex (D : Decls) (data : Tokens) (s : iohcCozyDevice2W)
    (dat : String) (addr : Int) (h1 : tokenAt data 1 = .ok dat)
    (ha : indexArg D data = .ok addr) :
    caseSetWindow D data s = sendToIndex D (setWindowPayload dat) addr s := by
  unfold caseSetWindow
  simp only [h1, ha]

end iohcCozyDevice2W

/-- C18: for every keyword `k`, `cmd(setPresence, [_, k])` completes with one frame to the
fixed master address with the payload `0C 61 01 10 b`, where `b` is 0x01 for "on" and
0x00 for "off"; `cmd(setWindow, [_, k])` builds one frame with the payload
`0C 61 01 0E b`, where `b` is 0x01 for "open" and 0x00 for "close", and completes,
handing that frame to the radio, when the address table is not empty. The keywords are
compared ignoring letter case and every other keyword leaves `b` at 0xFF. -/
theorem cmd_presence_window_payload (D : Decls) (s : iohcCozyDevice2W) (tok k : String) :
    (∃ s' f, iohcCozyDevice2W.cmd D .setPresence [tok, k] s = .done s'
      ∧ s'.packets2send = [f] ∧ s'.sent = s.sent ++ [[f]]
      ∧ f.source = s.gateway ∧ f.target = s.master_to ∧ f.cmd = 0x20
      ∧ f.ForgedWith D [0x0C, 0x61, 0x01, 0x10,
          if (c_str k).map Char.toLower = "on".toList then 0x01
          else if (c_str k).map Char.toLower = "off".toList then 0x00
          else 0xFF])
    ∧ (∃ s' f, (iohcCozyDevice2W.cmd D .setWindow [tok, k] s = .done s'
          ∨ iohcCozyDevice2W.cmd D .setWindow [tok, k] s = .thrown .out_of_range s')
      ∧ s'.packets2send = [f] ∧ f.source = s.gateway ∧ f.cmd = 0x20
      ∧ f.ForgedWith D [0x0C, 0x61, 0x01, 0x0E,
          if (c_str k).map Char.toLower = "open".toList then 0x01
          else if (c_str k).map Char.toLower = "close".toList then 0x00
          else 0xFF]
      ∧ (s.addresses ≠ [] →
          iohcCozyDevice2W.cmd D .setWindow [tok, k] s = .done s'
          ∧ s'.sent = s.sent ++ [[f]] ∧ s.addresses.head? = some f.target)) := by
  constructor
  · rw [← iohcCozyDevice2W.setPresencePayload_eq]
    exact ⟨_, _, iohcCozyDevice2W.caseSetPresence_eq D [tok, k] s k rfl, rfl, rfl, rfl, rfl,
      rfl, forgedWith_forgePacket D _⟩
  · rw [← iohcCozyDevice2W.setWindowPayload_eq]
    have hcmd : iohcCozyDevice2W.cmd D .setWindow [tok, k] s
        = iohcCozyDevice2W.sendToIndex D (iohcCozyDevice2W.setWindowPayload k) 0 s :=
      iohcCozyDevice2W.caseSetWindow_eq_sendToIndex D [tok, k] s k 0 rfl rfl
    cases hv : vectorAt s.addresses 0 with
    | error e =>
      have he := iohcCozyDevice2W.vectorAt_error _ _ _ hv
      subst he
      rw [iohcCozyDevice2W.sendToIndex_thrown D _ 0 s _ hv] at hcmd
      refine ⟨_, _, Or.inr hcmd, rfl, rfl, rfl, forgedWith_forgePacket D _, ?_⟩
      intro hne
      exfalso
      cases hs : s.addresses with
      | nil => exact hne hs
      | cons a rest => simp [vectorAt, hs] at hv
    | ok a =>
      rw [iohcCozyDevice2W.sendToIndex_eq D _ 0 s a hv] at hcmd
      refine ⟨_, _, Or.inl hcmd, rfl, rfl, rfl, forgedWith_forgePacket D _, ?_⟩
      intro _
      refine ⟨hcmd, rfl, ?_⟩
      have := (iohcCozyDevice2W.vectorAt_ok _ _ _ hv).2
      simpa [List.head?_eq_getElem?] using this

/-! ## Independence of the previous queue -/

namespace iohcCozyDevice2W

theorem clear_queue (s : iohcCozyDevice2W) (q : List iohcPacket) :
    clear { s with packets2send := q } = clear s := rfl

theorem forgeOne_queue (D : Decls) (toSend : List Nat) (code : Nat) (s : iohcCozyDevice2W)
    (q : List iohcPacket) :
    forgeOne D toSend code { s with packets2send := q } = forgeOne D toSend code s := by
  unfold forgeOne
  simp only [clear_queue]

theorem sendToIndex_queue (D : Decls) (toSend : List Nat) (addr : Int) (s : iohcCozyDevice2W)
    (q : List iohcPacket) :
    sendToIndex D toSend addr { s with packets2send := q } = sendToIndex D toSend addr s := by
  unfold sendToIndex
  simp only [forgeOne_queue]

theorem caseAssociate_queue (D : Decls) (s : iohcCozyDevice2W) (q : List iohcPacket) :
    caseAssociate D { s with packets2send := q } = caseAssociate D s := by
  unfold caseAssociate
  simp only [forgeOne_queue]

theorem casePowerOn_queue (D : Decls) (s : iohcCozyDevice2W) (q : List iohcPacket) :
    casePowerOn D { s with packets2send := q } = casePowerOn D s := by
  unfold casePowerOn
  simp only [forgeOne_queue]

theorem caseMidnight_queue (D : Decls) (s : iohcCozyDevice2W) (q : List iohcPacket) :
    caseMidnight D { s with packets2send := q } = caseMidnight D s := by
  unfold caseMidnight
  simp only [forgeOne_queue]

theorem caseAck_queue (D : Decls) (s : iohcCozyDevice2W) (q : List iohcPacket) :
    caseAck D { s with packets2send := q } = caseAck D s := by
  unfold caseAck
  simp only [forgeOne_queue]

theorem caseDiscover28_queue (D : Decls) (s : iohcCozyDevice2W) (q : List iohcPacket) :
    caseDiscover28 D { s with packets2send := q } = caseDiscover28 D s := by
  rw [caseDiscover28_eq, caseDiscover28_eq, clear_queue]

theorem caseDiscover2A_queue (D : Decls) (s : iohcCozyDevice2W) (q : List iohcPacket) :
    caseDiscover2A D { s with packets2send := q } = caseDiscover2A D s := by
  rw [caseDiscover2A_eq, caseDiscover2A_eq, clear_queue]

theorem caseFake0_queue (D : Decls) (s : iohcCozyDevice2W) (q : List iohcPacket) :
    caseFake0 D { s with packets2send := q } = caseFake0 D s := by
  rw [caseFake0_eq, caseFake0_eq, clear_queue]

theorem caseCheckCmd_queue (D : Decls) (s : iohcCozyDevice2W) (q : List iohcPacket) :
    caseCheckCmd D { s with packets2send := q } = caseCheckCmd D s := by
  rw [caseCheckCmd_eq, caseCheckCmd_eq, clear_queue]

theorem customLoop_queue (D : Decls) (l : List Nat) (toSend : List Nat) (s : iohcCozyDevice2W)
    (q : List iohcPacket) (h : ∃ acei ∈ l, D.aceiValid acei = true) :
    customLoop D l toSend { s with packets2send := q } = customLoop D l toSend s := by
  induction l generalizing toSend with
  | nil => obtain ⟨a, ha, -⟩ := h; simp at ha
  | cons acei rest ih =>
    unfold customLoop
    by_cases hv : D.aceiValid acei = true
    · simp only [hv, if_true, clear_queue]
    · simp only [hv]
      obtain ⟨a, ha, hav⟩ := h
      rcases List.mem_cons.1 ha with rfl | ha
      · exact absurd hav hv
      · exact ih toSend ⟨a, ha, hav⟩

theorem caseCustom_queue (D : Decls) (s : iohcCozyDevice2W) (q : List iohcPacket)
    (h : ∃ acei, acei < 256 ∧ D.aceiValid acei = true) :
    caseCustom D { s with packets2send := q } = caseCustom D s := by
  rw [caseCustom_eq, caseCustom_eq, customLoop_queue]
  obtain ⟨a, ha, hv⟩ := h
  exact ⟨a, List.mem_range.2 ha, hv⟩

theorem caseSetTemp_queue (D : Decls) (data : Tokens) (s s' : iohcCozyDevice2W)
    (q : List iohcPacket) (h : caseSetTemp D data s = .done s') :
    caseSetTemp D data { s with packets2send := q } = .done s' := by
  rw [← h]
  unfold caseSetTemp at h ⊢
  cases h1 : tokenAt data 1 with
  | error e => simp only [h1] at h; cases h
  | ok t =>
    cases hx : D.stof t with
    | error e => simp only [h1, hx] at h; cases h
    | ok x =>
      cases ht : floatToInt (tenTimes x) with
      | none => simp only [h1, hx, ht] at h; cases h
      | some temp =>
        cases ha : indexArg D data with
        | error e => simp only [h1, hx, ht, ha] at h; cases h
        | ok addr => simp only [hx, ht, sendToIndex_queue]

theorem caseSetWindow_queue (D : Decls) (data : Tokens) (s s' : iohcCozyDevice2W)
    (q : List iohcPacket) (h : caseSetWindow D data s = .done s') :
    caseSetWindow D data { s with packets2send := q } = .done s' := by
  rw [← h]
  unfold caseSetWindow at h ⊢
  cases h1 : tokenAt data 1 with
  | error e => simp only [h1] at h; cases h
  | ok t =>
    cases ha : indexArg D data with
    | error e => simp only [h1, ha] at h; cases h
    | ok addr => simp only [sendToIndex_queue]

theorem caseSetMode_queue (D : Decls) (data : Tokens) (s s' : iohcCozyDevice2W)
    (q : List iohcPacket) (h : caseSetMode D data s = .done s') :
    caseSetMode D data { s with packets2send := q } = .done s' := by
  rw [← h]
  unfold caseSetMode at h ⊢
  cases h1 : tokenAt data 1 with
  | error e => simp only [h1] at h; cases h
  | ok t => simp only [clear_queue]

theorem caseSetPresence_queue (D : Decls) (data : Tokens) (s s' : iohcCozyDevice2W)
    (q : List iohcPacket) (h : caseSetPresence D data s = .done s') :
    caseSetPresence D data { s with packets2send := q } = .done s' := by
  rw [← h]
  unfold caseSetPresence at h ⊢
  cases h1 : tokenAt data 1 with
  | error e => simp only [h1] at h; cases h
  | ok t => simp only [forgeOne_queue]

theorem caseCustom60_queue (D : Decls) (data : Tokens) (s s' : iohcCozyDevice2W)
    (q : List iohcPacket) (h : caseCustom60 D data s = .done s') :
    caseCustom60 D data { s with packets2send := q } = .done s' := by
  rw [← h]
  unfold caseCustom60 at h ⊢
  cases h1 : tokenAt data 1 with
  | error e => simp only [h1] at h; cases h
  | ok t =>
    cases hc : D.stoi t with
    | error e => simp only [h1, hc] at h; cases h
    | ok custom => simp only [hc, forgeOne_queue]

end iohcCozyDevice2W

namespace iohcCozyDevice2W

theorem sent_foldl {α : Type} (step : iohcCozyDevice2W → α → iohcCozyDevice2W)
    (hstep : ∀ s a, (step s a).sent = s.sent) (l : List α) (s : iohcCozyDevice2W) :
    (l.foldl step s).sent = s.sent := by
  induction l generalizing s with
  | nil => rfl
  | cons a l ih => rw [List.foldl_cons, ih, hstep]

theorem sent_fake0Step (D : Decls) (toSend : List Nat) (s : iohcCozyDevice2W) (g : address) :
    (fake0Step D toSend s g).sent = s.sent := by
  unfold fake0Step
  simp only [sent_onBack, sent_memoCmd, sent_memoData, sent_pushNew]

theorem sent_customLoop (D : Decls) (l : List Nat) (toSend : List Nat) (s : iohcCozyDevice2W) :
    (customLoop D l toSend s).sent = s.sent := by
  induction l generalizing toSend s with
  | nil => rfl
  | cons acei rest ih =>
    unfold customLoop
    split
    · rw [ih]
      simp only [sent_onBack, sent_memoCmd, sent_memoData, sent_pushNew, sent_clear]
    · exact ih _ _

theorem sent_sendToIndex (D : Decls) (toSend : List Nat) (addr : Int)
    (s s' : iohcCozyDevice2W) (h : sendToIndex D toSend addr s = .done s') :
    s'.sent = s.sent ++ [s'.packets2send] := by
  obtain ⟨a, -, rfl⟩ := sendToIndex_done D toSend addr s s' h
  rfl

theorem sent_caseSetPresence (D : Decls) (data : Tokens) (s s' : iohcCozyDevice2W)
    (h : caseSetPresence D data s = .done s') : s'.sent = s.sent ++ [s'.packets2send] := by
  rcases tokenAt_cases data 1 with ⟨dat, hd⟩ | hd
  · rw [caseSetPresence_eq D data s dat hd] at h
    cases h
    rfl
  · unfold caseSetPresence at h
    rw [hd] at h
    cases h

theorem sent_caseCustom60 (D : Decls) (data : Tokens) (s s' : iohcCozyDevice2W)
    (h : caseCustom60 D data s = .done s') : s'.sent = s.sent ++ [s'.packets2send] := by
  rcases tokenAt_cases data 1 with ⟨t, hd⟩ | hd
  · cases hc : D.stoi t with
    | error e =>
      unfold caseCustom60 at h
      simp only [hd, hc] at h
      cases h
    | ok custom =>
      rw [caseCustom60_eq D data s t custom hd hc] at h
      cases h
      rfl
  · unfold caseCustom60 at h
    rw [hd] at h
    cases h

end iohcCozyDevice2W

/-- C19: for every command button with a case in `cmd` and every prior state, when `cmd`
completes, the burst handed to the radio is the queue it has just built, and the
outcome is the same whatever the previously queued burst was, in particular the same
as when the invocation starts from an empty queue: no frame of the previous burst
remains. (For `custom` the union `AceiUnion` is assumed to have a byte value that
passes the test of the loop, as any bit-field layout has.) -/
theorem cmd_replaces_burst (D : Decls) (button : DeviceButton) (data : Tokens)
    (s s' : iohcCozyDevice2W) (hb : button ≠ .other)
    (hacei : button = .custom → ∃ acei, acei < 256 ∧ D.aceiValid acei = true)
    (h : iohcCozyDevice2W.cmd D button data s = .done s') :
    s'.sent = s.sent ++ [s'.packets2send]
    ∧ ∀ q : List iohcPacket,
        iohcCozyDevice2W.cmd D button data { s with packets2send := q } = .done s' := by
  cases button with
  | other => exact absurd rfl hb
  | associate =>
    refine ⟨?_, fun q => (iohcCozyDevice2W.caseAssociate_queue D s q).trans h⟩
    have h' : iohcCozyDevice2W.caseAssociate D s = .done s' := h
    rw [iohcCozyDevice2W.caseAssociate_eq] at h'
    rw [← Outcome.done.inj h']
    rfl
  | powerOn =>
    refine ⟨?_, fun q => (iohcCozyDevice2W.casePowerOn_queue D s q).trans h⟩
    have h' : iohcCozyDevice2W.casePowerOn D s = .done s' := h
    rw [iohcCozyDevice2W.casePowerOn_eq] at h'
    rw [← Outcome.done.inj h']
    rfl
  | midnight =>
    refine ⟨?_, fun q => (iohcCozyDevice2W.caseMidnight_queue D s q).trans h⟩
    have h' : iohcCozyDevice2W.caseMidnight D s = .done s' := h
    rw [iohcCozyDevice2W.caseMidnight_eq] at h'
    rw [← Outcome.done.inj h']
    rfl
  | ack =>
    refine ⟨?_, fun q => (iohcCozyDevice2W.caseAck_queue D s q).trans h⟩
    have h' : iohcCozyDevice2W.caseAck D s = .done s' := h
    rw [iohcCozyDevice2W.caseAck_eq] at h'
    rw [← Outcome.done.inj h']
    rfl
  | setTemp =>
    refine ⟨?_, fun q => iohcCozyDevice2W.caseSetTemp_queue D data s s' q h⟩
    obtain ⟨p, addr, -, hs⟩ := iohcCozyDevice2W.caseSetTemp_done D data s s' h
    exact iohcCozyDevice2W.sent_sendToIndex D p addr s s' hs
  | setWindow =>
    refine ⟨?_, fun q => iohcCozyDevice2W.caseSetWindow_queue D data s s' q h⟩
    obtain ⟨p, addr, -, hs⟩ := iohcCozyDevice2W.caseSetWindow_done D data s s' h
    exact iohcCozyDevice2W.sent_sendToIndex D p addr s s' hs
  | setMode =>
    refine ⟨?_, fun q => iohcCozyDevice2W.caseSetMode_queue D data s s' q h⟩
    obtain ⟨-, -, -, -, hs⟩ := iohcCozyDevice2W.caseSetMode_done D data s s' h
    exact hs
  | setPresence =>
    exact ⟨iohcCozyDevice2W.sent_caseSetPresence D data s s' h,
      fun q => iohcCozyDevice2W.caseSetPresence_queue D data s s' q h⟩
  | custom60 =>
    exact ⟨iohcCozyDevice2W.sent_caseCustom60 D data s s' h,
      fun q => iohcCozyDevice2W.caseCustom60_queue D data s s' q h⟩
  | custom =>
    refine ⟨?_, fun q => (iohcCozyDevice2W.caseCustom_queue D s q (hacei rfl)).trans h⟩
    have h' : iohcCozyDevice2W.caseCustom D s = .done s' := h
    rw [iohcCozyDevice2W.caseCustom_eq] at h'
    rw [← Outcome.done.inj h', iohcCozyDevice2W.sent_send,
      iohcCozyDevice2W.packets2send_send, iohcCozyDevice2W.sent_customLoop]
  | discover28 =>
    refine ⟨?_, fun q => (iohcCozyDevice2W.caseDiscover28_queue D s q).trans h⟩
    obtain ⟨-, h2⟩ := iohcCozyDevice2W.discover28_foldl_spec D 10 0
      (iohcCozyDevice2W.clear s) rfl
    rw [← List.range_eq_range'] at h2
    have h' : iohcCozyDevice2W.caseDiscover28 D s = .done s' := h
    rw [iohcCozyDevice2W.caseDiscover28_eq] at h'
    rw [← Outcome.done.inj h', iohcCozyDevice2W.sent_send,
      iohcCozyDevice2W.packets2send_send, h2]
    rfl
  | discover2A =>
    refine ⟨?_, fun q => (iohcCozyDevice2W.caseDiscover2A_queue D s q).trans h⟩
    obtain ⟨-, h2⟩ := iohcCozyDevice2W.discover2A_foldl_spec D (List.range 20)
      (iohcCozyDevice2W.clear s)
    have h' : iohcCozyDevice2W.caseDiscover2A D s = .done s' := h
    rw [iohcCozyDevice2W.caseDiscover2A_eq] at h'
    rw [← Outcome.done.inj h', iohcCozyDevice2W.sent_send,
      iohcCozyDevice2W.packets2send_send, h2]
    rfl
  | fake0 =>
    refine ⟨?_, fun q => (iohcCozyDevice2W.caseFake0_queue D s q).trans h⟩
    have h' : iohcCozyDevice2W.caseFake0 D s = .done s' := h
    rw [iohcCozyDevice2W.caseFake0_eq] at h'
    rw [← Outcome.done.inj h', iohcCozyDevice2W.sent_send,
      iohcCozyDevice2W.packets2send_send,
      iohcCozyDevice2W.sent_foldl _ (iohcCozyDevice2W.sent_fake0Step D _)]
    rfl
  | checkCmd =>
    refine ⟨?_, fun q => (iohcCozyDevice2W.caseCheckCmd_queue D s q).trans h⟩
    obtain ⟨s1, h1, -, h3⟩ := caseCheckCmd_done D s
    have h' : iohcCozyDevice2W.caseCheckCmd D s = .done s' := h
    rw [h'] at h1
    rw [Outcome.done.inj h1]
    exact h3

/-- Witness of C19: `powerOn` on the sample controller whose queue still holds two
earlier frames completes with a burst of one frame, and does so whatever the queue held. -/
theorem cmd_replaces_burst_witness :
    ∃ s', iohcCozyDevice2W.cmd (sampleDecls specMsgLenBits) .powerOn []
        { sampleController with packets2send := [zeroPacket, zeroPacket] } = .done s'
      ∧ s'.packets2send.length = 1
      ∧ s'.sent = sampleController.sent ++ [s'.packets2send]
      ∧ ∀ q : List iohcPacket,
          iohcCozyDevice2W.cmd (sampleDecls specMsgLenBits) .powerOn []
            { sampleController with packets2send := q } = .done s' :=
  ⟨_, iohcCozyDevice2W.casePowerOn_eq _ _, rfl,
    (cmd_replaces_burst (sampleDecls specMsgLenBits) .powerOn []
      { sampleController with packets2send := [zeroPacket, zeroPacket] } _
      (by decide) (fun h => by cases h) (iohcCozyDevice2W.casePowerOn_eq _ _)).1,
    (cmd_replaces_burst (sampleDecls specMsgLenBits) .powerOn []
      { sampleController with packets2send := [zeroPacket, zeroPacket] } _
      (by decide) (fun h => by cases h) (iohcCozyDevice2W.casePowerOn_eq _ _)).2⟩

/-! ## Index out of bounds -/

theorem vectorAt_out_of_bounds {α : Type} (v : List α) (i : Int)
    (h : i < 0 ∨ (v.length : Int) ≤ i) : vectorAt v i = .error .out_of_range := by
  unfold vectorAt
  split
  · rfl
  · rename_i hi
    have hlen : v.length ≤ i.toNat := by omega
    rw [List.getElem?_eq_none hlen]

theorem tokenAt_one_of_indexArg (D : Decls) (data : Tokens) (i : Int)
    (hi : iohcCozyDevice2W.indexArg D data = .ok i) : ∃ dat, tokenAt data 1 = .ok dat := by
  have hlen : 1 < data.length := by
    unfold iohcCozyDevice2W.indexArg at hi
    split at hi
    · omega
    · unfold tokenAt at hi
      cases h2 : data[2]? with
      | none =>
        rw [h2] at hi
        cases hi
      | some t =>
        have := (List.getElem?_eq_some_iff.mp h2).1
        omega
  refine ⟨data[1], ?_⟩
  unfold tokenAt
  rw [List.getElem?_eq_getElem hlen]

/-- C20 (as amended): for `setTemp` (with a temperature argument that parses and
converts) and for `setWindow`, an index argument `i` outside the bounds of the address
table, the table `addresses` that the index selects from (`i < 0` or `i` at least the
number of its entries), makes `cmd` leave through the exception `std::out_of_range`
raised by the checked access `addresses.at(i)`: `cmd` neither completes nor runs into
undefined behaviour, the radio is handed nothing, and the address table and the device
list are as before. The number of device records plays no part. -/
theorem cmd_index_out_of_bounds (D : Decls) (data : Tokens) (s : iohcCozyDevice2W) (i : Int)
    (hi : iohcCozyDevice2W.indexArg D data = .ok i)
    (hoob : i < 0 ∨ (s.addresses.length : Int) ≤ i) :
    (∀ t x temp, tokenAt data 1 = .ok t → D.stof t = .ok x →
        floatToInt (tenTimes x) = some temp →
        ∃ s', iohcCozyDevice2W.cmd D .setTemp data s = .thrown .out_of_range s'
          ∧ s'.sent = s.sent ∧ s'.addresses = s.addresses ∧ s'.devices = s.devices)
    ∧ ∃ s', iohcCozyDevice2W.cmd D .setWindow data s = .thrown .out_of_range s'
        ∧ s'.sent = s.sent ∧ s'.addresses = s.addresses ∧ s'.devices = s.devices := by
  have hv := vectorAt_out_of_bounds s.addresses i hoob
  constructor
  · intro t x temp h1 hx ht
    refine ⟨_, (iohcCozyDevice2W.caseSetTemp_eq_sendToIndex D data s t x temp i h1 hx ht
      hi).trans (iohcCozyDevice2W.sendToIndex_thrown D _ i s _ hv), rfl, rfl, rfl⟩
  · obtain ⟨dat, h1⟩ := tokenAt_one_of_indexArg D data i hi
    exact ⟨_, (iohcCozyDevice2W.caseSetWindow_eq_sendToIndex D data s dat i h1 hi).trans
      (iohcCozyDevice2W.sendToIndex_thrown D _ i s _ hv), rfl, rfl, rfl⟩

/-- Witness of C20: the tokens `settemp 21.5 1`, given to `setTemp` and to `setWindow` on
the sample controller with an address table of one entry: index 1 is out of bounds,
`cmd` throws `std::out_of_range` and nothing is handed to the radio. -/
theorem cmd_index_out_of_bounds_witness :
    iohcCozyDevice2W.indexArg (sampleDecls specMsgLenBits) ["settemp", "21.5", "1"] = .ok 1
    ∧ (∃ s', iohcCozyDevice2W.cmd (sampleDecls specMsgLenBits) .setTemp
          ["settemp", "21.5", "1"]
          { sampleController with addresses := [⟨0x48, 0x79, 0x02⟩] }
            = .thrown .out_of_range s'
        ∧ s'.sent = [] ∧ s'.addresses = [⟨0x48, 0x79, 0x02⟩] ∧ s'.devices = [])
    ∧ ∃ s', iohcCozyDevice2W.cmd (sampleDecls specMsgLenBits) .setWindow
          ["settemp", "21.5", "1"]
          { sampleController with addresses := [⟨0x48, 0x79, 0x02⟩] }
            = .thrown .out_of_range s'
        ∧ s'.sent = [] ∧ s'.addresses = [⟨0x48, 0x79, 0x02⟩] ∧ s'.devices = [] :=
  ⟨rfl,
    (cmd_index_out_of_bounds (sampleDecls specMsgLenBits) ["settemp", "21.5", "1"]
      { sampleController with addresses := [⟨0x48, 0x79, 0x02⟩] } 1 rfl
      (Or.inr (by decide))).1 "21.5" (.finite 43 (-1)) 215 rfl rfl (by decide),
    (cmd_index_out_of_bounds (sampleDecls specMsgLenBits) ["settemp", "21.5", "1"]
      { sampleController with addresses := [⟨0x48, 0x79, 0x02⟩] } 1 rfl
      (Or.inr (by decide))).2⟩

/-! ## Arguments that do not parse -/

/-- C21: for `setTemp` with a temperature argument on which `std::stof` raises
`std::invalid_argument` (no number can be read from it), and for `setTemp` (behind a
temperature that parses and converts) or `setWindow` with an index argument on which
`std::stoi` raises `std::invalid_argument`, `cmd` leaves through that exception: it
does not complete, and the controller at the exception is the one before the call, so
the queue is untouched and the radio is handed nothing. -/
theorem cmd_parse_error (D : Decls) (data : Tokens) (s : iohcCozyDevice2W) :
    (∀ t, tokenAt data 1 = .ok t → D.stof t = .error .invalid_argument →
        iohcCozyDevice2W.cmd D .setTemp data s = .thrown .invalid_argument s)
    ∧ (∀ t x temp u, tokenAt data 1 = .ok t → D.stof t = .ok x →
        floatToInt (tenTimes x) = some temp →
        data.length ≠ 2 → tokenAt data 2 = .ok u → D.stoi u = .error .invalid_argument →
        iohcCozyDevice2W.cmd D .setTemp data s = .thrown .invalid_argument s)
    ∧ (∀ dat u, tokenAt data 1 = .ok dat →
        data.length ≠ 2 → tokenAt data 2 = .ok u → D.stoi u = .error .invalid_argument →
        iohcCozyDevice2W.cmd D .setWindow data s = .thrown .invalid_argument s) := by
  refine ⟨?_, ?_, ?_⟩
  · intro t h1 hx
    show iohcCozyDevice2W.caseSetTemp D data s = _
    unfold iohcCozyDevice2W.caseSetTemp
    simp only [h1, hx]
  · intro t x temp u h1 hx ht hlen h2 hu
    show iohcCozyDevice2W.caseSetTemp D data s = _
    unfold iohcCozyDevice2W.caseSetTemp iohcCozyDevice2W.indexArg
    simp only [h1, hx, ht, h2, hu, if_neg hlen]
  · intro dat u h1 hlen h2 hu
    show iohcCozyDevice2W.caseSetWindow D data s = _
    unfold iohcCozyDevice2W.caseSetWindow iohcCozyDevice2W.indexArg
    simp only [h1, h2, hu, if_neg hlen]

/-- Witness of C21: `settemp warm`, `settemp 21.5 first` and `setwindow open first` on the
sample controller, with a library that reads no number from "warm" and "first". -/
theorem cmd_parse_error_witness :
    iohcCozyDevice2W.cmd (sampleDecls specMsgLenBits) .setTemp ["settemp", "warm"]
        sampleController = .thrown .invalid_argument sampleController
    ∧ iohcCozyDevice2W.cmd (sampleDecls specMsgLenBits) .setTemp ["settemp", "21.5", "first"]
        sampleController = .thrown .invalid_argument sampleController
    ∧ iohcCozyDevice2W.cmd (sampleDecls specMsgLenBits) .setWindow
        ["setwindow", "open", "first"] sampleController
          = .thrown .invalid_argument sampleController :=
  ⟨(cmd_parse_error (sampleDecls specMsgLenBits) ["settemp", "warm"] sampleController).1
      "warm" rfl rfl,
    (cmd_parse_error (sampleDecls specMsgLenBits) ["settemp", "21.5", "first"]
      sampleController).2.1 "21.5" (.finite 43 (-1)) 215 "first" rfl rfl (by decide)
      (by decide) rfl rfl,
    (cmd_parse_error (sampleDecls specMsgLenBits) ["setwindow", "open", "first"]
      sampleController).2.2 "open" "first" rfl (by decide) rfl rfl⟩

/-! ## The memo of the last command -/

/-- C22 (the code at the failing input): on the sample controller with the validity
table of five entries and the memo of an earlier `powerOn` (code 0x20, payload
`0C 60 01 2C`), `checkCmd` hands a burst of three frames to the radio; the last frame
has the code 0x2A and the 12-byte payload `01 .. 12`, and the memo holds the code 0x2A
with the payload `0C 60 01 2C` of the earlier command. -/
theorem cmd_checkCmd_memo_keeps_old_payload :
    ∃ s' f, iohcCozyDevice2W.cmd (sampleDecls 5) .checkCmd []
        { probingController with
          memorizeSend := { memorizedCmd := 0x20, memorizedData := [0x0C, 0x60, 0x01, 0x2C] } }
        = .done s'
      ∧ s'.sent = [s'.packets2send] ∧ s'.packets2send.length = 3
      ∧ s'.packets2send.getLast? = some f
      ∧ f.cmd = 0x2A ∧ f.buffer_length = 9 + 12
      ∧ f.body.take 12
          = [0x01, 0x02, 0x03, 0x04, 0x05, 0x06, 0x07, 0x08, 0x09, 0x10, 0x11, 0x12]
      ∧ s'.memorizeSend.memorizedCmd = 0x2A
      ∧ s'.memorizeSend.memorizedData = [0x0C, 0x60, 0x01, 0x2C]
      ∧ s'.memorizeSend.memorizedData ≠ f.body.take 12 :=
  ⟨_, _, rfl, rfl, rfl, rfl, rfl, rfl, rfl, rfl, rfl, by decide⟩

/-! ## The device store -/

theorem load_foldl (D : Decls) (doc : iohcCozyDevice2W.JsonDocument) (s : iohcCozyDevice2W) :
    doc.foldl (fun s kv =>
      let d : device :=
        { _node := D.hexStringToBytes kv.key
          _type := kv.type
          _description := kv.description
          _dst := D.hexStringToBytes kv.dst }
      { s with devices := s.devices ++ [d] }) s
      = { s with devices := s.devices ++ doc.map (deviceOfEntry D) } := by
  induction doc generalizing s with
  | nil => simp
  | cons kv doc ih =>
    rw [List.foldl_cons, ih]
    simp [deviceOfEntry]

theorem load_some (D : Decls) (docs : List iohcCozyDevice2W.JsonDocument)
    (s : iohcCozyDevice2W) :
    iohcCozyDevice2W.load D (some docs) s
      = (true, { s with devices := s.devices ++ (docs.headD []).map (deviceOfEntry D) }) := by
  unfold iohcCozyDevice2W.load
  simp only [load_foldl]

/-- C23: when the backing file does not exist, `load()` returns false without raising
anything and leaves the controller, and with it the device list, exactly as it was (an
empty list stays empty). When the file exists, `load()` returns true and appends to the
device list one record per member of the document read from the file (the first one
the file holds), in document order, each with the node address parsed from the key, the
destination parsed from `dst`, and the type and description of the member; nothing
else of the controller changes. -/
theorem load_registry (D : Decls) (s : iohcCozyDevice2W) :
    iohcCozyDevice2W.load D none s = (false, s)
    ∧ (iohcCozyDevice2W.load D none { s with devices := [] }).2.devices = []
    ∧ ∀ docs : List iohcCozyDevice2W.JsonDocument,
        (iohcCozyDevice2W.load D (some docs) s).1 = true
        ∧ (iohcCozyDevice2W.load D (some docs) s).2
            = { s with devices := s.devices ++ (docs.headD []).map (deviceOfEntry D) }
        ∧ (iohcCozyDevice2W.load D (some docs) s).2.devices.length
            = s.devices.length + (docs.headD []).length
        ∧ ∀ i kv, (docs.headD [])[i]? = some kv →
            (iohcCozyDevice2W.load D (some docs) s).2.devices[s.devices.length + i]?
              = some { _node := D.hexStringToBytes kv.key
                       _dst := D.hexStringToBytes kv.dst
                       _type := kv.type
                       _description := kv.description } := by
  refine ⟨rfl, rfl, fun docs => ?_⟩
  rw [load_some]
  refine ⟨rfl, rfl, by simp, ?_⟩
  intro i kv hi
  simp only []
  rw [List.getElem?_append_right (Nat.le_add_right _ _), Nat.add_sub_cancel_left,
    List.getElem?_map, hi]
  rfl

/-- Witness of C23: `load()` of the sample store into the sample controller, whose
device list is empty, gives one record, node `aa bb cc` with destination `11 22 33`. -/
theorem load_registry_witness :
    sampleController.devices = []
    ∧ (iohcCozyDevice2W.load (sampleDecls 5) sampleStore sampleController).2.devices[0]?
      = some { _node := ⟨0xaa, 0xbb, 0xcc⟩, _dst := ⟨0x11, 0x22, 0x33⟩, _type := "heater",
               _description := "kitchen" } :=
  ⟨rfl, ((load_registry (sampleDecls 5) sampleController).2.2
    [[{ key := "aabbcc", dst := "112233", type := "heater", description := "kitchen" }]]).2.2.2
    0 _ rfl⟩

theorem docSet_of_new_key (e : iohcCozyDevice2W.StoreEntry)
    (doc : iohcCozyDevice2W.JsonDocument) (h : ∀ x ∈ doc, x.key ≠ e.key) :
    iohcCozyDevice2W.docSet e doc = doc ++ [e] := by
  induction doc with
  | nil => rfl
  | cons x rest ih =>
    unfold iohcCozyDevice2W.docSet
    rw [if_neg (h x (List.mem_cons_self _ _)),
      ih (fun y hy => h y (List.mem_cons_of_mem _ hy))]
    rfl

theorem save_foldl (D : Decls) (l : List device) :
    ∀ acc : iohcCozyDevice2W.JsonDocument,
      ((acc.map (fun x => x.key)) ++ l.map (fun d => (entryOfDevice D d).key)).Nodup →
      l.foldl (fun doc d => iohcCozyDevice2W.docSet (entryOfDevice D d) doc) acc
        = acc ++ l.map (entryOfDevice D) := by
  induction l with
  | nil => intro acc _; simp
  | cons d l ih =>
    intro acc hnd
    rw [List.foldl_cons]
    have hnew : ∀ x ∈ acc, x.key ≠ (entryOfDevice D d).key := by
      intro x hx hk
      have h1 := (List.nodup_append.1 hnd).2.2
      exact h1 (List.mem_map_of_mem _ hx) (by rw [hk]; simp)
    rw [docSet_of_new_key _ _ hnew, ih]
    · simp
    · simpa [List.map_append, List.append_assoc] using hnd

theorem save_eq (D : Decls) (fs : iohcCozyDevice2W.Store) (s : iohcCozyDevice2W)
    (h : (s.devices.map (fun d => (entryOfDevice D d).key)).Nodup) :
    iohcCozyDevice2W.save D fs s
      = (true, some (fs.getD [] ++ [s.devices.map (entryOfDevice D)])) := by
  unfold iohcCozyDevice2W.save
  have := save_foldl D s.devices [] (by simpa using h)
  simp only [entryOfDevice] at this
  simp only [this, entryOfDevice, List.nil_append]

/-- C24: round trip. For a device list whose records have pairwise distinct node
addresses, `save()` onto a fresh store (the file absent, or present and empty) followed
by `load()` into a controller with an empty device list gives the same records in the
same order, identical in node address, destination, type and description. The helpers
of `iohcCryptoHelpers.h` are taken to be inverse on the addresses at hand:
`hexStringToBytes` reads back what `bytesToHexString` wrote. -/
theorem save_load_round_trip (D : Decls) (fs : iohcCozyDevice2W.Store)
    (s s0 : iohcCozyDevice2W)
    (hfresh : fs = none ∨ fs = some [])
    (hs0 : s0.devices = [])
    (hnodup : (s.devices.map (fun d => d._node)).Nodup)
    (hhex : ∀ d ∈ s.devices,
      D.hexStringToBytes (D.bytesToHexString d._node) = d._node
      ∧ D.hexStringToBytes (D.bytesToHexString d._dst) = d._dst) :
    (iohcCozyDevice2W.save D fs s).1 = true
    ∧ (iohcCozyDevice2W.load D (iohcCozyDevice2W.save D fs s).2 s0).1 = true
    ∧ (iohcCozyDevice2W.load D (iohcCozyDevice2W.save D fs s).2 s0).2.devices = s.devices := by
  have hkeys : (s.devices.map (fun d => (entryOfDevice D d).key)).Nodup := by
    refine List.Nodup.map_on ?_ (List.Nodup.of_map _ hnodup)
    intro x hx y hy hxy
    have hn : x._node = y._node := by
      rw [← (hhex x hx).1, ← (hhex y hy).1]
      exact congrArg D.hexStringToBytes hxy
    exact List.inj_on_of_nodup_map hnodup hx hy hn
  have hfile : fs.getD [] = [] := by
    rcases hfresh with h | h <;> rw [h] <;> rfl
  rw [save_eq D fs s hkeys, hfile]
  refine ⟨rfl, ?_, ?_⟩
  · rw [load_some]
  · rw [load_some]
    simp only [hs0, List.nil_append, List.headD_cons, List.map_map]
    conv_rhs => rw [← List.map_id s.devices]
    apply List.map_congr_left
    intro d hd
    obtain ⟨h1, h2⟩ := hhex d hd
    cases d
    simp only [Function.comp, deviceOfEntry, entryOfDevice, id] at h1 h2 ⊢
    rw [h1, h2]

/-- Witness of C24: two records, `aa bb cc` and `11 22 33`, saved onto an absent file and
loaded into the sample controller. -/
theorem save_load_round_trip_witness :
    (iohcCozyDevice2W.load (sampleDecls 5)
        (iohcCozyDevice2W.save (sampleDecls 5) none
          { sampleController with devices :=
              [{ _node := ⟨0xaa, 0xbb, 0xcc⟩, _dst := ⟨0x11, 0x22, 0x33⟩, _type := "heater",
                 _description := "kitchen" },
               { _node := ⟨0x11, 0x22, 0x33⟩, _dst := ⟨0xaa, 0xbb, 0xcc⟩, _type := "valve",
                 _description := "hall" }] }).2 sampleController).2.devices
      = [{ _node := ⟨0xaa, 0xbb, 0xcc⟩, _dst := ⟨0x11, 0x22, 0x33⟩, _type := "heater",
           _description := "kitchen" },
         { _node := ⟨0x11, 0x22, 0x33⟩, _dst := ⟨0xaa, 0xbb, 0xcc⟩, _type := "valve",
           _description := "hall" }] :=
  (save_load_round_trip (sampleDecls 5) none
    { sampleController with devices :=
        [{ _node := ⟨0xaa, 0xbb, 0xcc⟩, _dst := ⟨0x11, 0x22, 0x33⟩, _type := "heater",
           _description := "kitchen" },
         { _node := ⟨0x11, 0x22, 0x33⟩, _dst := ⟨0xaa, 0xbb, 0xcc⟩, _type := "valve",
           _description := "hall" }] }
    sampleController (Or.inl rfl) rfl (by decide) (by decide)).2.2

/-! ## Default scheduling of a forged packet -/

/-- C25: for every packet and every payload, `forgePacket` sets the channel to `CHANNEL2`
= 868950000 Hz, the middle one of the three configured channels (`CHANNEL1` <
`CHANNEL2` < `CHANNEL3`), the repeat count to 0, the repeat interval to 25 ms, `lock` to
false, and control byte 2 to zero. -/
theorem forgePacket_scheduling_defaults (D : Decls) (packet : iohcPacket)
    (toSend : List Nat) :
    (forgePacket D packet toSend).frequency = CHANNEL2
    ∧ CHANNEL2 = 868950000 ∧ CHANNEL1 < CHANNEL2 ∧ CHANNEL2 < CHANNEL3
    ∧ (forgePacket D packet toSend).repeat_ = 0
    ∧ (forgePacket D packet toSend).repeatTime = 25
    ∧ (forgePacket D packet toSend).lock = false
    ∧ (forgePacket D packet toSend).CtrlByte2 = 0 :=
  ⟨rfl, rfl, by decide, by decide, rfl, rfl, rfl, rfl⟩

/-! ## The payloads of the probe frames -/

theorem selectProbePayload_no_rule (code : Nat) (h : code ∉ probeRuleCodes) :
    iohcCozyDevice2W.selectProbePayload code [] = [] := by
  simp only [probeRuleCodes, List.mem_cons, List.mem_singleton, List.not_mem_nil, not_or,
    or_false] at h
  unfold iohcCozyDevice2W.selectProbePayload
  simp only [h, false_or, or_false, if_false, or_self]

theorem selectProbePayload_length (code : Nat) :
    (iohcCozyDevice2W.selectProbePayload code []).length
      ∈ [0, 1, 2, 3, 4, 5, 6, 9, 12, 14, 16, 18, 21] := by
  by_cases h : code ∈ probeRuleCodes
  · simp only [probeRuleCodes, List.mem_cons, List.mem_singleton, List.not_mem_nil,
      or_false] at h
    rcases h with h | h | h | h | h | h | h | h | h | h | h | h | h | h | h | h | h | h | h
      | h | h | h | h | h | h | h | h | h | h | h | h <;> subst h <;> decide
  · rw [selectProbePayload_no_rule code h]
    decide

/-- C28 (as amended): `checkCmd` completes, every frame of its burst is the probe frame of
a probed entry of the validity table, and the payload selected for the entry's code has
a length among 0, 1, 2, 3, 4, 5, 6, 9, 12, 14, 16, 18 and 21 bytes; the length is 0 for
every code that no payload rule names. -/
theorem cmd_checkCmd_payload_lengths (D : Decls) (data : Tokens) (s : iohcCozyDevice2W) :
    ∃ s', iohcCozyDevice2W.cmd D .checkCmd data s = .done s'
      ∧ ∀ f ∈ s'.packets2send, ∃ e ∈ s.mapValid,
          (e.2 = 0 ∨ (e.2 = 5 ∧ e.1 ≠ 0x19))
          ∧ f = probeFrame D s.gateway e.1
          ∧ f.buffer_length = 9 + (iohcCozyDevice2W.selectProbePayload e.1 []).length
          ∧ (iohcCozyDevice2W.selectProbePayload e.1 []).length
              ∈ [0, 1, 2, 3, 4, 5, 6, 9, 12, 14, 16, 18, 21]
          ∧ (e.1 ∉ probeRuleCodes →
              (iohcCozyDevice2W.selectProbePayload e.1 []).length = 0) := by
  obtain ⟨s', h1, h2, -⟩ := caseCheckCmd_done D s
  refine ⟨s', h1, ?_⟩
  intro f hf
  rw [h2] at hf
  obtain ⟨e, he, rfl⟩ := List.mem_map.1 hf
  obtain ⟨hmem, hp⟩ := List.mem_filter.1 he
  refine ⟨e, hmem, by simpa [probed] using hp, rfl,
    (forgedWith_probeFrame D s.gateway e.1).2, selectProbePayload_length e.1, ?_⟩
  intro hno
  rw [selectProbePayload_no_rule e.1 hno]
  rfl

/-- C28 (counterexample): code 0x0A is in the candidate table that `initializeValid`
seeds and no payload rule names it; in the `checkCmd` burst on the seeded sample
controller the frame at index 4 is its probe frame, with an empty payload (declared
length 9 + 0), and 0 is not among the listed lengths. -/
theorem cmd_checkCmd_empty_probe_payload :
    0x0A ∈ iohcCozyDevice2W.valid
    ∧ (iohcCozyDevice2W.selectProbePayload 0x0A []).length = 0
    ∧ (iohcCozyDevice2W.selectProbePayload 0x0A []).length
        ∉ [1, 2, 3, 4, 5, 6, 9, 12, 14, 16, 18, 21]
    ∧ ∃ s' f, iohcCozyDevice2W.cmd (sampleDecls 5) .checkCmd []
          (iohcCozyDevice2W.initializeValid sampleController) = .done s'
        ∧ s'.packets2send[4]? = some f ∧ f.cmd = 0x0A ∧ f.buffer_length = 9 + 0 := by
  obtain ⟨s', h1, h2, -⟩ := caseCheckCmd_done (sampleDecls 5)
    (iohcCozyDevice2W.initializeValid sampleController)
  refine ⟨by decide, rfl, by decide, s',
    probeFrame (sampleDecls 5) (iohcCozyDevice2W.initializeValid sampleController).gateway 0x0A,
    h1, ?_, rfl, rfl⟩
  have hentry : (((iohcCozyDevice2W.initializeValid sampleController).mapValid.filter
      probed)[4]?) = some (0x0A, 0) := by
    rw [mapValid_initializeValid]
    decide
  rw [h2, List.getElem?_map, hentry]
  rfl

namespace iohcCozyDevice2W

theorem checkCmdLoop_cons (D : Decls) (e : Nat × Nat) (rest : List (Nat × Nat))
    (held : List Nat) (t : iohcCozyDevice2W) :
    ∃ t1, checkCmdLoop D (e :: rest) held t = checkCmdLoop D rest [] t1
      ∧ (checkCmdLoop D (e :: rest) held t).packets2send
          = t1.packets2send ++ (rest.filter probed).map (fun c => probeFrame D t.gateway c.1) := by
  by_cases hp : e.2 = 0 ∨ (e.2 = 5 ∧ e.1 ≠ 0x19)
  · rw [checkCmdLoop, if_pos hp]
    refine ⟨_, rfl, ?_⟩
    rw [packets2send_checkCmdLoop]
    simp only [gateway_onBack, gateway_memoCmd, gateway_pushNew]
  · rw [checkCmdLoop, if_neg hp]
    exact ⟨t, rfl, packets2send_checkCmdLoop D rest t⟩

end iohcCozyDevice2W

/-- C29: in the `checkCmd` pass the payload of each probe frame is a function of the
probed code alone. The burst is the list of the frames `probeFrame gateway code` of the
probed entries, each carrying the payload that the rules select for `code` from an
empty vector, whatever the other entries and their statuses are: the vector is emptied
at the end of every iteration, probed or skipped, so whatever it held before an
iteration is gone after it. Code 0x2A gets the 12-byte payload `01 .. 12` (the later
rule overrides the 6-byte one), the codes 0x00, 0x01, 0x0B, 0x0E, 0x1E and 0x23 get
`01 E7 00 00 00 00`, and a code that no rule names gets the empty payload. -/
theorem cmd_checkCmd_payload_by_code (D : Decls) (data : Tokens) (s : iohcCozyDevice2W) :
    (∃ s', iohcCozyDevice2W.cmd D .checkCmd data s = .done s'
      ∧ s'.packets2send
          = (s.mapValid.filter (fun e => decide (e.2 = 0 ∨ (e.2 = 5 ∧ e.1 ≠ 0x19)))).map
              (fun e => probeFrame D s.gateway e.1)
      ∧ ∀ f ∈ s'.packets2send, ∃ e ∈ s.mapValid, f.cmd = e.1 % 256
          ∧ f.body = (forgePacket D D.fresh
              (iohcCozyDevice2W.selectProbePayload e.1 [])).body
          ∧ f.buffer_length = 9 + (iohcCozyDevice2W.selectProbePayload e.1 []).length)
    ∧ (∀ (e : Nat × Nat) (rest : List (Nat × Nat)) (held : List Nat) (t : iohcCozyDevice2W),
        ∃ t1, iohcCozyDevice2W.checkCmdLoop D (e :: rest) held t
            = iohcCozyDevice2W.checkCmdLoop D rest [] t1
          ∧ (iohcCozyDevice2W.checkCmdLoop D (e :: rest) held t).packets2send
            = t1.packets2send
              ++ (rest.filter (fun e => decide (e.2 = 0 ∨ (e.2 = 5 ∧ e.1 ≠ 0x19)))).map
                  (fun e => probeFrame D t.gateway e.1))
    ∧ iohcCozyDevice2W.selectProbePayload 0x2A []
        = [0x01, 0x02, 0x03, 0x04, 0x05, 0x06, 0x07, 0x08, 0x09, 0x10, 0x11, 0x12]
    ∧ (∀ code ∈ [0x00, 0x01, 0x0B, 0x0E, 0x1E, 0x23],
        iohcCozyDevice2W.selectProbePayload code [] = [0x01, 0xE7, 0x00, 0x00, 0x00, 0x00])
    ∧ (∀ code, code ∉ probeRuleCodes → iohcCozyDevice2W.selectProbePayload code [] = []) := by
  refine ⟨?_, ?_, rfl, by decide, selectProbePayload_no_rule⟩
  · obtain ⟨s', h1, h2, -⟩ := caseCheckCmd_done D s
    refine ⟨s', h1, h2, ?_⟩
    intro f hf
    rw [h2] at hf
    obtain ⟨e, he, rfl⟩ := List.mem_map.1 hf
    exact ⟨e, List.mem_of_mem_filter he, rfl, (forgedWith_probeFrame D s.gateway e.1).1,
      (forgedWith_probeFrame D s.gateway e.1).2⟩
  · exact iohcCozyDevice2W.checkCmdLoop_cons D

/-! ## The delays of the `setMode` burst -/

theorem getElem?_modifyAt {α : Type} (g : α → α) (i : Nat) (l : List α) (j : Nat) :
    (modifyAt g i l)[j]? = if j = i then (l[j]?).map g else l[j]? := by
  induction l generalizing i j with
  | nil => simp [modifyAt]
  | cons a l ih =>
    cases i with
    | zero =>
      cases j with
      | zero => simp [modifyAt]
      | succ j => simp [modifyAt]
    | succ i =>
      cases j with
      | zero => simp [modifyAt]
      | succ j => simp [modifyAt, ih]

/-- C27: in the burst that `setMode` builds for an address table of N >= 2 entries (the
table the loop runs over), N frames, the frame at index 1 has the pre-send delay 250 ms
and every other frame, the first included, has the delay of a newly created frame. -/
theorem cmd_setMode_delays (D : Decls) (data : Tokens) (s : iohcCozyDevice2W) (dat : String)
    (hd : tokenAt data 1 = .ok dat) (hlen : 2 ≤ s.addresses.length) :
    ∃ s', iohcCozyDevice2W.cmd D .setMode data s = .done s'
      ∧ s'.packets2send.length = s.addresses.length
      ∧ ∀ i f, s'.packets2send[i]? = some f →
          (i = 1 → f.delayed = 250) ∧ (i ≠ 1 → f.delayed = D.fresh.delayed) := by
  obtain ⟨s', h⟩ := caseSetMode_completes D data s dat hd hlen
  obtain ⟨dat', -, -, hq, -⟩ := iohcCozyDevice2W.caseSetMode_done D data s s' h
  refine ⟨s', h, ?_, ?_⟩
  · rw [hq, modifyAt_length, List.length_map]
  · intro i f hf
    rw [hq, getElem?_modifyAt, List.getElem?_map] at hf
    constructor
    · intro hi
      rw [if_pos hi] at hf
      cases ha : s.addresses[i]? with
      | none => rw [ha] at hf; cases hf
      | some a =>
        rw [ha] at hf
        cases hf
        rfl
    · intro hi
      rw [if_neg hi] at hf
      cases ha : s.addresses[i]? with
      | none => rw [ha] at hf; cases hf
      | some a =>
        rw [ha] at hf
        cases hf
        rfl

/-- Witness of C27: `setmode manual` on the sample controller, whose address table has
two entries. -/
theorem cmd_setMode_delays_witness :
    ∃ s', iohcCozyDevice2W.cmd (sampleDecls specMsgLenBits) .setMode ["setmode", "manual"]
        sampleController = .done s'
      ∧ s'.packets2send.length = 2
      ∧ ∀ i f, s'.packets2send[i]? = some f →
          (i = 1 → f.delayed = 250) ∧ (i ≠ 1 → f.delayed = 0) :=
  cmd_setMode_delays (sampleDecls specMsgLenBits) ["setmode", "manual"] sampleController
    "manual" rfl (by decide)

/-! ## The source address of the frames of `cmd` -/

namespace iohcCozyDevice2W

theorem gateway_foldl {α : Type} (step : iohcCozyDevice2W → α → iohcCozyDevice2W)
    (hstep : ∀ s a, (step s a).gateway = s.gateway) (l : List α) (s : iohcCozyDevice2W) :
    (l.foldl step s).gateway = s.gateway := by
  induction l generalizing s with
  | nil => rfl
  | cons a l ih => rw [List.foldl_cons, ih, hstep]

theorem gateway_discover28Step (D : Decls) (toSend : List Nat) (s : iohcCozyDevice2W)
    (i : Nat) : (discover28Step D toSend s i).gateway = s.gateway := by
  unfold discover28Step
  simp only [gateway_onBack, gateway_onIndex, gateway_memoCmd, gateway_memoData,
    gateway_pushNew]

theorem gateway_caseSetMode (D : Decls) (data : Tokens) (s s' : iohcCozyDevice2W)
    (h : caseSetMode D data s = .done s') : s'.gateway = s.gateway := by
  unfold caseSetMode at h
  split at h
  · cases h
  · rename_i dat hd
    obtain ⟨s1, h1, -, h3, -, -⟩ :=
      setModeLoop_done D (setModePayload dat) (clear s).addresses 0 (clear s) rfl
    simp only [h1] at h
    split at h
    · cases h
      simp only [gateway_send, gateway_onIndex, h3, gateway_clear]
    · cases h

end iohcCozyDevice2W

theorem isFake_of_source (src dst : address) (t : iohcCozyDevice2W) (h : src = t.gateway) :
    (iohcCozyDevice2W.isFake src dst t).1 = true := by
  unfold iohcCozyDevice2W.isFake
  simp [h]

/-- C30: when `cmd` completes for `associate`, `powerOn`, `setTemp`, `setMode`,
`setPresence`, `setWindow`, `midnight`, `custom60`, `discover28`, `discover2A`, `ack` or
`checkCmd`, the gateway address of the controller is unchanged and every frame of the
queue carries it as source, so that `isFake(frame.source, frame.target)` returns true
for each of these frames. -/
theorem cmd_frames_from_gateway (D : Decls) (button : DeviceButton) (data : Tokens)
    (s s' : iohcCozyDevice2W)
    (hb : button ∈ [DeviceButton.associate, .powerOn, .setTemp, .setMode, .setPresence,
      .setWindow, .midnight, .custom60, .discover28, .discover2A, .ack, .checkCmd])
    (h : iohcCozyDevice2W.cmd D button data s = .done s') :
    s'.gateway = s.gateway
    ∧ ∀ f ∈ s'.packets2send,
        f.source = s.gateway ∧ (iohcCozyDevice2W.isFake f.source f.target s').1 = true := by
  have key : s'.gateway = s.gateway ∧ ∀ f ∈ s'.packets2send, f.source = s.gateway := by
    cases button with
    | other => simp at hb
    | custom => simp at hb
    | fake0 => simp at hb
    | associate =>
      have h' : iohcCozyDevice2W.caseAssociate D s = .done s' := h
      rw [iohcCozyDevice2W.caseAssociate_eq] at h'
      rw [← Outcome.done.inj h']
      refine ⟨rfl, fun f hf => ?_⟩
      rw [List.mem_singleton.1 hf]
      rfl
    | powerOn =>
      have h' : iohcCozyDevice2W.casePowerOn D s = .done s' := h
      rw [iohcCozyDevice2W.casePowerOn_eq] at h'
      rw [← Outcome.done.inj h']
      refine ⟨rfl, fun f hf => ?_⟩
      rw [List.mem_singleton.1 hf]
      rfl
    | midnight =>
      have h' : iohcCozyDevice2W.caseMidnight D s = .done s' := h
      rw [iohcCozyDevice2W.caseMidnight_eq] at h'
      rw [← Outcome.done.inj h']
      refine ⟨rfl, fun f hf => ?_⟩
      rw [List.mem_singleton.1 hf]
      rfl
    | ack =>
      have h' : iohcCozyDevice2W.caseAck D s = .done s' := h
      rw [iohcCozyDevice2W.caseAck_eq] at h'
      rw [← Outcome.done.inj h']
      refine ⟨rfl, fun f hf => ?_⟩
      rw [List.mem_singleton.1 hf]
      rfl
    | setTemp =>
      obtain ⟨p, addr, -, hs⟩ := iohcCozyDevice2W.caseSetTemp_done D data s s' h
      obtain ⟨a, -, rfl⟩ := iohcCozyDevice2W.sendToIndex_done D p addr s s' hs
      refine ⟨rfl, fun f hf => ?_⟩
      rw [List.mem_singleton.1 hf]
      rfl
    | setWindow =>
      obtain ⟨p, addr, -, hs⟩ := iohcCozyDevice2W.caseSetWindow_done D data s s' h
      obtain ⟨a, -, rfl⟩ := iohcCozyDevice2W.sendToIndex_done D p addr s s' hs
      refine ⟨rfl, fun f hf => ?_⟩
      rw [List.mem_singleton.1 hf]
      rfl
    | setPresence =>
      have h' : iohcCozyDevice2W.caseSetPresence D data s = .done s' := h
      rcases tokenAt_cases data 1 with ⟨dat, hd⟩ | hd
      · rw [iohcCozyDevice2W.caseSetPresence_eq D data s dat hd] at h'
        rw [← Outcome.done.inj h']
        refine ⟨rfl, fun f hf => ?_⟩
        rw [List.mem_singleton.1 hf]
        rfl
      · unfold iohcCozyDevice2W.caseSetPresence at h'
        rw [hd] at h'
        cases h'
    | custom60 =>
      have h' : iohcCozyDevice2W.caseCustom60 D data s = .done s' := h
      rcases tokenAt_cases data 1 with ⟨t, hd⟩ | hd
      · cases hc : D.stoi t with
        | error e =>
          unfold iohcCozyDevice2W.caseCustom60 at h'
          simp only [hd, hc] at h'
          cases h'
        | ok custom =>
          rw [iohcCozyDevice2W.caseCustom60_eq D data s t custom hd hc] at h'
          rw [← Outcome.done.inj h']
          refine ⟨rfl, fun f hf => ?_⟩
          rw [List.mem_singleton.1 hf]
          rfl
      · unfold iohcCozyDevice2W.caseCustom60 at h'
        rw [hd] at h'
        cases h'
    | setMode =>
      obtain ⟨dat, -, -, hq, -⟩ := iohcCozyDevice2W.caseSetMode_done D data s s' h
      refine ⟨iohcCozyDevice2W.gateway_caseSetMode D data s s' h, fun f hf => ?_⟩
      rw [hq] at hf
      rcases mem_modifyAt _ _ _ _ hf with hm | ⟨x, hm, rfl⟩
      · obtain ⟨a, -, rfl⟩ := List.mem_map.1 hm
        rfl
      · obtain ⟨a, -, rfl⟩ := List.mem_map.1 hm
        rfl
    | discover28 =>
      obtain ⟨h1, -⟩ := iohcCozyDevice2W.discover28_foldl_spec D 10 0
        (iohcCozyDevice2W.clear s) rfl
      rw [← List.range_eq_range'] at h1
      have h' : iohcCozyDevice2W.caseDiscover28 D s = .done s' := h
      rw [iohcCozyDevice2W.caseDiscover28_eq] at h'
      rw [← Outcome.done.inj h']
      refine ⟨?_, fun f hf => ?_⟩
      · rw [iohcCozyDevice2W.gateway_send, iohcCozyDevice2W.gateway_foldl _
          (iohcCozyDevice2W.gateway_discover28Step D [])]
        rfl
      · rw [iohcCozyDevice2W.packets2send_send, h1] at hf
        simp only [iohcCozyDevice2W.packets2send_clear, List.nil_append] at hf
        rw [List.eq_of_mem_replicate hf]
        rfl
    | discover2A =>
      obtain ⟨h1, -⟩ := iohcCozyDevice2W.discover2A_foldl_spec D (List.range 20)
        (iohcCozyDevice2W.clear s)
      have h' : iohcCozyDevice2W.caseDiscover2A D s = .done s' := h
      rw [iohcCozyDevice2W.caseDiscover2A_eq] at h'
      rw [← Outcome.done.inj h']
      refine ⟨?_, fun f hf => ?_⟩
      · rw [iohcCozyDevice2W.gateway_send, iohcCozyDevice2W.gateway_foldl _
          (iohcCozyDevice2W.gateway_discover2AStep D _)]
        rfl
      · rw [iohcCozyDevice2W.packets2send_send, h1] at hf
        simp only [iohcCozyDevice2W.packets2send_clear, List.nil_append] at hf
        obtain ⟨i, -, rfl⟩ := List.mem_map.1 hf
        rfl
    | checkCmd =>
      have h' : iohcCozyDevice2W.caseCheckCmd D s = .done s' := h
      rw [iohcCozyDevice2W.caseCheckCmd_eq] at h'
      rw [← Outcome.done.inj h']
      refine ⟨?_, fun f hf => ?_⟩
      · rw [iohcCozyDevice2W.gateway_send, iohcCozyDevice2W.checkCmdLoop_gateway]
        rfl
      · rw [iohcCozyDevice2W.packets2send_send,
          iohcCozyDevice2W.packets2send_checkCmdLoop] at hf
        simp only [iohcCozyDevice2W.packets2send_clear, List.nil_append] at hf
        obtain ⟨e, -, rfl⟩ := List.mem_map.1 hf
        rfl
  refine ⟨key.1, fun f hf => ⟨key.2 f hf, ?_⟩⟩
  exact isFake_of_source f.source f.target s' ((key.2 f hf).trans key.1.symm)

/-- Witness of C30: `checkCmd` on the sample controller with the validity table of five
entries; the gateway is `ba 11 ad`. -/
theorem cmd_frames_from_gateway_witness :
    ∃ s', iohcCozyDevice2W.cmd (sampleDecls specMsgLenBits) .checkCmd [] probingController
        = .done s'
      ∧ s'.gateway = ⟨0xba, 0x11, 0xad⟩
      ∧ ∀ f ∈ s'.packets2send,
          f.source = ⟨0xba, 0x11, 0xad⟩
          ∧ (iohcCozyDevice2W.isFake f.source f.target s').1 = true :=
  ⟨_, iohcCozyDevice2W.caseCheckCmd_eq _ _,
    cmd_frames_from_gateway (sampleDecls specMsgLenBits) .checkCmd [] probingController _
      (by decide) (iohcCozyDevice2W.caseCheckCmd_eq _ _)⟩

/-! ## The addition of the payload length to control byte 1 -/

theorem low_add_lt_256 (w q r : Nat) (hw : w ≤ 8) (hq : 2 ^ w * q < 256) (hr : r < 2 ^ w) :
    2 ^ w * q + r < 256 := by
  have h256 : (256 : Nat) = 2 ^ w * 2 ^ (8 - w) := by
    rw [← Nat.pow_add]
    have : w + (8 - w) = 8 := by omega
    rw [this]
  have hq' : q < 2 ^ (8 - w) := by
    rw [h256] at hq
    exact Nat.lt_of_mul_lt_mul_left hq
  have : 2 ^ w * (q + 1) ≤ 2 ^ w * 2 ^ (8 - w) := Nat.mul_le_mul_left _ hq'
  rw [← h256, Nat.mul_add, Nat.mul_one] at this
  omega

theorem setLow_lt_256 (b w v : Nat) (hb : b < 256) (hw : w ≤ 8) : setLow b w v < 256 := by
  unfold setLow
  apply low_add_lt_256 w _ _ hw
  · exact lt_of_le_of_lt (Nat.mul_div_le b (2 ^ w)) hb
  · exact Nat.mod_lt _ (Nat.two_pow_pos w)

theorem setBit_lt_256 (b k v : Nat) (hb : b < 256) (hk : k < 8) : setBit b k v < 256 := by
  have h256 : (256 : Nat) = 2 ^ 8 := by norm_num
  have hp : 2 ^ k < 2 ^ 8 := Nat.pow_lt_pow_right (by norm_num) hk
  rw [h256] at hb ⊢
  unfold setBit
  split
  · exact Nat.or_lt_two_pow hb hp
  · exact Nat.xor_lt_two_pow hb (Nat.and_lt_two_pow _ hp)

theorem add_eq_setLow (c L w : Nat) (hw : w ≤ 8) (hc : c < 256) (hlow : c % 2 ^ w = 8)
    (h : 8 + L < 2 ^ w) : (c + L) % 256 = setLow c w (getLow c w + L) := by
  unfold setLow getLow
  rw [hlow, Nat.mod_eq_of_lt h]
  have hdm := Nat.div_add_mod c (2 ^ w)
  rw [hlow] at hdm
  have hsum : c + L = 2 ^ w * (c / 2 ^ w) + (8 + L) := by omega
  rw [hsum]
  apply Nat.mod_eq_of_lt
  apply low_add_lt_256 _ _ _ hw _ h
  exact lt_of_le_of_lt (Nat.mul_div_le c _) hc

/-- Without a carry out of the length field, `forgePacket` is the function that updates
the length field alone. -/
theorem forgePacket_eq_lengthField (D : Decls) (packet : iohcPacket) (toSend : List Nat)
    (hb : packet.CtrlByte1 < 256) (h : 8 + toSend.length < 2 ^ D.msgLenBits.val) :
    forgePacket D packet toSend = forgePacketLengthField D packet toSend := by
  have hw : D.msgLenBits.val ≤ 5 := by omega
  have hc256 : setBit (setBit (setBit (setLow packet.CtrlByte1 D.msgLenBits.val
      (sizeof_header - 1)) D.protocolBit 0) D.startBit 1) D.endBit 0 < 256 := by
    apply setBit_lt_256 _ _ _ _ (by unfold Decls.endBit; omega)
    apply setBit_lt_256 _ _ _ _ (by unfold Decls.startBit; omega)
    apply setBit_lt_256 _ _ _ _ (by unfold Decls.protocolBit; omega)
    exact setLow_lt_256 _ _ _ hb (by omega)
  have hlow : (setBit (setBit (setBit (setLow packet.CtrlByte1 D.msgLenBits.val
      (sizeof_header - 1)) D.protocolBit 0) D.startBit 1) D.endBit 0) % 2 ^ D.msgLenBits.val
      = 8 := by
    rw [setBit_mod_two_pow _ _ _ _ (by unfold Decls.endBit; omega),
      setBit_mod_two_pow _ _ _ _ (by unfold Decls.startBit; omega),
      setBit_mod_two_pow _ _ _ _ (by unfold Decls.protocolBit; omega)]
    have := getLow_setLow packet.CtrlByte1 D.msgLenBits.val (sizeof_header - 1)
    unfold getLow at this
    rw [this]
    exact Nat.mod_eq_of_lt (by unfold sizeof_header; omega)
  have hbyte := add_eq_setLow _ toSend.length D.msgLenBits.val (by omega) hc256 hlow h
  unfold forgePacket forgePacketLengthField
  simp only [hbyte]

theorem flagsAsSet_start (D : Decls) (p : iohcPacket) (toSend : List Nat) (f : iohcPacket)
    (hL : toSend.length ≤ 21) (hl : f.buffer_length = toSend.length + 9)
    (hc : f.CtrlByte1 = setBit (forgePacket D p toSend).CtrlByte1 D.startBit 1) :
    f.FlagsAsSet D 0 := by
  refine ⟨by omega, fun hfit => ?_⟩
  have h : 8 + toSend.length < 2 ^ D.msgLenBits.val := by omega
  obtain ⟨hp, -, he⟩ := flags_forgePacket D p toSend h
  have hm := msgLen_forgePacket D p toSend
  rw [Nat.mod_eq_of_lt h] at hm
  unfold iohcPacket.MsgLen getLow at hm
  unfold iohcPacket.Protocol at hp
  unfold iohcPacket.EndFrame at he
  unfold iohcPacket.MsgLen iohcPacket.Protocol iohcPacket.StartFrame iohcPacket.EndFrame getLow
  rw [hc]
  refine ⟨?_, ?_, ?_, ?_⟩
  · rw [setBit_mod_two_pow _ _ _ _ (by unfold Decls.startBit; omega), hm, hl]
    omega
  · rw [getBit_setBit_of_ne _ _ _ _ (by unfold Decls.startBit Decls.protocolBit; omega), hp]
  · rw [getBit_setBit_self]
  · rw [getBit_setBit_of_ne _ _ _ _ (by unfold Decls.startBit Decls.endBit; omega), he]

theorem flagsAsSet_start_end (D : Decls) (p : iohcPacket) (toSend : List Nat) (e : Nat)
    (f : iohcPacket) (hL : toSend.length ≤ 21) (he : e < 2)
    (hl : f.buffer_length = toSend.length + 9)
    (hc : f.CtrlByte1
      = setBit (setBit (forgePacket D p toSend).CtrlByte1 D.startBit 1) D.endBit e) :
    f.FlagsAsSet D e := by
  refine ⟨by omega, fun hfit => ?_⟩
  have h : 8 + toSend.length < 2 ^ D.msgLenBits.val := by omega
  obtain ⟨hp, -, -⟩ := flags_forgePacket D p toSend h
  have hm := msgLen_forgePacket D p toSend
  rw [Nat.mod_eq_of_lt h] at hm
  unfold iohcPacket.MsgLen getLow at hm
  unfold iohcPacket.Protocol at hp
  unfold iohcPacket.MsgLen iohcPacket.Protocol iohcPacket.StartFrame iohcPacket.EndFrame getLow
  rw [hc]
  refine ⟨?_, ?_, ?_, ?_⟩
  · rw [setBit_mod_two_pow _ _ _ _ (by unfold Decls.endBit; omega),
      setBit_mod_two_pow _ _ _ _ (by unfold Decls.startBit; omega), hm, hl]
    omega
  · rw [getBit_setBit_of_ne _ _ _ _ (by unfold Decls.endBit Decls.protocolBit; omega),
      getBit_setBit_of_ne _ _ _ _ (by unfold Decls.startBit Decls.protocolBit; omega), hp]
  · rw [getBit_setBit_of_ne _ _ _ _ (by unfold Decls.startBit Decls.endBit; omega),
      getBit_setBit_self]
  · rw [getBit_setBit_self]
    exact Nat.mod_eq_of_lt he

namespace iohcCozyDevice2W

theorem all_foldl {α : Type} (P : iohcPacket → Prop)
    (step : iohcCozyDevice2W → α → iohcCozyDevice2W)
    (hstep : ∀ s a, (∀ f ∈ s.packets2send, P f) → ∀ f ∈ (step s a).packets2send, P f)
    (l : List α) (s : iohcCozyDevice2W) (h : ∀ f ∈ s.packets2send, P f) :
    ∀ f ∈ (l.foldl step s).packets2send, P f := by
  induction l generalizing s with
  | nil => exact h
  | cons a l ih => exact ih _ (hstep s a h)

theorem flags_fake0Step (D : Decls) (toSend : List Nat) (hL : toSend.length ≤ 21)
    (s : iohcCozyDevice2W) (g : address) (h : ∀ f ∈ s.packets2send, f.FlagsAsSet D 0) :
    ∀ f ∈ (fake0Step D toSend s g).packets2send, f.FlagsAsSet D 0 := by
  unfold fake0Step
  simp only [packets2send_onBack, packets2send_memoCmd, packets2send_memoData,
    packets2send_pushNew, modifyBack_append_singleton]
  intro f hf
  rcases List.mem_append.1 hf with hf | hf
  · exact h f hf
  · rw [List.mem_singleton.1 hf]
    exact flagsAsSet_start D D.fresh toSend _ hL rfl rfl

theorem flags_customLoop (D : Decls) (l : List Nat) (toSend : List Nat)
    (hL : toSend.length ≤ 21) (s : iohcCozyDevice2W)
    (h : ∀ f ∈ s.packets2send, f.FlagsAsSet D 0) :
    ∀ f ∈ (customLoop D l toSend s).packets2send, f.FlagsAsSet D 0 := by
  induction l generalizing toSend s with
  | nil => exact h
  | cons acei rest ih =>
    unfold customLoop
    split
    · apply ih _ (by simpa using hL)
      simp only [packets2send_onBack, packets2send_memoCmd, packets2send_memoData,
        packets2send_pushNew, packets2send_clear, List.nil_append, modifyBack_singleton]
      intro f hf
      rw [List.mem_singleton.1 hf]
      exact flagsAsSet_start D D.fresh _ _ (by simpa using hL) rfl rfl
    · exact ih _ hL _ h

theorem caseSetTemp_done_length (D : Decls) (data : Tokens) (s s' : iohcCozyDevice2W)
    (h : caseSetTemp D data s = .done s') :
    ∃ toSend addr, toSend.length = 6 ∧ sendToIndex D toSend addr s = .done s' := by
  unfold caseSetTemp at h
  split at h
  · cases h
  · split at h
    · cases h
    · split at h
      · cases h
      · split at h
        · cases h
        · rename_i addr ha
          exact ⟨_, addr, by simp, h⟩

theorem caseSetWindow_done_length (D : Decls) (data : Tokens) (s s' : iohcCozyDevice2W)
    (h : caseSetWindow D data s = .done s') :
    ∃ toSend addr, toSend.length = 5 ∧ sendToIndex D toSend addr s = .done s' := by
  unfold caseSetWindow at h
  split at h
  · cases h
  · split at h
    · cases h
    · rename_i dat hd addr ha
      exact ⟨_, addr, by rw [setWindowPayload_eq]; rfl, h⟩

end iohcCozyDevice2W

theorem cmd_flagsAsSet (D : Decls) (button : DeviceButton) (data : Tokens)
    (s s' : iohcCozyDevice2W) (hb : button ≠ .other)
    (hacei : button = .custom → ∃ acei, acei < 256 ∧ D.aceiValid acei = true)
    (h : iohcCozyDevice2W.cmd D button data s = .done s') :
    ∀ f ∈ s'.packets2send, f.FlagsAsSet D
      (if button = .associate ∨ button = .discover28 ∨ button = .discover2A then 1 else 0) := by
  cases button with
  | other => exact absurd rfl hb
  | associate =>
    have h' : iohcCozyDevice2W.caseAssociate D s = .done s' := h
    rw [iohcCozyDevice2W.caseAssociate_eq] at h'
    rw [← Outcome.done.inj h']
    intro f hf
    rw [List.mem_singleton.1 hf]
    exact flagsAsSet_start_end D D.fresh [] 1 _ (by decide) (by decide) rfl rfl
  | powerOn =>
    have h' : iohcCozyDevice2W.casePowerOn D s = .done s' := h
    rw [iohcCozyDevice2W.casePowerOn_eq] at h'
    rw [← Outcome.done.inj h']
    intro f hf
    rw [List.mem_singleton.1 hf]
    exact flagsAsSet_start D D.fresh _ _ (by decide) rfl rfl
  | midnight =>
    have h' : iohcCozyDevice2W.caseMidnight D s = .done s' := h
    rw [iohcCozyDevice2W.caseMidnight_eq] at h'
    rw [← Outcome.done.inj h']
    intro f hf
    rw [List.mem_singleton.1 hf]
    exact flagsAsSet_start D D.fresh _ _ (by decide) rfl rfl
  | ack =>
    have h' : iohcCozyDevice2W.caseAck D s = .done s' := h
    rw [iohcCozyDevice2W.caseAck_eq] at h'
    rw [← Outcome.done.inj h']
    intro f hf
    rw [List.mem_singleton.1 hf]
    exact flagsAsSet_start D D.fresh _ _ (by decide) rfl rfl
  | setTemp =>
    obtain ⟨p, addr, hp, hs⟩ := iohcCozyDevice2W.caseSetTemp_done_length D data s s' h
    obtain ⟨a, -, rfl⟩ := iohcCozyDevice2W.sendToIndex_done D p addr s s' hs
    intro f hf
    rw [List.mem_singleton.1 hf]
    exact flagsAsSet_start D D.fresh p _ (by omega) rfl rfl
  | setWindow =>
    obtain ⟨p, addr, hp, hs⟩ := iohcCozyDevice2W.caseSetWindow_done_length D data s s' h
    obtain ⟨a, -, rfl⟩ := iohcCozyDevice2W.sendToIndex_done D p addr s s' hs
    intro f hf
    rw [List.mem_singleton.1 hf]
    exact flagsAsSet_start D D.fresh p _ (by omega) rfl rfl
  | setPresence =>
    have h' : iohcCozyDevice2W.caseSetPresence D data s = .done s' := h
    rcases tokenAt_cases data 1 with ⟨dat, hd⟩ | hd
    · rw [iohcCozyDevice2W.caseSetPresence_eq D data s dat hd] at h'
      rw [← Outcome.done.inj h']
      intro f hf
      rw [List.mem_singleton.1 hf]
      exact flagsAsSet_start D D.fresh (iohcCozyDevice2W.setPresencePayload dat) _
        (by rw [iohcCozyDevice2W.setPresencePayload_eq]; simp) rfl rfl
    · unfold iohcCozyDevice2W.caseSetPresence at h'
      rw [hd] at h'
      cases h'
  | custom60 =>
    have h' : iohcCozyDevice2W.caseCustom60 D data s = .done s' := h
    rcases tokenAt_cases data 1 with ⟨t, hd⟩ | hd
    · cases hc : D.stoi t with
      | error e =>
        unfold iohcCozyDevice2W.caseCustom60 at h'
        simp only [hd, hc] at h'
        cases h'
      | ok custom =>
        rw [iohcCozyDevice2W.caseCustom60_eq D data s t custom hd hc] at h'
        rw [← Outcome.done.inj h']
        intro f hf
        rw [List.mem_singleton.1 hf]
        exact flagsAsSet_start D D.fresh _ _ (by simp) rfl rfl
    · unfold iohcCozyDevice2W.caseCustom60 at h'
      rw [hd] at h'
      cases h'
  | setMode =>
    obtain ⟨dat, -, -, hq, -⟩ := iohcCozyDevice2W.caseSetMode_done D data s s' h
    have hlen : (iohcCozyDevice2W.setModePayload dat).length ≤ 21 := by
      rw [iohcCozyDevice2W.setModePayload_eq]; simp
    intro f hf
    rw [hq] at hf
    rcases mem_modifyAt _ _ _ _ hf with hm | ⟨x, hm, rfl⟩
    · obtain ⟨a, -, rfl⟩ := List.mem_map.1 hm
      exact flagsAsSet_start D D.fresh _ _ hlen rfl rfl
    · obtain ⟨a, -, rfl⟩ := List.mem_map.1 hm
      exact flagsAsSet_start D D.fresh _ _ hlen rfl rfl
  | discover28 =>
    obtain ⟨h1, -⟩ := iohcCozyDevice2W.discover28_foldl_spec D 10 0
      (iohcCozyDevice2W.clear s) rfl
    rw [← List.range_eq_range'] at h1
    have h' : iohcCozyDevice2W.caseDiscover28 D s = .done s' := h
    rw [iohcCozyDevice2W.caseDiscover28_eq] at h'
    rw [← Outcome.done.inj h']
    intro f hf
    rw [iohcCozyDevice2W.packets2send_send, h1] at hf
    simp only [iohcCozyDevice2W.packets2send_clear, List.nil_append] at hf
    rw [List.eq_of_mem_replicate hf]
    exact flagsAsSet_start_end D D.fresh [] 1 _ (by decide) (by decide) rfl rfl
  | discover2A =>
    obtain ⟨h1, -⟩ := iohcCozyDevice2W.discover2A_foldl_spec D (List.range 20)
      (iohcCozyDevice2W.clear s)
    have h' : iohcCozyDevice2W.caseDiscover2A D s = .done s' := h
    rw [iohcCozyDevice2W.caseDiscover2A_eq] at h'
    rw [← Outcome.done.inj h']
    intro f hf
    rw [iohcCozyDevice2W.packets2send_send, h1] at hf
    simp only [iohcCozyDevice2W.packets2send_clear, List.nil_append] at hf
    obtain ⟨i, -, rfl⟩ := List.mem_map.1 hf
    exact flagsAsSet_start_end D D.fresh _ 1 _ (by decide) (by decide) rfl rfl
  | fake0 =>
    have h' : iohcCozyDevice2W.caseFake0 D s = .done s' := h
    rw [iohcCozyDevice2W.caseFake0_eq] at h'
    rw [← Outcome.done.inj h', iohcCozyDevice2W.packets2send_send]
    exact iohcCozyDevice2W.all_foldl _ _
      (fun t g ht => iohcCozyDevice2W.flags_fake0Step D _ (by decide) t g ht)
      iohcCozyDevice2W.guessed (iohcCozyDevice2W.clear s) (fun f hf => by simp at hf)
  | custom =>
    have h' : iohcCozyDevice2W.caseCustom D s = .done s' := h
    rw [← iohcCozyDevice2W.caseCustom_queue D s [] (hacei rfl),
      iohcCozyDevice2W.caseCustom_eq] at h'
    rw [← Outcome.done.inj h', iohcCozyDevice2W.packets2send_send]
    exact iohcCozyDevice2W.flags_customLoop D (List.range 256) _ (by decide) _
      (fun f hf => by simp at hf)
  | checkCmd =>
    have h' : iohcCozyDevice2W.caseCheckCmd D s = .done s' := h
    rw [iohcCozyDevice2W.caseCheckCmd_eq] at h'
    rw [← Outcome.done.inj h']
    intro f hf
    rw [iohcCozyDevice2W.packets2send_send,
      iohcCozyDevice2W.packets2send_checkCmdLoop] at hf
    simp only [iohcCozyDevice2W.packets2send_clear, List.nil_append] at hf
    obtain ⟨e, -, rfl⟩ := List.mem_map.1 hf
    have hlen : (iohcCozyDevice2W.selectProbePayload e.1 []).length ≤ 21 := by
      have := selectProbePayload_length e.1
      simp only [List.mem_cons, List.mem_singleton, List.not_mem_nil, or_false] at this
      omega
    exact flagsAsSet_start_end D D.fresh _ 0 _ hlen (by decide) rfl rfl

/-- C26 (as amended): the addition of the payload length to the whole of control byte 1
in `forgePacket` is the update of the length field alone whenever 8 + L fits that
field. For a packet byte and a payload with `8 + L < 2^w`, `w` being the width of
the length field, `forgePacket` equals the function that adds L to the length field
only. For every button with a case in `cmd` (for `custom`: some byte passing the test
of its loop), every frame of the queue of a completed `cmd` has a payload of at most
21 bytes and, when `8 + L < 2^w` for its payload length L, its length field is 8 + L,
its protocol flag is 0, its start-of-frame flag is 1 and its end-of-frame flag is the
value the command assigned (1 for `associate`, `discover28` and `discover2A`, else 0).
With a length field of 5 bits this covers every frame (8 + 21 < 32); with the 4 bits
of the spec's data model it covers the payloads of at most 7 bytes. -/
theorem cmd_length_addition (D : Decls) :
    (∀ (packet : iohcPacket) (toSend : List Nat), packet.CtrlByte1 < 256 →
        8 + toSend.length < 2 ^ D.msgLenBits.val →
        forgePacket D packet toSend = forgePacketLengthField D packet toSend)
    ∧ (∀ (button : DeviceButton) (data : Tokens) (s s' : iohcCozyDevice2W),
        button ≠ .other →
        (button = .custom → ∃ acei, acei < 256 ∧ D.aceiValid acei = true) →
        iohcCozyDevice2W.cmd D button data s = .done s' →
        ∀ f ∈ s'.packets2send,
          f.buffer_length ≤ 9 + 21
          ∧ (f.buffer_length - 1 < 2 ^ D.msgLenBits.val →
              f.MsgLen D + 1 = f.buffer_length ∧ f.Protocol D = 0 ∧ f.StartFrame D = 1
              ∧ f.EndFrame D
                  = if button = .associate ∨ button = .discover28 ∨ button = .discover2A
                    then 1 else 0))
    ∧ (D.msgLenBits.val = 5 → ∀ n, n ≤ 9 + 21 → n - 1 < 2 ^ D.msgLenBits.val) := by
  refine ⟨forgePacket_eq_lengthField D, ?_, ?_⟩
  · intro button data s s' hb hacei h f hf
    exact cmd_flagsAsSet D button data s s' hb hacei h f hf
  · intro hw n hn
    rw [hw]
    omega

/-- Witness of C26 (as amended): `discover2A` with a length field of 5 bits; the 12-byte
payload gives the length field 20 and leaves the protocol flag at 0. -/
theorem cmd_length_addition_witness :
    ∃ s', iohcCozyDevice2W.cmd (sampleDecls 5) .discover2A [] sampleController = .done s'
      ∧ ∀ f ∈ s'.packets2send,
          f.buffer_length - 1 < 2 ^ (sampleDecls 5).msgLenBits.val
          ∧ f.MsgLen (sampleDecls 5) + 1 = f.buffer_length
          ∧ f.Protocol (sampleDecls 5) = 0 ∧ f.StartFrame (sampleDecls 5) = 1
          ∧ f.EndFrame (sampleDecls 5) = 1 := by
  refine ⟨_, iohcCozyDevice2W.caseDiscover2A_eq _ _, fun f hf => ?_⟩
  have h := (cmd_length_addition (sampleDecls 5)).2.1 .discover2A [] sampleController _
    (by decide) (fun h => by cases h) (iohcCozyDevice2W.caseDiscover2A_eq _ _) f hf
  have hfit : f.buffer_length - 1 < 2 ^ (sampleDecls 5).msgLenBits.val :=
    (cmd_length_addition (sampleDecls 5)).2.2 rfl _ h.1
  obtain ⟨h1, h2, h3, h4⟩ := h.2 hfit
  exact ⟨hfit, h1, h2, h3, by simpa using h4⟩

/-- C26 (counterexample): with the 4-bit length field of the spec's data model the
catalog command `discover2A` builds 20 frames with a 12-byte payload; in each of them
the addition of 12 to control byte 1 has carried out of the length field, which holds
4 instead of 8 + 12, into the protocol-version flag, which is 1. -/
theorem cmd_discover2A_length_carries :
    ∃ s', iohcCozyDevice2W.cmd (sampleDecls specMsgLenBits) .discover2A [] sampleController
        = .done s'
      ∧ s'.packets2send.length = 20
      ∧ ∀ f ∈ s'.packets2send,
          f.buffer_length = 9 + 12
          ∧ f.MsgLen (sampleDecls specMsgLenBits) = 4
          ∧ f.Protocol (sampleDecls specMsgLenBits) = 1
          ∧ f.Protocol (sampleDecls specMsgLenBits) ≠ 0 := by
  obtain ⟨h1, -⟩ := iohcCozyDevice2W.discover2A_foldl_spec (sampleDecls specMsgLenBits)
    (List.range 20) (iohcCozyDevice2W.clear sampleController)
  refine ⟨_, iohcCozyDevice2W.caseDiscover2A_eq _ _, ?_, ?_⟩
  · rw [iohcCozyDevice2W.packets2send_send, h1]
    simp
  · intro f hf
    rw [iohcCozyDevice2W.packets2send_send, h1] at hf
    simp only [iohcCozyDevice2W.packets2send_clear, List.nil_append] at hf
    obtain ⟨i, -, rfl⟩ := List.mem_map.1 hf
    have hm : (discover2AFrame (sampleDecls specMsgLenBits)
        (iohcCozyDevice2W.clear sampleController).gateway 0).MsgLen
          (sampleDecls specMsgLenBits) = 4 := by decide
    have hp : (discover2AFrame (sampleDecls specMsgLenBits)
        (iohcCozyDevice2W.clear sampleController).gateway 0).Protocol
          (sampleDecls specMsgLenBits) = 1 := by decide
    have hp' : (discover2AFrame (sampleDecls specMsgLenBits)
        (iohcCozyDevice2W.clear sampleController).gateway i).Protocol
          (sampleDecls specMsgLenBits) = 1 := hp
    exact ⟨rfl, hm, hp, by rw [hp']; decide⟩

/-! ## The controller behind a failed parse -/

/-- C31: when `cmd(setTemp)` or `cmd(setWindow)` fails on its arguments, `cmd` leaves
through the exception with the controller exactly as before the call, the queued
burst and the memo of the last command included, every read and conversion of an
argument standing before `packets2send.clear()`. For `setTemp` the failures are: the
temperature argument is missing (`data->at(1)` throws), `std::stof` throws on it, or,
behind a temperature that parses and converts, the index argument is missing or
`std::stoi` throws on it. For `setWindow`: the keyword argument is missing, or the
index argument is missing or `std::stoi` throws on it. -/
theorem cmd_parse_failure_keeps_state (D : Decls) (data : Tokens) (s : iohcCozyDevice2W)
    (e : Exn) :
    ((tokenAt data 1 = .error e
        ∨ (∃ t, tokenAt data 1 = .ok t ∧ D.stof t = .error e)
        ∨ (∃ t x temp, tokenAt data 1 = .ok t ∧ D.stof t = .ok x
            ∧ floatToInt (tenTimes x) = some temp
            ∧ iohcCozyDevice2W.indexArg D data = .error e)) →
      iohcCozyDevice2W.cmd D .setTemp data s = .thrown e s)
    ∧ ((tokenAt data 1 = .error e
        ∨ (∃ dat, tokenAt data 1 = .ok dat
            ∧ iohcCozyDevice2W.indexArg D data = .error e)) →
      iohcCozyDevice2W.cmd D .setWindow data s = .thrown e s)
    ∧ (∀ u, data.length ≠ 2 → tokenAt data 2 = .ok u → D.stoi u = .error e →
        iohcCozyDevice2W.indexArg D data = .error e)
    ∧ (data.length ≠ 2 → tokenAt data 2 = .error e →
        iohcCozyDevice2W.indexArg D data = .error e) := by
  refine ⟨?_, ?_, ?_, ?_⟩
  · intro h
    show iohcCozyDevice2W.caseSetTemp D data s = _
    unfold iohcCozyDevice2W.caseSetTemp
    rcases h with h1 | ⟨t, h1, hx⟩ | ⟨t, x, temp, h1, hx, ht, hi⟩
    · simp only [h1]
    · simp only [h1, hx]
    · simp only [h1, hx, ht, hi]
  · intro h
    show iohcCozyDevice2W.caseSetWindow D data s = _
    unfold iohcCozyDevice2W.caseSetWindow
    rcases h with h1 | ⟨dat, h1, hi⟩
    · simp only [h1]
    · simp only [h1, hi]
  · intro u hlen h2 hu
    unfold iohcCozyDevice2W.indexArg
    simp only [if_neg hlen, h2, hu]
  · intro hlen h2
    unfold iohcCozyDevice2W.indexArg
    simp only [if_neg hlen, h2]

/-- Witness of C31: on the sample controller with a frame of an earlier burst in the
queue and the memo of an earlier `powerOn`, `settemp` without a temperature throws
`std::out_of_range` and `setwindow open first` throws `std::invalid_argument`; the thrown
state is the controller before the call, queue and memo as they were. -/
theorem cmd_parse_failure_keeps_state_witness :
    iohcCozyDevice2W.cmd (sampleDecls specMsgLenBits) .setTemp ["settemp"]
        { sampleController with
          packets2send := [zeroPacket]
          memorizeSend := { memorizedCmd := 0x20, memorizedData := [0x0C, 0x60, 0x01, 0x2C] } }
      = .thrown .out_of_range
        { sampleController with
          packets2send := [zeroPacket]
          memorizeSend := { memorizedCmd := 0x20, memorizedData := [0x0C, 0x60, 0x01, 0x2C] } }
    ∧ iohcCozyDevice2W.cmd (sampleDecls specMsgLenBits) .setWindow
        ["setwindow", "open", "first"]
        { sampleController with
          packets2send := [zeroPacket]
          memorizeSend := { memorizedCmd := 0x20, memorizedData := [0x0C, 0x60, 0x01, 0x2C] } }
      = .thrown .invalid_argument
        { sampleController with
          packets2send := [zeroPacket]
          memorizeSend := { memorizedCmd := 0x20, memorizedData := [0x0C, 0x60, 0x01, 0x2C] } } :=
  ⟨(cmd_parse_failure_keeps_state (sampleDecls specMsgLenBits) ["settemp"] _
      .out_of_range).1 (Or.inl rfl),
    (cmd_parse_failure_keeps_state (sampleDecls specMsgLenBits) ["setwindow", "open", "first"]
      _ .invalid_argument).2.1 (Or.inr ⟨"open", rfl, rfl⟩)⟩

/-! ## An index beyond the device list -/

/-- C20 (counterexample): after `load()` of the sample store the device list holds one
record, so the index 1 is out of the bounds of the registry (1 >= 1); yet
`cmd(setTemp, ["settemp", "21.5", "1"])` completes and hands one frame to the radio,
targeted at entry 1 of the address table. Before any `load()` the device list is empty
and index 0 (no index argument) is out of its bounds as well; `cmd` completes and sends
all the same. -/
theorem cmd_setTemp_index_beyond_registry_sends :
    loadedController.devices.length = 1
    ∧ iohcCozyDevice2W.indexArg (sampleDecls 5) ["settemp", "21.5", "1"] = .ok 1
    ∧ (∃ s' f, iohcCozyDevice2W.cmd (sampleDecls 5) .setTemp ["settemp", "21.5", "1"]
          loadedController = .done s'
        ∧ s'.sent = [[f]] ∧ f.target = ⟨0x8C, 0xCB, 0x31⟩)
    ∧ sampleController.devices.length = 0
    ∧ iohcCozyDevice2W.indexArg (sampleDecls 5) ["settemp", "21.5"] = .ok 0
    ∧ ∃ s' f, iohcCozyDevice2W.cmd (sampleDecls 5) .setTemp ["settemp", "21.5"]
          sampleController = .done s'
        ∧ s'.sent = [[f]] ∧ f.target = ⟨0x48, 0x79, 0x02⟩ := by
  have h1 := iohcCozyDevice2W.caseSetTemp_eq_sendToIndex (sampleDecls 5)
    ["settemp", "21.5", "1"] loadedController "21.5" (.finite 43 (-1)) 215 1 rfl rfl
    (by decide) rfl
  have h2 := iohcCozyDevice2W.sendToIndex_eq (sampleDecls 5)
    [0x0C, 0x61, 0x01, 0x03, toUInt8 215, 0x00] 1 loadedController ⟨0x8C, 0xCB, 0x31⟩ rfl
  have h3 := iohcCozyDevice2W.caseSetTemp_eq_sendToIndex (sampleDecls 5)
    ["settemp", "21.5"] sampleController "21.5" (.finite 43 (-1)) 215 0 rfl rfl
    (by decide) rfl
  have h4 := iohcCozyDevice2W.sendToIndex_eq (sampleDecls 5)
    [0x0C, 0x61, 0x01, 0x03, toUInt8 215, 0x00] 0 sampleController ⟨0x48, 0x79, 0x02⟩ rfl
  exact ⟨rfl, rfl, ⟨_, _, h1.trans h2, rfl, rfl⟩, rfl, rfl, ⟨_, _, h3.trans h4, rfl, rfl⟩⟩

/-! ## The payload behind each frame of `cmd` -/

namespace iohcCozyDevice2W

theorem caseSetTemp_done_payload (D : Decls) (data : Tokens) (s s' : iohcCozyDevice2W)
    (h : caseSetTemp D data s = .done s') :
    ∃ t x temp addr, tokenAt data 1 = .ok t ∧ D.stof t = .ok x
      ∧ floatToInt (tenTimes x) = some temp
      ∧ sendToIndex D [0x0C, 0x61, 0x01, 0x03, toUInt8 temp, 0x00] addr s = .done s' := by
  unfold caseSetTemp at h
  split at h
  · cases h
  · rename_i t ht
    split at h
    · cases h
    · rename_i x hx
      split at h
      · cases h
      · rename_i temp htemp
        split at h
        · cases h
        · rename_i addr ha
          exact ⟨t, x, temp, addr, ht, hx, htemp, h⟩

theorem caseSetWindow_done_payload (D : Decls) (data : Tokens) (s s' : iohcCozyDevice2W)
    (h : caseSetWindow D data s = .done s') :
    ∃ dat addr, tokenAt data 1 = .ok dat
      ∧ sendToIndex D (setWindowPayload dat) addr s = .done s' := by
  unfold caseSetWindow at h
  split at h
  · cases h
  · rename_i dat hd
    split at h
    · cases h
    · rename_i addr ha
      exact ⟨dat, addr, hd, h⟩

theorem payload_fake0Step (D : Decls) (toSend : List Nat) (s : iohcCozyDevice2W) (g : address)
    (h : ∀ f ∈ s.packets2send, f.ForgedWith D toSend) :
    ∀ f ∈ (fake0Step D toSend s g).packets2send, f.ForgedWith D toSend := by
  unfold fake0Step
  simp only [packets2send_onBack, packets2send_memoCmd, packets2send_memoData,
    packets2send_pushNew, modifyBack_append_singleton]
  intro f hf
  rcases List.mem_append.1 hf with hf | hf
  · exact h f hf
  · rw [List.mem_singleton.1 hf]
    exact forgedWith_forgePacket D toSend

theorem payload_customLoop (D : Decls) (l : List Nat) (hl : ∀ a ∈ l, a < 256)
    (toSend : List Nat) (x : Nat) (hts : toSend = [0x01, x, 0xc8, 0x00, 0x00, 0x00])
    (s : iohcCozyDevice2W)
    (h : ∀ f ∈ s.packets2send, ∃ acei, acei < 256 ∧ D.aceiValid acei = true
      ∧ f.ForgedWith D [0x01, acei, 0xc8, 0x00, 0x00, 0x00]) :
    ∀ f ∈ (customLoop D l toSend s).packets2send, ∃ acei, acei < 256
      ∧ D.aceiValid acei = true ∧ f.ForgedWith D [0x01, acei, 0xc8, 0x00, 0x00, 0x00] := by
  induction l generalizing toSend x s with
  | nil => exact h
  | cons acei rest ih =>
    have hlt : acei < 256 := hl acei (List.mem_cons_self _ _)
    have hrest : ∀ a ∈ rest, a < 256 := fun a ha => hl a (List.mem_cons_of_mem _ ha)
    unfold customLoop
    split
    · rename_i hv
      have hset : toSend.set 1 (acei % 256) = [0x01, acei, 0xc8, 0x00, 0x00, 0x00] := by
        rw [hts, Nat.mod_eq_of_lt hlt]
        rfl
      rw [hset]
      apply ih hrest _ acei rfl
      simp only [packets2send_onBack, packets2send_memoCmd, packets2send_memoData,
        packets2send_pushNew, packets2send_clear, List.nil_append, modifyBack_singleton]
      intro f hf
      rw [List.mem_singleton.1 hf]
      exact ⟨acei, hlt, hv, forgedWith_forgePacket D _⟩
    · exact ih hrest toSend x hts s h

end iohcCozyDevice2W

theorem cmd_forgedPayload (D : Decls) (button : DeviceButton) (data : Tokens)
    (s s' : iohcCozyDevice2W) (hb : button ≠ .other)
    (hacei : button = .custom → ∃ acei, acei < 256 ∧ D.aceiValid acei = true)
    (h : iohcCozyDevice2W.cmd D button data s = .done s') :
    ∀ f ∈ s'.packets2send, ∃ toSend,
      iohcCozyDevice2W.ForgedPayload D button data s f toSend ∧ f.ForgedWith D toSend := by
  cases button with
  | other => exact absurd rfl hb
  | associate =>
    have h' : iohcCozyDevice2W.caseAssociate D s = .done s' := h
    rw [iohcCozyDevice2W.caseAssociate_eq] at h'
    rw [← Outcome.done.inj h']
    intro f hf
    rw [List.mem_singleton.1 hf]
    exact ⟨[], rfl, forgedWith_forgePacket D _⟩
  | powerOn =>
    have h' : iohcCozyDevice2W.casePowerOn D s = .done s' := h
    rw [iohcCozyDevice2W.casePowerOn_eq] at h'
    rw [← Outcome.done.inj h']
    intro f hf
    rw [List.mem_singleton.1 hf]
    exact ⟨_, rfl, forgedWith_forgePacket D _⟩
  | midnight =>
    have h' : iohcCozyDevice2W.caseMidnight D s = .done s' := h
    rw [iohcCozyDevice2W.caseMidnight_eq] at h'
    rw [← Outcome.done.inj h']
    intro f hf
    rw [List.mem_singleton.1 hf]
    exact ⟨_, rfl, forgedWith_forgePacket D _⟩
  | ack =>
    have h' : iohcCozyDevice2W.caseAck D s = .done s' := h
    rw [iohcCozyDevice2W.caseAck_eq] at h'
    rw [← Outcome.done.inj h']
    intro f hf
    rw [List.mem_singleton.1 hf]
    exact ⟨[], rfl, forgedWith_forgePacket D _⟩
  | setTemp =>
    obtain ⟨t, x, temp, addr, ht, hx, htemp, hs⟩ :=
      iohcCozyDevice2W.caseSetTemp_done_payload D data s s' h
    obtain ⟨a, -, rfl⟩ := iohcCozyDevice2W.sendToIndex_done D _ addr s s' hs
    intro f hf
    rw [List.mem_singleton.1 hf]
    exact ⟨_, ⟨t, x, temp, ht, hx, htemp, rfl⟩, forgedWith_forgePacket D _⟩
  | setWindow =>
    obtain ⟨dat, addr, hd, hs⟩ := iohcCozyDevice2W.caseSetWindow_done_payload D data s s' h
    obtain ⟨a, -, rfl⟩ := iohcCozyDevice2W.sendToIndex_done D _ addr s s' hs
    intro f hf
    rw [List.mem_singleton.1 hf]
    exact ⟨_, ⟨dat, hd, rfl⟩, forgedWith_forgePacket D _⟩
  | setPresence =>
    have h' : iohcCozyDevice2W.caseSetPresence D data s = .done s' := h
    rcases tokenAt_cases data 1 with ⟨dat, hd⟩ | hd
    · rw [iohcCozyDevice2W.caseSetPresence_eq D data s dat hd] at h'
      rw [← Outcome.done.inj h']
      intro f hf
      rw [List.mem_singleton.1 hf]
      exact ⟨_, ⟨dat, hd, rfl⟩, forgedWith_forgePacket D _⟩
    · unfold iohcCozyDevice2W.caseSetPresence at h'
      rw [hd] at h'
      cases h'
  | custom60 =>
    have h' : iohcCozyDevice2W.caseCustom60 D data s = .done s' := h
    rcases tokenAt_cases data 1 with ⟨t, hd⟩ | hd
    · cases hc : D.stoi t with
      | error e =>
        unfold iohcCozyDevice2W.caseCustom60 at h'
        simp only [hd, hc] at h'
        cases h'
      | ok custom =>
        rw [iohcCozyDevice2W.caseCustom60_eq D data s t custom hd hc] at h'
        rw [← Outcome.done.inj h']
        intro f hf
        rw [List.mem_singleton.1 hf]
        exact ⟨_, ⟨t, custom, hd, hc, rfl⟩, forgedWith_forgePacket D _⟩
    · unfold iohcCozyDevice2W.caseCustom60 at h'
      rw [hd] at h'
      cases h'
  | setMode =>
    obtain ⟨dat, hd, -, hq, -⟩ := iohcCozyDevice2W.caseSetMode_done D data s s' h
    intro f hf
    rw [hq] at hf
    rcases mem_modifyAt _ _ _ _ hf with hm | ⟨x, hm, rfl⟩
    · obtain ⟨a, -, rfl⟩ := List.mem_map.1 hm
      exact ⟨_, ⟨dat, hd, rfl⟩, forgedWith_forgePacket D _⟩
    · obtain ⟨a, -, rfl⟩ := List.mem_map.1 hm
      exact ⟨_, ⟨dat, hd, rfl⟩, forgedWith_forgePacket D _⟩
  | discover28 =>
    obtain ⟨h1, -⟩ := iohcCozyDevice2W.discover28_foldl_spec D 10 0
      (iohcCozyDevice2W.clear s) rfl
    rw [← List.range_eq_range'] at h1
    have h' : iohcCozyDevice2W.caseDiscover28 D s = .done s' := h
    rw [iohcCozyDevice2W.caseDiscover28_eq] at h'
    rw [← Outcome.done.inj h']
    intro f hf
    rw [iohcCozyDevice2W.packets2send_send, h1] at hf
    simp only [iohcCozyDevice2W.packets2send_clear, List.nil_append] at hf
    rw [List.eq_of_mem_replicate hf]
    exact ⟨[], rfl, forgedWith_forgePacket D _⟩
  | discover2A =>
    obtain ⟨h1, -⟩ := iohcCozyDevice2W.discover2A_foldl_spec D (List.range 20)
      (iohcCozyDevice2W.clear s)
    have h' : iohcCozyDevice2W.caseDiscover2A D s = .done s' := h
    rw [iohcCozyDevice2W.caseDiscover2A_eq] at h'
    rw [← Outcome.done.inj h']
    intro f hf
    rw [iohcCozyDevice2W.packets2send_send, h1] at hf
    simp only [iohcCozyDevice2W.packets2send_clear, List.nil_append] at hf
    obtain ⟨i, -, rfl⟩ := List.mem_map.1 hf
    exact ⟨_, rfl, forgedWith_forgePacket D _⟩
  | fake0 =>
    have h' : iohcCozyDevice2W.caseFake0 D s = .done s' := h
    rw [iohcCozyDevice2W.caseFake0_eq] at h'
    rw [← Outcome.done.inj h', iohcCozyDevice2W.packets2send_send]
    intro f hf
    exact ⟨_, rfl, iohcCozyDevice2W.all_foldl _ _
      (fun t g ht => iohcCozyDevice2W.payload_fake0Step D _ t g ht)
      iohcCozyDevice2W.guessed (iohcCozyDevice2W.clear s) (fun f hf => by simp at hf) f hf⟩
  | custom =>
    have h' : iohcCozyDevice2W.caseCustom D s = .done s' := h
    rw [← iohcCozyDevice2W.caseCustom_queue D s [] (hacei rfl),
      iohcCozyDevice2W.caseCustom_eq] at h'
    rw [← Outcome.done.inj h', iohcCozyDevice2W.packets2send_send]
    intro f hf
    obtain ⟨acei, hlt, hv, hf'⟩ := iohcCozyDevice2W.payload_customLoop D (List.range 256)
      (fun a ha => List.mem_range.1 ha) _ 0x47 rfl _ (fun f hf => by simp at hf) f hf
    exact ⟨_, ⟨acei, hlt, hv, rfl⟩, hf'⟩
  | checkCmd =>
    have h' : iohcCozyDevice2W.caseCheckCmd D s = .done s' := h
    rw [iohcCozyDevice2W.caseCheckCmd_eq] at h'
    rw [← Outcome.done.inj h']
    intro f hf
    rw [iohcCozyDevice2W.packets2send_send,
      iohcCozyDevice2W.packets2send_checkCmdLoop] at hf
    simp only [iohcCozyDevice2W.packets2send_clear, List.nil_append] at hf
    obtain ⟨e, he, rfl⟩ := List.mem_map.1 hf
    obtain ⟨hmem, hp⟩ := List.mem_filter.1 he
    exact ⟨_, ⟨e, hmem, by simpa [probed] using hp, rfl, rfl⟩,
      forgedWith_probeFrame D s.gateway e.1⟩

/-- C2: for every button with a case in `cmd` and all arguments for which `cmd` completes
(for `custom`: some byte passing the test of its loop), every frame of the queue
carries the payload that its case handed to `forgePacket`: the buffer behind the header
is the one `forgePacket` wrote for that payload, and the declared length `buffer_length`
is the value `forgePacket` assigned, 9 plus the length of that payload; no later
statement of the case has changed it. -/
theorem cmd_buffer_length (D : Decls) (button : DeviceButton) (data : Tokens)
    (s s' : iohcCozyDevice2W) (hb : button ≠ .other)
    (hacei : button = .custom → ∃ acei, acei < 256 ∧ D.aceiValid acei = true)
    (h : iohcCozyDevice2W.cmd D button data s = .done s') :
    ∀ f ∈ s'.packets2send, ∃ toSend,
      iohcCozyDevice2W.ForgedPayload D button data s f toSend
      ∧ f.body = (forgePacket D D.fresh toSend).body
      ∧ f.buffer_length = (forgePacket D D.fresh toSend).buffer_length
      ∧ f.buffer_length = 9 + toSend.length := by
  intro f hf
  obtain ⟨toSend, hp, hbody, hlen⟩ := cmd_forgedPayload D button data s s' hb hacei h f hf
  refine ⟨toSend, hp, hbody, ?_, hlen⟩
  rw [hlen]
  exact (forgedWith_forgePacket D toSend).2.symm

/-- Witness of C2: `powerOn` on the sample controller; the frame carries the 4-byte
payload `0C 60 01 2C` and its declared length is 13. -/
theorem cmd_buffer_length_witness :
    ∃ s', iohcCozyDevice2W.cmd (sampleDecls 5) .powerOn [] sampleController = .done s'
      ∧ s'.packets2send.length = 1
      ∧ ∀ f ∈ s'.packets2send,
          f.body = (forgePacket (sampleDecls 5) (sampleDecls 5).fresh
            [0x0C, 0x60, 0x01, 0x2C]).body
          ∧ f.buffer_length = 13 := by
  refine ⟨_, iohcCozyDevice2W.casePowerOn_eq _ _, rfl, fun f hf => ?_⟩
  obtain ⟨toSend, hp, hbody, -, hlen⟩ :=
    cmd_buffer_length (sampleDecls 5) .powerOn [] sampleController _ (by decide)
      (fun h => by cases h) (iohcCozyDevice2W.casePowerOn_eq _ _) f hf
  have hp' : toSend = [0x0C, 0x60, 0x01, 0x2C] := hp
  subst hp'
  exact ⟨hbody, hlen⟩

/-! ## The lines of `scanDump` -/

theorem scanDumpLoop_eq (m : List (Nat × Nat)) :
    ∀ count, count + (m.filter (fun e => decide (e.2 ≠ 0x08))).length < 256 →
      iohcCozyDevice2W.scanDumpLoop m count
        = (breakEvery16 count ((m.filter (fun e => decide (e.2 ≠ 0x08))).map renderEntry),
           count + (m.filter (fun e => decide (e.2 ≠ 0x08))).length) := by
  induction m with
  | nil => intro count _; rfl
  | cons it rest ih =>
    intro count hc
    unfold iohcCozyDevice2W.scanDumpLoop
    by_cases h8 : it.2 ≠ 0x08
    · have hcell : (if it.2 = 0x3C then [iohcCozyDevice2W.hex2 it.1 ++ "=AUTH "]
          else if it.2 = 0x80 then [iohcCozyDevice2W.hex2 it.1 ++ "=NRDY "]
          else [iohcCozyDevice2W.hex2 it.1 ++ "=" ++ iohcCozyDevice2W.hex2 it.2 ++ "\t"])
          = [renderEntry it] := by
        unfold renderEntry
        split
        · rfl
        · split <;> rfl
      rw [List.filter_cons_of_pos (by simpa using h8)] at hc ⊢
      rw [List.length_cons] at hc
      have hmod : (count + 1) % 256 = count + 1 := Nat.mod_eq_of_lt (by omega)
      rw [if_pos h8, hcell]
      simp only [hmod]
      rw [ih (count + 1) (by omega)]
      simp only [List.map_cons, List.length_cons, breakEvery16]
      refine Prod.ext ?_ (by simp only []; omega)
      simp only []
      split <;> simp
    · rw [if_neg h8]
      rw [List.filter_cons_of_neg (by simpa using h8)] at hc ⊢
      exact ih count hc

theorem breakEvery16_append (a b : List String) :
    ∀ k, breakEvery16 k (a ++ b) = breakEvery16 k a ++ breakEvery16 (k + a.length) b := by
  induction a with
  | nil => intro k; rfl
  | cons c a ih =>
    intro k
    have hidx : k + 1 + a.length = k + (c :: a).length := by
      rw [List.length_cons]; omega
    show (if (k + 1) % 16 = 0 then [c, "\n"] else [c]) ++ breakEvery16 (k + 1) (a ++ b)
      = ((if (k + 1) % 16 = 0 then [c, "\n"] else [c]) ++ breakEvery16 (k + 1) a)
        ++ breakEvery16 (k + (c :: a).length) b
    rw [ih (k + 1), List.append_assoc, hidx]

theorem breakEvery16_short (a : List String) :
    ∀ k, k % 16 + a.length < 16 → breakEvery16 k a = a := by
  induction a with
  | nil => intro k _; rfl
  | cons c a ih =>
    intro k hk
    rw [List.length_cons] at hk
    have h1 : ¬ (k + 1) % 16 = 0 := by omega
    simp only [breakEvery16, if_neg h1, List.singleton_append]
    rw [ih (k + 1) (by omega)]

theorem breakEvery16_full (a : List String) (k : Nat) (hk : k % 16 = 0)
    (ha : a.length = 16) : breakEvery16 k a = a ++ ["\n"] := by
  have hsplit : a = a.take 15 ++ a.drop 15 := (List.take_append_drop 15 a).symm
  have hlen : (a.take 15).length = 15 := by rw [List.length_take]; omega
  have hdrop : (a.drop 15).length = 1 := by rw [List.length_drop]; omega
  obtain ⟨x, hx⟩ : ∃ x, a.drop 15 = [x] := by
    cases hd : a.drop 15 with
    | nil => rw [hd] at hdrop; simp at hdrop
    | cons x t =>
      rw [hd] at hdrop
      cases t with
      | nil => exact ⟨x, rfl⟩
      | cons y t => simp at hdrop
  rw [hx] at hsplit
  rw [hsplit, breakEvery16_append, breakEvery16_short _ _ (by omega), hlen]
  have h0 : (k + 15 + 1) % 16 = 0 := by omega
  simp only [breakEvery16, if_pos h0, List.append_nil, List.append_assoc, List.cons_append,
    List.nil_append]

theorem line16_drop (cells : List String) (i : Nat) :
    line16 (cells.drop 16) i = line16 cells (i + 1) := by
  unfold line16
  rw [List.drop_drop]
  have : 16 + 16 * i = 16 * (i + 1) := by ring
  rw [this]

theorem breakEvery16_lines :
    ∀ (m : Nat) (cells : List String) (k : Nat), k % 16 = 0 → (cells.length + 15) / 16 = m →
      breakEvery16 k cells ++ (if cells.length % 16 ≠ 0 then ["\n"] else [])
        = ((List.range m).map (fun i => line16 cells i ++ ["\n"])).flatten := by
  intro m
  induction m with
  | zero =>
    intro cells k _ hm
    have h0 : cells.length = 0 := by omega
    have hnil : cells = [] := List.length_eq_zero.1 h0
    subst hnil
    rfl
  | succ m ih =>
    intro cells k hk hm
    rw [List.range_succ_eq_map, List.map_cons, List.flatten_cons, List.map_map]
    have hfun : ((fun i => line16 cells i ++ ["\n"]) ∘ Nat.succ)
        = fun i => line16 (cells.drop 16) i ++ ["\n"] := by
      funext i
      simp only [Function.comp, line16_drop]
    rw [hfun]
    have hline0 : line16 cells 0 = cells.take 16 := by
      unfold line16
      simp
    rw [hline0]
    by_cases hlen : 16 ≤ cells.length
    · have hrest := ih (cells.drop 16) (k + 16) (by omega)
        (by rw [List.length_drop]; omega)
      have hmod : (cells.drop 16).length % 16 = cells.length % 16 := by
        rw [List.length_drop]; omega
      rw [hmod] at hrest
      rw [← hrest]
      conv_lhs => rw [← List.take_append_drop 16 cells]
      rw [breakEvery16_append, breakEvery16_full _ k hk (by rw [List.length_take]; omega)]
      have htl : (cells.take 16).length = 16 := by rw [List.length_take]; omega
      rw [htl]
      simp only [List.append_assoc, List.length_append, List.length_take, List.length_drop]
      have hmin : (min 16 cells.length + (cells.length - 16)) % 16 = cells.length % 16 := by
        omega
      rw [hmin]
    · have hm0 : m = 0 := by omega
      subst hm0
      have hpos : cells.length % 16 ≠ 0 := by omega
      rw [breakEvery16_short cells k (by omega), if_pos hpos,
        List.take_of_length_le (by omega)]
      simp

theorem line16_flatten :
    ∀ (m : Nat) (cells : List String), (cells.length + 15) / 16 = m →
      ((List.range m).map (line16 cells)).flatten = cells := by
  intro m
  induction m with
  | zero =>
    intro cells hm
    have h0 : cells.length = 0 := by omega
    rw [List.length_eq_zero.1 h0]
    rfl
  | succ m ih =>
    intro cells hm
    rw [List.range_succ_eq_map, List.map_cons, List.flatten_cons, List.map_map]
    have hfun : (line16 cells ∘ Nat.succ) = line16 (cells.drop 16) := by
      funext i
      simp only [Function.comp, line16_drop]
    rw [hfun, ih (cells.drop 16) (by rw [List.length_drop]; omega)]
    unfold line16
    simp

theorem length_line16 (cells : List String) (i : Nat) :
    (line16 cells i).length = min 16 (cells.length - 16 * i) := by
  unfold line16
  rw [List.length_take, List.length_drop]

/-- C13: for every validity table with fewer than 256 rendered entries (the counter of
`scanDump` is a `uint8_t`; the table that `initializeValid` seeds has 57 entries),
`scanDump` prints the header line, then the rendered cells 16 to a line, each line
ended by a line break, then the count line with the number of rendered entries.
Entries with status 0x08 are not among the cells and do not count. Line `i` holds the
cells `16 * i` to `16 * i + 15`: every line has at least one cell and at most 16, every
line but the last has exactly 16, the lines together are the cells in order, and no
cell is itself a line break. -/
theorem scanDump_lines (s : iohcCozyDevice2W)
    (hn : (s.mapValid.filter (fun e => decide (e.2 ≠ 0x08))).length < 256) :
    iohcCozyDevice2W.scanDump s
      = "*********************** Scan result ***********************\n"
          :: ((List.range ((s.renderedCells.length + 15) / 16)).map
                (fun i => line16 s.renderedCells i ++ ["\n"])).flatten
          ++ [toString s.renderedCells.length ++ " toCheck \n"]
    ∧ s.renderedCells.length = (s.mapValid.filter (fun e => decide (e.2 ≠ 0x08))).length
    ∧ (∀ i, i < (s.renderedCells.length + 15) / 16 →
        0 < (line16 s.renderedCells i).length ∧ (line16 s.renderedCells i).length ≤ 16
        ∧ (i + 1 < (s.renderedCells.length + 15) / 16 →
            (line16 s.renderedCells i).length = 16))
    ∧ ((List.range ((s.renderedCells.length + 15) / 16)).map
          (line16 s.renderedCells)).flatten = s.renderedCells
    ∧ ∀ c ∈ s.renderedCells, c ≠ "\n" := by
  have hlen : s.renderedCells.length
      = (s.mapValid.filter (fun e => decide (e.2 ≠ 0x08))).length := by
    unfold iohcCozyDevice2W.renderedCells
    rw [List.length_map]
  refine ⟨?_, hlen, ?_, line16_flatten _ _ rfl, ?_⟩
  · have hloop := scanDumpLoop_eq s.mapValid 0 (by omega)
    have hlines := breakEvery16_lines _ s.renderedCells 0 rfl rfl
    unfold iohcCozyDevice2W.scanDump
    simp only [hloop, Nat.zero_add]
    rw [← hlen, ← hlines]
    simp only [iohcCozyDevice2W.renderedCells, List.singleton_append, List.cons_append,
      List.append_assoc, List.nil_append]
  · intro i hi
    rw [length_line16]
    omega
  · intro c hc
    unfold iohcCozyDevice2W.renderedCells at hc
    obtain ⟨e, -, rfl⟩ := List.mem_map.1 hc
    exact renderEntry_ne_newline e

/-- Witness of C13: the table that `initializeValid` seeds on the sample controller, 57
entries at status 0: four lines, the last with 9 cells, and the count line `57`. -/
theorem scanDump_lines_witness :
    ((iohcCozyDevice2W.initializeValid sampleController).mapValid.filter
        (fun e => decide (e.2 ≠ 0x08))).length = 57
    ∧ iohcCozyDevice2W.scanDump (iohcCozyDevice2W.initializeValid sampleController)
      = "*********************** Scan result ***********************\n"
          :: ((List.range 4).map (fun i =>
                line16 (iohcCozyDevice2W.initializeValid sampleController).renderedCells i
                  ++ ["\n"])).flatten
          ++ ["57 toCheck \n"]
    ∧ (line16 (iohcCozyDevice2W.initializeValid sampleController).renderedCells 3).length
        = 9 := by
  have hcount : ((iohcCozyDevice2W.initializeValid sampleController).mapValid.filter
      (fun e => decide (e.2 ≠ 0x08))).length = 57 := by
    rw [mapValid_initializeValid]
    decide
  have h := scanDump_lines (iohcCozyDevice2W.initializeValid sampleController)
    (by rw [hcount]; decide)
  have hlen := h.2.1.trans hcount
  refine ⟨hcount, ?_, ?_⟩
  · have h1 := h.1
    rw [hlen] at h1
    exact h1
  · rw [length_line16, hlen]
    decide

end IOHC
